import Mathlib

/-!
Shallow embedding of the optus e-commerce extraction pipeline
(`src/adws/adw_modules/product_schemas.py`, `src/adws/adw_modules/product_extractor.py`).

Modelling conventions:
* Python `str` values are lists of characters (`Str`); `None`-able strings are `Option Str`,
  where `some []` is the (falsy) empty string and `none` is Python `None`.
* Python floats are rationals (`ℚ`); `round(x, n)` is modelled as round-half-to-even on
  `x * 10^n` (Python's documented rounding mode; binary-float representation error is
  outside the model).
* Python `re` patterns are transcribed one by one into a small regex AST (`RE`) and run by
  a backtracking matcher with Python's leftmost / greedy / lazy preferences.  Character
  classes `\d` and `\s` are modelled on the character sets this code base actually meets
  (ASCII digits plus Thai digits, ASCII whitespace).
* Fallible code returns `Option`; code whose exceptions escape returns `Except PyErr`.
-/

set_option linter.unreachableTactic false
set_option linter.unusedTactic false
set_option maxRecDepth 8192

namespace Optus

abbrev Str := List Char

/-- Double quote character. -/
def qc : Char := Char.ofNat 34

/-- Apostrophe character. -/
def ac : Char := Char.ofNat 39

/-- Backslash character. -/
def bsl : Char := Char.ofNat 92

/-- Opening curly brace character. -/
def obr : Char := Char.ofNat 123

/-- Closing curly brace character. -/
def cbr : Char := Char.ofNat 125

/-- Opening square bracket character. -/
def osq : Char := Char.ofNat 91

/-- Closing square bracket character. -/
def csq : Char := Char.ofNat 93

/-- Less-than character. -/
def ltc : Char := Char.ofNat 60

/-- Greater-than character. -/
def gtc : Char := Char.ofNat 62

/-- Carriage-return character. -/
def crc : Char := Char.ofNat 13

/-- Python whitespace (`str.split`, `str.strip`, regex `\s`): the ASCII whitespace
characters, which are the only whitespace this code base meets. -/
def isWS (c : Char) : Bool :=
  c = ' ' || c = Char.ofNat 9 || c = Char.ofNat 10 || c = crc ||
  c = Char.ofNat 11 || c = Char.ofNat 12

/-- ASCII lower-casing of one character (Python `str.lower` on the ASCII range). -/
def lowerC (c : Char) : Char :=
  if 'A' ≤ c ∧ c ≤ 'Z' then Char.ofNat (c.toNat + 32) else c

/-- ASCII upper-casing of one character. -/
def upperC (c : Char) : Char :=
  if 'a' ≤ c ∧ c ≤ 'z' then Char.ofNat (c.toNat - 32) else c

/-- Python `str.lower` (ASCII range). -/
def lowerS (s : Str) : Str := s.map lowerC

/-- Helper for `splitWS`: current token accumulator is reversed. -/
def splitWSAux : Str → Str → List Str
  | [], acc => if acc.isEmpty then [] else [acc.reverse]
  | c :: t, acc =>
    if isWS c then
      if acc.isEmpty then splitWSAux t [] else acc.reverse :: splitWSAux t []
    else
      splitWSAux t (c :: acc)

/-- Python `str.split()` with no argument: split on whitespace runs, dropping empties. -/
def splitWS (s : Str) : List Str := splitWSAux s []

/-- Python `' '.join(tokens)`. -/
def joinSp : List Str → Str
  | [] => []
  | [x] => x
  | x :: y :: t => x ++ ' ' :: joinSp (y :: t)

/-- Python `' '.join(s.split())`: collapse whitespace. -/
def wsJoin (s : Str) : Str := joinSp (splitWS s)

/-- Python `str.strip()` with no argument. -/
def trim (s : Str) : Str := ((s.dropWhile isWS).reverse.dropWhile isWS).reverse

/-- Python `s.rstrip(cs)`. -/
def rstripOf (cs : List Char) (s : Str) : Str :=
  (s.reverse.dropWhile (fun c => cs.contains c)).reverse

/-- Python `s.startswith(p)` (`hasStart s p`). -/
def hasStart : Str → Str → Bool
  | _, [] => true
  | [], _ :: _ => false
  | c :: t, p :: q => c = p && hasStart t q

/-- Python `p in s` substring test (`isSub p s`). -/
def isSub (p : Str) : Str → Bool
  | [] => p.isEmpty
  | c :: t => hasStart (c :: t) p || isSub p t

/-- Python `s.startswith((p1, ..., pn))`. -/
def hasStartAny (s : Str) (ps : List Str) : Bool := ps.any (fun p => hasStart s p)

/-- Python truthiness of an optional string (`None` and `""` are falsy). -/
def truthy : Option Str → Bool
  | none => false
  | some s => !s.isEmpty

/-!  ## Regex engine

A small backtracking matcher for the concrete patterns appearing in the source, with
Python `re` semantics: leftmost match, greedy/lazy quantifier preference, alternation in
order, `re.IGNORECASE` by ASCII case folding on literals and classes.
-/

/-- Regex AST.  `cls neg cs rgs` is a character class (`neg` for `[^...]`) built from
explicit characters `cs` and ranges `rgs`; `eol` is `$` (end of input or just before a
final newline, as in Python). -/
inductive RE where
  | eps
  | chr (c : Char)
  | cls (neg : Bool) (cs : List Char) (rgs : List (Char × Char))
  | seq (a b : RE)
  | alt (a b : RE)
  | star (lazy : Bool) (a : RE)
  | opt (lazy : Bool) (a : RE)
  | grp (n : Nat) (a : RE)
  | eol
  deriving Repr

/-- Group captures: association list from group number to captured text. -/
abbrev Caps := List (Nat × Str)

/-- Store a capture, keeping the latest value for a group. -/
def capPut (caps : Caps) (n : Nat) (v : Str) : Caps := (n, v) :: caps

/-- Look up a capture. -/
def capGet (caps : Caps) (n : Nat) : Option Str :=
  match caps.find? (fun p => p.1 = n) with
  | some p => some p.2
  | none => none

/-- Does one character match a class?  Under `re.IGNORECASE` (`ic`), a character matches
if any of its case foldings is in the class; negation applies afterwards. -/
def clsHit (ic neg : Bool) (cs : List Char) (rgs : List (Char × Char)) (x : Char) : Bool :=
  let inSet : Char → Bool := fun y =>
    cs.contains y || rgs.any (fun r => r.1 ≤ y && y ≤ r.2)
  let hit := inSet x || (ic && (inSet (lowerC x) || inSet (upperC x)))
  if neg then !hit else hit

/-- Character equality under optional ASCII case folding. -/
def chrEq (ic : Bool) (x c : Char) : Bool :=
  if ic then lowerC x = lowerC c else x = c

/-- Backtracking matcher in continuation style.  `mat fuel ic r s caps k` tries to match
`r` at the start of `s`; on success of a branch it calls `k` with the remaining input and
captures.  A star iteration continues only if its body consumed input (Python's empty-match
loop guard).  `fuel` bounds the call depth; all uses supply ample fuel. -/
def mat : Nat → Bool → RE → Str → Caps → (Str → Caps → Option (Str × Caps)) →
    Option (Str × Caps)
  | 0, _, _, _, _, _ => none
  | Nat.succ fuel, ic, r, s, caps, k =>
    match r with
    | .eps => k s caps
    | .eol =>
      if s.isEmpty || s = [Char.ofNat 10] then k s caps else none
    | .chr c =>
      match s with
      | [] => none
      | x :: rest => if chrEq ic x c then k rest caps else none
    | .cls neg cs rgs =>
      match s with
      | [] => none
      | x :: rest => if clsHit ic neg cs rgs x then k rest caps else none
    | .seq a b =>
      mat fuel ic a s caps (fun s' caps' => mat fuel ic b s' caps' k)
    | .alt a b =>
      match mat fuel ic a s caps k with
      | some res => some res
      | none => mat fuel ic b s caps k
    | .opt lazy a =>
      if lazy then
        match k s caps with
        | some res => some res
        | none => mat fuel ic a s caps k
      else
        match mat fuel ic a s caps k with
        | some res => some res
        | none => k s caps
    | .star lazy a =>
      let loop : Str → Caps → Option (Str × Caps) := fun s' caps' =>
        if s'.length < s.length then mat fuel ic (.star lazy a) s' caps' k else none
      if lazy then
        match k s caps with
        | some res => some res
        | none => mat fuel ic a s caps loop
      else
        match mat fuel ic a s caps loop with
        | some res => some res
        | none => k s caps
    | .grp n a =>
      mat fuel ic a s caps (fun s' caps' =>
        k s' (capPut caps' n (s.take (s.length - s'.length))))

/-- Size of a regex, used to pick fuel. -/
def reSize : RE → Nat
  | .eps => 1
  | .eol => 1
  | .chr _ => 1
  | .cls _ _ _ => 1
  | .seq a b => reSize a + reSize b + 1
  | .alt a b => reSize a + reSize b + 1
  | .star _ a => reSize a + 1
  | .opt _ a => reSize a + 1
  | .grp _ a => reSize a + 1

/-- Ample fuel for matching `r` against `s`. -/
def fuelFor (r : RE) (s : Str) : Nat := (reSize r + 8) * (s.length + 8) * 4

/-- Try to match `r` at the start of `s`.  Returns `(matched, rest, captures)`. -/
def matchHere (ic : Bool) (r : RE) (s : Str) : Option (Str × Str × Caps) :=
  match mat (fuelFor r s) ic r s [] (fun s' caps => some (s', caps)) with
  | some (s', caps) => some (s.take (s.length - s'.length), s', caps)
  | none => none

/-- Python `re.search`: leftmost match.  Returns `(text before the match, matched, rest,
captures)`. -/
def searchAux (ic : Bool) (r : RE) : Str → Option (Str × Str × Str × Caps)
  | [] =>
    match matchHere ic r [] with
    | some (m, rest, caps) => some ([], m, rest, caps)
    | none => none
  | c :: t =>
    match matchHere ic r (c :: t) with
    | some (m, rest, caps) => some ([], m, rest, caps)
    | none =>
      match searchAux ic r t with
      | some (pre, m, rest, caps) => some (c :: pre, m, rest, caps)
      | none => none

/-- Python `re.search` returning the match and its captures. -/
def reSearch (ic : Bool) (r : RE) (s : Str) : Option (Str × Caps) :=
  match searchAux ic r s with
  | some (_, m, _, caps) => some (m, caps)
  | none => none

/-- Python `m.group i` after a successful search: group 0 is the whole match, a group
that did not participate is `None`. -/
def groupOf (mc : Str × Caps) (i : Nat) : Option Str :=
  if i = 0 then some mc.1 else capGet mc.2 i

/-- Python `re.findall` collecting `(matched, captures)` for each non-overlapping match,
left to right, advancing one character past an empty match. -/
def findAllAux (fuel : Nat) (ic : Bool) (r : RE) (s : Str) : List (Str × Caps) :=
  match fuel with
  | 0 => []
  | Nat.succ fuel =>
    match searchAux ic r s with
    | none => []
    | some (_, m, rest, caps) =>
      if m.isEmpty then
        match rest with
        | [] => [(m, caps)]
        | _ :: t => (m, caps) :: findAllAux fuel ic r t
      else
        (m, caps) :: findAllAux fuel ic r rest

/-- Python `re.findall`. -/
def reFindAll (ic : Bool) (r : RE) (s : Str) : List (Str × Caps) :=
  findAllAux (s.length + 1) ic r s

/-- Python `re.sub(r, repl, s)` with a plain replacement string, non-overlapping leftmost
matches, advancing one character past an empty match. -/
def reSub (fuel : Nat) (ic : Bool) (r : RE) (repl : Str) (s : Str) : Str :=
  match fuel with
  | 0 => s
  | Nat.succ fuel =>
    match searchAux ic r s with
    | none => s
    | some (pre, m, rest, _) =>
      if m.isEmpty then
        match rest with
        | [] => pre ++ repl
        | c :: t => pre ++ repl ++ c :: reSub fuel ic r repl t
      else
        pre ++ repl ++ reSub fuel ic r repl rest

/-- Python `re.sub` with ample fuel. -/
def reSubAll (ic : Bool) (r : RE) (repl : Str) (s : Str) : Str :=
  reSub (s.length + 1) ic r repl s

/-- Python `re.match` (anchored at the start): the match and captures, if any. -/
def reMatch (ic : Bool) (r : RE) (s : Str) : Option (Str × Caps) :=
  match matchHere ic r s with
  | some (m, _, caps) => some (m, caps)
  | none => none

/-! Combinators for transcribing the concrete patterns. -/

/-- Literal string regex. -/
def rl (s : Str) : RE := (s.map RE.chr).foldr RE.seq RE.eps

/-- Sequence of regexes. -/
def rseq (l : List RE) : RE := l.foldr RE.seq RE.eps

/-- Ordered alternation; an empty list never matches (unused). -/
def ralt : List RE → RE
  | [] => RE.cls false [] []
  | [r] => r
  | r :: s :: t => RE.alt r (ralt (s :: t))

/-- Character class from explicit characters. -/
def rcl (cs : List Char) : RE := RE.cls false cs []

/-- Negated character class from explicit characters. -/
def rncl (cs : List Char) : RE := RE.cls true cs []

/-- Greedy star. -/
def rstar (r : RE) : RE := RE.star false r

/-- Lazy star. -/
def rstarL (r : RE) : RE := RE.star true r

/-- Greedy plus. -/
def rplus (r : RE) : RE := RE.seq r (RE.star false r)

/-- Greedy option. -/
def ropt (r : RE) : RE := RE.opt false r

/-- Capturing group. -/
def rg (n : Nat) (r : RE) : RE := RE.grp n r

/-- Regex `a{m}`: exactly `m` copies. -/
def ryTimes (m : Nat) (r : RE) : RE := rseq (List.replicate m r)

/-- Regex `a{m,}`: at least `m` copies, greedy. -/
def rAtLeast (m : Nat) (r : RE) : RE := RE.seq (ryTimes m r) (rstar r)

/-- Regex `a{m,n}`: between `m` and `n` copies, greedy (longer first, like Python). -/
def rBetween (m n : Nat) (r : RE) : RE :=
  RE.seq (ryTimes m r) (Nat.rec RE.eps (fun _ ih => ropt (RE.seq r ih)) (n - m))

/-- Regex `\d`: ASCII digits together with Thai digits (the scripts this code base
meets; Python's `\d` is all Unicode decimal digits). -/
def rdigit : RE := RE.cls false [] [('0', '9'), (Char.ofNat 3664, Char.ofNat 3673)]

/-- Regex `\s`. -/
def rws : RE :=
  rcl [' ', Char.ofNat 9, Char.ofNat 10, crc, Char.ofNat 11, Char.ofNat 12]

/-- Regex `.` without `re.DOTALL`: anything but a newline. -/
def rdot : RE := RE.cls true [Char.ofNat 10] []

/-- Regex `.` with `re.DOTALL`. -/
def rdotAll : RE := RE.cls true [] []

/-- Regex `["\']`: a single or double quote. -/
def rquote : RE := rcl [qc, ac]

/-- Literal regex from a string literal (no special characters). -/
def lit (s : String) : RE := rl s.data

/-- Python `s.replace(pat, repl)` for a non-empty pattern (all occurrences, left to
right); the fuel argument is the input length. -/
def pyReplaceAux (fuel : Nat) (pat repl : Str) (s : Str) : Str :=
  match fuel with
  | 0 => s
  | Nat.succ fuel =>
    match s with
    | [] => []
    | c :: t =>
      if hasStart (c :: t) pat then repl ++ pyReplaceAux fuel pat repl ((c :: t).drop pat.length)
      else c :: pyReplaceAux fuel pat repl t

/-- Python `s.replace(pat, repl)`. -/
def pyReplace (pat repl s : Str) : Str := pyReplaceAux s.length pat repl s

/-! ## `ProductExtractor._clean_text` (product_extractor.py lines 743-760) -/

/-- Regex `<[^>]+>`. -/
def reTag : RE := rseq [RE.chr ltc, rplus (rncl [gtc]), RE.chr gtc]

/-- `ProductExtractor._clean_text`: drop HTML tags, decode a few entities, collapse
whitespace. -/
def cleanText (text : Str) : Str :=
  if text.isEmpty then [] else
  let text := reSubAll false reTag [' '] text
  let text := pyReplace "&nbsp;".data [' '] text
  let text := pyReplace "&amp;".data ['&'] text
  let text := pyReplace "&lt;".data [ltc] text
  let text := pyReplace "&gt;".data [gtc] text
  trim (wsJoin text)

/-! ## `ProductExtractor._sanitize_text_field` (product_extractor.py lines 762-829) -/

/-- Regex `class="[^"]*"`. -/
def reClassAttr : RE := rseq [lit "class=", RE.chr qc, rstar (rncl [qc]), RE.chr qc]

/-- Regex `style="[^"]*"`. -/
def reStyleAttr : RE := rseq [lit "style=", RE.chr qc, rstar (rncl [qc]), RE.chr qc]

/-- Regex `id="[^"]*"`. -/
def reIdAttr : RE := rseq [lit "id=", RE.chr qc, rstar (rncl [qc]), RE.chr qc]

/-- Characters of the class `[^"\s]`. -/
def qws : List Char := [qc, ' ', Char.ofNat 9, Char.ofNat 10, crc, Char.ofNat 11, Char.ofNat 12]

/-- Regex `quickInfo-infoLabel-[^"\s]*`. -/
def reQuickLabel : RE := RE.seq (lit "quickInfo-infoLabel-") (rstar (rncl qws))

/-- Regex `quickInfo-infoValue-[^"\s]*`. -/
def reQuickValue : RE := RE.seq (lit "quickInfo-infoValue-") (rstar (rncl qws))

/-- Regex `<label[^>]*>`. -/
def reOpenTagOf (name : String) : RE :=
  rseq [RE.chr ltc, lit name, rstar (rncl [gtc]), RE.chr gtc]

/-- Regex for a literal closing tag such as `</label>`. -/
def reCloseTagOf (name : String) : RE := rseq [RE.chr ltc, RE.chr '/', lit name, RE.chr gtc]

/-- The `css_patterns` list of `_sanitize_text_field`, in order. -/
def cssPatterns : List RE :=
  [reClassAttr, reQuickLabel, reQuickValue, reStyleAttr, reIdAttr,
   reOpenTagOf "label", reCloseTagOf "label",
   reOpenTagOf "span", reCloseTagOf "span",
   reOpenTagOf "div", reCloseTagOf "div"]

/-- Characters of the class `[^\s<>"\']`. -/
def urlStop : List Char :=
  [' ', Char.ofNat 9, Char.ofNat 10, crc, Char.ofNat 11, Char.ofNat 12, ltc, gtc, qc, ac]

/-- Regex `https?://[^\s<>"\']+`. -/
def reHttpUrl : RE :=
  rseq [lit "http", ropt (RE.chr 's'), lit "://", rplus (rncl urlStop)]

/-- Regex `www\.[^\s<>"\']+`. -/
def reWwwUrl : RE := rseq [lit "www.", rplus (rncl urlStop)]

/-- Regex `[a-zA-Z0-9.-]+\.[a-zA-Z]{2,}(?:/[^\s<>"\']*)?`. -/
def reBareDomain : RE :=
  rseq [rplus (RE.cls false ['.', '-'] [('a', 'z'), ('A', 'Z'), ('0', '9')]),
        RE.chr '.',
        rAtLeast 2 (RE.cls false [] [('a', 'z'), ('A', 'Z')]),
        ropt (RE.seq (RE.chr '/') (rstar (rncl urlStop)))]

/-- The `url_patterns` list of `_sanitize_text_field`, in order. -/
def urlPatterns : List RE := [reHttpUrl, reWwwUrl, reBareDomain]

/-- Regex `\{[^}]*\}`. -/
def reBraceBlock : RE := rseq [RE.chr obr, rstar (rncl [cbr]), RE.chr cbr]

/-- Regex `\[[^\]]*\]`. -/
def reBracketBlock : RE := rseq [RE.chr osq, rstar (rncl [csq]), RE.chr csq]

/-- Regex `"KEY"\s*:\s*"[^"]*"` for a fixed literal key. -/
def reJsonKeyOf (key : String) : RE :=
  rseq [RE.chr qc, lit key, RE.chr qc, rstar rws, RE.chr ':', rstar rws,
        RE.chr qc, rstar (rncl [qc]), RE.chr qc]

/-- Regex `"@[^"]*"\s*:\s*"[^"]*"`. -/
def reJsonAtKey : RE :=
  rseq [RE.chr qc, RE.chr '@', rstar (rncl [qc]), RE.chr qc, rstar rws, RE.chr ':',
        rstar rws, RE.chr qc, rstar (rncl [qc]), RE.chr qc]

/-- Regex `"[^"]*"\s*:\s*"[^"]*"`. -/
def reJsonAnyKey : RE :=
  rseq [RE.chr qc, rstar (rncl [qc]), RE.chr qc, rstar rws, RE.chr ':', rstar rws,
        RE.chr qc, rstar (rncl [qc]), RE.chr qc]

/-- Regex `true|false|null`. -/
def reJsonLit : RE := ralt [lit "true", lit "false", lit "null"]

/-- Regex `\d{4}-\d{2}-\d{2}[T\s]\d{2}:\d{2}:\d{2}` (ISO dates). -/
def reIsoDate : RE :=
  rseq [ryTimes 4 rdigit, RE.chr '-', ryTimes 2 rdigit, RE.chr '-', ryTimes 2 rdigit,
        RE.cls false ('T' :: [' ', Char.ofNat 9, Char.ofNat 10, crc, Char.ofNat 11, Char.ofNat 12]) [],
        ryTimes 2 rdigit, RE.chr ':', ryTimes 2 rdigit, RE.chr ':', ryTimes 2 rdigit]

/-- The `json_patterns` list of `_sanitize_text_field`, in order. -/
def jsonPatterns : List RE :=
  [reJsonKeyOf "name", reJsonKeyOf "type", reJsonAtKey, reJsonAnyKey, reJsonLit, reIsoDate]

/-- Regex `[{}[\]"\',:;\\<>]` (the structural-punctuation strip). -/
def rePunct : RE := rcl [obr, cbr, osq, csq, qc, ac, ',', ':', ';', bsl, ltc, gtc]

/-- The strip/substitution pipeline of `_sanitize_text_field` (everything before the
final validation). -/
def sanitizeClean (text : Str) : Str :=
  let text := cssPatterns.foldl (fun t p => reSubAll true p [] t) text
  let text := urlPatterns.foldl (fun t p => reSubAll false p [] t) text
  let text := reSubAll false reBraceBlock [] text
  let text := reSubAll false reBracketBlock [] text
  let text := jsonPatterns.foldl (fun t p => reSubAll true p [] t) text
  let text := reSubAll false rePunct [] text
  let text := rstripOf [',', ';'] text
  wsJoin text

/-- The rejected start strings of the validation step. -/
def badStarts : List Str := ["http".data, "www".data, "data:".data, "class=".data, "style=".data]

/-- The characters whose presence makes the validation reject. -/
def hardChars : List Char := [obr, cbr, osq, csq, qc, ac, bsl, ltc, gtc, '=']

/-- The nine structural characters named by the specification (`hardChars` without the
equals sign); used to state the sanitizer claims. -/
def badChars : List Char := [obr, cbr, osq, csq, qc, ac, bsl, ltc, gtc]

/-- The final validation condition of `_sanitize_text_field`. -/
def sanValid (t : Str) (maxLen : Nat) : Bool :=
  !t.isEmpty && decide (1 < t.length) && decide (t.length ≤ maxLen) &&
  !hasStartAny (lowerS t) badStarts && !hardChars.any (fun c => t.contains c)

/-- `ProductExtractor._sanitize_text_field`: the strip pipeline, then the validation,
then `return text.strip()`. -/
def sanitizeTextField (text : Str) (maxLen : Nat) : Option Str :=
  if text.isEmpty then none
  else if sanValid (sanitizeClean text) maxLen then some (trim (sanitizeClean text))
  else none

/-! ## Specialized sanitizers (product_extractor.py lines 428-476, 831-925) -/

/-- Regex `var\([^)]+\)`. -/
def reCssVar : RE := rseq [lit "var(", rplus (rncl [')']), RE.chr ')']

/-- Regex `\d+(?:\.\d+)?`: a decimal-aware number token. -/
def reNumTok : RE := RE.seq (rplus rdigit) (ropt (RE.seq (RE.chr '.') (rplus rdigit)))

/-- Regex `\s*[x×]\s*`. -/
def reXSep : RE := rseq [rstar rws, rcl ['x', Char.ofNat 215], rstar rws]

/-- The `dim_patterns` list of `_sanitize_dimensions_field`, in order (each one a single
capturing group). -/
def dimPatterns : List RE :=
  [rg 1 (rseq [reNumTok, reXSep, reNumTok, reXSep, reNumTok]),
   rg 1 (rseq [reNumTok, reXSep, reNumTok]),
   rg 1 reNumTok]

/-- The pattern-first loop of `_sanitize_dimensions_field`: first matching pattern whose
stripped group fits 200 characters wins. -/
def dimLoop (dims : Str) : List RE → Option Str
  | [] => none
  | p :: ps =>
    match reSearch false p dims with
    | some mc =>
      match groupOf mc 1 with
      | some g =>
        if !(trim g).isEmpty && (trim g).length ≤ 200 then some (trim g)
        else dimLoop dims ps
      | none => dimLoop dims ps
    | none => dimLoop dims ps

/-- `ProductExtractor._sanitize_dimensions_field`. -/
def sanitizeDimensionsField (dims : Str) : Option Str :=
  if dims.isEmpty then none
  else
    match dimLoop (reSubAll true reCssVar [] dims) dimPatterns with
    | some cd => some cd
    | none =>
      match sanitizeTextField (reSubAll true reCssVar [] dims) 200 with
      | some d => if d.length ≤ 200 then some d else none
      | none => none

/-- Regex `#[0-9a-fA-F]{3,6}`. -/
def reHexColor : RE :=
  RE.seq (RE.chr '#') (rBetween 3 6 (RE.cls false [] [('0', '9'), ('a', 'f'), ('A', 'F')]))

/-- Regex `NAME\([^)]+\)` for `rgb`/`rgba`/`hsl`/`hsla`. -/
def reCssFun (name : String) : RE :=
  rseq [lit name, RE.chr '(', rplus (rncl [')']), RE.chr ')']

/-- Regex `color:\s*[^;\\]+` and `background:\s*[^;\\]+`. -/
def reCssDecl (name : String) : RE :=
  rseq [lit name, RE.chr ':', rstar rws, rplus (rncl [';', bsl])]

/-- The `css_color_patterns` list of `_sanitize_color_field`, in order. -/
def cssColorPatterns : List RE :=
  [reHexColor, reCssFun "rgb", reCssFun "rgba", reCssFun "hsl", reCssFun "hsla",
   reCssDecl "color", reCssDecl "background", reCssVar]

/-- Regex `^[0-9a-fA-F]{3,6}$` used with `re.match`. -/
def reBareHex : RE :=
  RE.seq (rBetween 3 6 (RE.cls false [] [('0', '9'), ('a', 'f'), ('A', 'F')])) RE.eol

/-- The CSS scrub and whitespace cleanup at the head of `_sanitize_color_field`. -/
def colorScrub (color : Str) : Str :=
  trim (wsJoin (cssColorPatterns.foldl (fun t p => reSubAll true p [] t) color))

/-- `ProductExtractor._sanitize_color_field`. -/
def sanitizeColorField (color : Str) : Option Str :=
  if color.isEmpty then none
  else
    match sanitizeTextField (colorScrub color) 50 with
    | none => none
    | some color =>
      if !color.isEmpty && 2 ≤ color.length && color.length ≤ 50 &&
          !hasStartAny color ["#".data, "rgb".data, "hsl".data] &&
          (reMatch false reBareHex color).isNone then
        some color
      else none

/-- Regex `วัสดุ\s*[:\s]*|Material\s*[:\s]*|ผลิตจาก\s*[:\s]*|เนื้อวัสดุ\s*[:\s]*`. -/
def reMaterialLabel : RE :=
  let colonWS := rstar (RE.cls false (':' :: [' ', Char.ofNat 9, Char.ofNat 10, crc, Char.ofNat 11, Char.ofNat 12]) [])
  ralt [rseq [lit "วัสดุ", rstar rws, colonWS],
        rseq [lit "Material", rstar rws, colonWS],
        rseq [lit "ผลิตจาก", rstar rws, colonWS],
        rseq [lit "เนื้อวัสดุ", rstar rws, colonWS]]

/-- The label scrub and whitespace cleanup at the head of `_sanitize_material_field`. -/
def materialScrub (material : Str) : Str :=
  trim (wsJoin (reSubAll true reMaterialLabel [] material))

/-- `ProductExtractor._sanitize_material_field`. -/
def sanitizeMaterialField (material : Str) : Option Str :=
  if material.isEmpty then none
  else
    match sanitizeTextField (materialScrub material) 100 with
    | none => none
    | some material =>
      if !material.isEmpty && 2 ≤ material.length && material.length ≤ 100 then
        some material
      else none

/-- `ProductExtractor._sanitize_brand_field`. -/
def sanitizeBrandField (brand : Str) : Option Str := sanitizeTextField brand 100

/-- Regex for a bare date: four digits, hyphen-or-slash, two digits, hyphen-or-slash,
two digits, anchored on both sides; used with `re.match` in `_is_valid_sku`. -/
def reDateSku : RE :=
  rseq [ryTimes 4 rdigit, rcl ['-', '/'], ryTimes 2 rdigit, rcl ['-', '/'],
        ryTimes 2 rdigit, RE.eol]

/-- Regex `^[A-Za-z0-9\-_]+$` used with `re.match`. -/
def reSkuShape : RE :=
  RE.seq (rplus (RE.cls false ['-', '_'] [('A', 'Z'), ('a', 'z'), ('0', '9')])) RE.eol

/-- `ProductExtractor._is_valid_sku`. -/
def isValidSku (sku : Str) : Bool :=
  if sku.isEmpty then false
  else if sku.length < 2 || 50 < sku.length then false
  else
    let skuLower := lowerS sku
    if hasStartAny skuLower ["http".data, "https".data, "www".data] ||
        ([".com".data, ".co.th".data, ".net".data, ".org".data].any fun d => isSub d skuLower) ||
        isSub "/product/".data skuLower || isSub "/item/".data skuLower ||
        isSub "/category/".data skuLower || isSub "/search/".data skuLower ||
        isSub "/page/".data skuLower then false
    else if sku.contains '/' || sku.contains bsl then false
    else if (reMatch false reDateSku sku).isSome then false
    else if (reMatch false reSkuShape sku).isSome then true
    else false

/-- `ProductExtractor._sanitize_sku_field`. -/
def sanitizeSkuField (sku : Str) : Option Str :=
  if sku.isEmpty then none
  else
    match sanitizeTextField sku 50 with
    | none => none
    | some sku => if isValidSku sku then some sku else none

/-! ## Numbers: Python `float(str)` and `round` (as used by this code base) -/

/-- Value of an ASCII digit. -/
def digVal (c : Char) : Option Nat :=
  if '0' ≤ c ∧ c ≤ '9' then some (c.toNat - 48) else none

/-- Decimal value of a digit string (`some 0` for the empty string; emptiness is handled
by the callers, as in the grammar of Python float literals). -/
def natOfDigits (s : Str) : Option Nat :=
  s.foldl (fun acc c => acc.bind (fun a => (digVal c).map (fun d => a * 10 + d))) (some 0)

/-- Split a string at its first dot. -/
def splitDot : Str → Str × Option Str
  | [] => ([], none)
  | c :: t =>
    if c = '.' then ([], some t)
    else
      let p := splitDot t
      (c :: p.1, p.2)

/-- Sign factor of a parsed float. -/
def sgnOf (neg : Bool) : ℤ := if neg then -1 else 1

/-- Python `float(s)` for the strings this code base feeds it: optional surrounding
whitespace, optional sign, decimal digits with at most one dot (exponents, `inf`, `nan`
and non-ASCII digits never occur here and are parse failures in the model).  The value
is built with `mkRat` so that proofs can evaluate it. -/
def pyFloatOfStr (s0 : Str) : Option ℚ :=
  let s1 := trim s0
  let neg : Bool := match s1 with
    | c :: _ => c = '-'
    | [] => false
  let s := match s1 with
    | c :: t => if c = '-' || c = '+' then t else c :: t
    | [] => []
  let p := splitDot s
  match p.2 with
  | none =>
    if p.1.isEmpty then none
    else (natOfDigits p.1).map (fun ipN => mkRat (sgnOf neg * ipN) 1)
  | some fp =>
    if fp.contains '.' then none
    else if p.1.isEmpty && fp.isEmpty then none
    else
      match natOfDigits p.1, natOfDigits fp with
      | some ipN, some fpN =>
        some (mkRat (sgnOf neg * (ipN * 10 ^ fp.length + fpN)) (10 ^ fp.length))
      | _, _ => none

/-- Round-half-to-even to an integer (Python's `round` tie mode), written with integer
arithmetic on `num`/`den` so that proofs can evaluate it: `f` is the floor, `rem` the
numerator of the fractional part. -/
def roundHalfEven (q : ℚ) : ℤ :=
  let d : ℤ := (q.den : ℤ)
  let f : ℤ := Int.ediv q.num d
  let rem : ℤ := q.num - f * d
  if 2 * rem < d then f
  else if d < 2 * rem then f + 1
  else if f % 2 = 0 then f else f + 1

/-- Python `round(q, n)` modelled on exact rationals (the binary-float representation
error of CPython floats is outside the model; no claim depends on tie cases). -/
def pyRound (q : ℚ) (n : Nat) : ℚ := mkRat (roundHalfEven (mkRat (q.num * 10 ^ n) q.den)) (10 ^ n)

/-- Executable addition on ℚ (the field operations of `Rat` do not reduce inside
proofs; this does, and `qAdd_eq` below identifies it with `+`). -/
def qAdd (a b : ℚ) : ℚ := mkRat (a.num * b.den + b.num * a.den) (a.den * b.den)

/-- Executable subtraction on ℚ. -/
def qSub (a b : ℚ) : ℚ := mkRat (a.num * b.den - b.num * a.den) (a.den * b.den)

/-- Executable multiplication on ℚ. -/
def qMul (a b : ℚ) : ℚ := mkRat (a.num * b.num) (a.den * b.den)

/-- Executable division on ℚ (division by zero gives zero, as in Mathlib; the one
division in the source is guarded by `original_price > 0`). -/
def qDiv (a b : ℚ) : ℚ :=
  mkRat (a.num * b.den * sgnOf (decide (b.num < 0))) (a.den * b.num.natAbs)

/-! ## `PriceParser` (product_schemas.py lines 292-368) -/

/-- Regex class of currency symbols and whitespace stripped first by `parse_price`. -/
def reCurrencyWS : RE :=
  RE.cls false (['฿', '$', ',', '€', '£', '¥'] ++
    [' ', Char.ofNat 9, Char.ofNat 10, crc, Char.ofNat 11, Char.ofNat 12]) []

/-- Regex for a character that is neither an ASCII digit nor a dot. -/
def reNonNumDot : RE := RE.cls true ['.'] [('0', '9')]

/-- Python `s.split('.')` (keeps empty parts). -/
def splitOnDot : Str → List Str
  | [] => [[]]
  | c :: t =>
    if c = '.' then [] :: splitOnDot t
    else
      match splitOnDot t with
      | [] => [[c]]
      | a :: rest => (c :: a) :: rest

/-- Last element of a list of strings, defaulting to the empty string. -/
def lastD : List Str → Str
  | [] => []
  | [x] => x
  | _ :: y :: t => lastD (y :: t)

/-- The two strip lines of `parse_price`: currency symbols and whitespace first, then
everything that is not an ASCII digit or a dot. -/
def strippedPrice (priceText : Str) : Str :=
  reSubAll false reNonNumDot [] (reSubAll false reCurrencyWS [] (trim priceText))

/-- The `price_clean` value of `parse_price` after the multiple-dot collapse. -/
def priceClean (priceText : Str) : Str :=
  let parts := splitOnDot (strippedPrice priceText)
  if 2 < parts.length then parts.dropLast.flatten ++ '.' :: lastD parts
  else strippedPrice priceText

/-- `PriceParser.parse_price`. -/
def parsePrice (priceText : Str) : Option ℚ :=
  if priceText.isEmpty then none
  else pyFloatOfStr (priceClean priceText)

/-- The digit ranges of regex `\d` (as in `rdigit`). -/
def digitRanges : List (Char × Char) := [('0', '9'), (Char.ofNat 3664, Char.ofNat 3673)]

/-- Regex `([฿$]?[\d,]+\.?\d*)`: the numeric-like price token, with its capture group. -/
def rePriceTok : RE :=
  rg 1 (rseq [ropt (rcl ['฿', '$']), rplus (RE.cls false [','] digitRanges),
              ropt (RE.chr '.'), rstar rdigit])

/-- Regex `[:\s]*`. -/
def reColonWS : RE :=
  rstar (RE.cls false (':' :: [' ', Char.ofNat 9, Char.ofNat 10, crc, Char.ofNat 11, Char.ofNat 12]) [])

/-- The `current_price_patterns` list of `extract_prices`, in order. -/
def curPricePatterns : List RE :=
  [rseq [ralt [lit "ราคา", lit "price"], reColonWS, rePriceTok],
   rseq [rePriceTok, rstar rws, ralt [lit "บาท", lit "THB", lit "฿"]],
   rseq [lit "ตอนนี้", reColonWS, rePriceTok],
   rseq [lit "ลดเหลือ", reColonWS, rePriceTok]]

/-- The `original_price_patterns` list of `extract_prices`, in order. -/
def origPricePatterns : List RE :=
  [rseq [ralt [lit "ราคาปกติ", lit "ปกติ", lit "original", lit "regular"], reColonWS, rePriceTok],
   rseq [rePriceTok, rstar rws, ralt [lit "บาท", lit "THB", lit "฿"], rstar rws,
         ralt [lit "ปกติ", lit "regular", lit "original"]],
   rseq [lit "ก่อนลด", reColonWS, rePriceTok],
   rseq [lit "ราคาพิเศษ", reColonWS, rePriceTok]]

/-- The pattern loop of `extract_prices`: the first pattern that matches determines the
assignment (its group parsed with `parse_price`, which may itself fail); `none` means no
pattern matched at all. -/
def labelPrice (pats : List RE) (text : Str) : Option (Option ℚ) :=
  match pats with
  | [] => none
  | p :: ps =>
    match reSearch true p text with
    | some mc => some ((groupOf mc 1).bind parsePrice)
    | none => labelPrice ps text

/-- Python truthiness of an optional float (`None` and `0.0` are falsy). -/
def truthyQ : Option ℚ → Bool
  | none => false
  | some q => decide (q ≠ 0)

/-- Python `max` over a list (of at least one element). -/
def listMax : List ℚ → Option ℚ
  | [] => none
  | x :: t => some (t.foldl max x)

/-- Python `min` over a list (of at least one element). -/
def listMin : List ℚ → Option ℚ
  | [] => none
  | x :: t => some (t.foldl min x)

/-- The fallback scan of `extract_prices`: every numeric-like token in the text,
parsed, with failures dropped. -/
def fallbackPrices (text : Str) : List ℚ :=
  ((reFindAll false rePriceTok text).filterMap (fun mc => groupOf mc 1)).filterMap parsePrice

/-- `PriceParser.extract_prices`, returning `(current_price, original_price)`. -/
def extractPrices (text : Str) : Option ℚ × Option ℚ :=
  if text.isEmpty then (none, none)
  else if !truthyQ (labelPrice curPricePatterns text).join &&
      !truthyQ (labelPrice origPricePatterns text).join then
    if 2 ≤ (fallbackPrices text).length then
      (listMin (fallbackPrices text), listMax (fallbackPrices text))
    else if (fallbackPrices text).length = 1 then
      ((fallbackPrices text).head?, (labelPrice origPricePatterns text).join)
    else
      ((labelPrice curPricePatterns text).join, (labelPrice origPricePatterns text).join)
  else ((labelPrice curPricePatterns text).join, (labelPrice origPricePatterns text).join)

/-! ## JSON values and `json.loads` (used by the JSON-LD extraction paths) -/

/-- A parsed JSON value.  Objects keep their members in textual order (Python dicts keep
insertion order; lookups take the last occurrence of a duplicated key, as `json.loads`
does). -/
inductive Json where
  | null
  | bool (b : Bool)
  | num (q : ℚ)
  | str (s : Str)
  | arr (xs : List Json)
  | obj (kvs : List (Str × Json))

/-- Python `d.get(k)` on a parsed JSON object: last occurrence of a duplicated key. -/
def jGet (kvs : List (Str × Json)) (k : Str) : Option Json :=
  match kvs.filter (fun p => p.1 = k) with
  | [] => none
  | l => lastJ l
where
  /-- Last element of a nonempty assoc list. -/
  lastJ : List (Str × Json) → Option Json
    | [] => none
    | [p] => some p.2
    | _ :: q :: t => lastJ (q :: t)

/-- Python truthiness of a JSON value. -/
def jTruthy : Json → Bool
  | .null => false
  | .bool b => b
  | .num q => decide (q ≠ 0)
  | .str s => !s.isEmpty
  | .arr xs => !xs.isEmpty
  | .obj kvs => !kvs.isEmpty

/-- JSON whitespace skip (space, tab, newline, carriage return). -/
def jws (s : Str) : Str :=
  s.dropWhile (fun c => c = ' ' || c = Char.ofNat 9 || c = Char.ofNat 10 || c = crc)

/-- Hexadecimal digit value. -/
def hexVal (c : Char) : Option Nat :=
  if '0' ≤ c ∧ c ≤ '9' then some (c.toNat - 48)
  else if 'a' ≤ c ∧ c ≤ 'f' then some (c.toNat - 87)
  else if 'A' ≤ c ∧ c ≤ 'F' then some (c.toNat - 55)
  else none

/-- Parse the body of a JSON string after its opening quote.  Escapes are the JSON
ones; a `\u` escape yields its code unit (surrogate pairs do not occur in this code
base's inputs). -/
def pJStr : Str → Option (Str × Str)
  | [] => none
  | c :: t =>
    if c = qc then some ([], t)
    else if c = bsl then
      match t with
      | [] => none
      | e :: t' =>
        if e = 'u' then
          match t' with
          | a :: b :: cch :: d :: t'' =>
            match hexVal a, hexVal b, hexVal cch, hexVal d with
            | some va, some vb, some vc, some vd =>
              (pJStr t'').map (fun p =>
                (Char.ofNat (((va * 16 + vb) * 16 + vc) * 16 + vd) :: p.1, p.2))
            | _, _, _, _ => none
          | _ => none
        else
          let dec : Option Char :=
            if e = qc then some qc
            else if e = bsl then some bsl
            else if e = '/' then some '/'
            else if e = 'b' then some (Char.ofNat 8)
            else if e = 'f' then some (Char.ofNat 12)
            else if e = 'n' then some (Char.ofNat 10)
            else if e = 'r' then some crc
            else if e = 't' then some (Char.ofNat 9)
            else none
          match dec with
          | some d => (pJStr t').map (fun p => (d :: p.1, p.2))
          | none => none
    else
      (pJStr t).map (fun p => (c :: p.1, p.2))

/-- Parse a JSON number into a rational. -/
def pJNum (s : Str) : Option (ℚ × Str) :=
  let (neg, s1) := match s with
    | c :: t => if c = '-' then (true, t) else (false, c :: t)
    | [] => (false, [])
  let ip := s1.takeWhile (fun c => '0' ≤ c && c ≤ '9')
  let s2 := s1.drop ip.length
  if ip.isEmpty then none
  else
    let (fp, s3) := match s2 with
      | c :: t =>
        if c = '.' then
          let f := t.takeWhile (fun c => '0' ≤ c && c ≤ '9')
          (f, t.drop f.length)
        else ([], c :: t)
      | [] => ([], [])
    if s2 ≠ [] && s2.head? = some '.' && fp.isEmpty then none
    else
      let (hasExp, expNeg, ed, s4) : Bool × Bool × Str × Str := match s3 with
        | c :: t =>
          if c = 'e' || c = 'E' then
            match t with
            | c' :: t' =>
              if c' = '-' then
                let d := t'.takeWhile (fun x => '0' ≤ x && x ≤ '9')
                (true, true, d, t'.drop d.length)
              else if c' = '+' then
                let d := t'.takeWhile (fun x => '0' ≤ x && x ≤ '9')
                (true, false, d, t'.drop d.length)
              else
                let d := (c' :: t').takeWhile (fun x => '0' ≤ x && x ≤ '9')
                (true, false, d, (c' :: t').drop d.length)
            | [] => (true, false, [], [])
          else (false, false, [], c :: t)
        | [] => (false, false, [], [])
      if hasExp && ed.isEmpty then none
      else
        match natOfDigits ip, natOfDigits fp, natOfDigits ed with
        | some ipN, some fpN, some eN =>
          let mag : ℤ := sgnOf neg * (ipN * 10 ^ fp.length + fpN)
          let base : ℕ := 10 ^ fp.length
          if hasExp && expNeg then some (mkRat mag (base * 10 ^ eN), s4)
          else if hasExp then some (mkRat (mag * 10 ^ eN) base, s4)
          else some (mkRat mag base, s4)
        | _, _, _ => none

mutual

/-- Parse one JSON value (fueled recursive descent). -/
def pJson : Nat → Str → Option (Json × Str)
  | 0, _ => none
  | Nat.succ fuel, s0 =>
    match jws s0 with
    | [] => none
    | c :: t =>
      if c = qc then (pJStr t).map (fun p => (Json.str p.1, p.2))
      else if c = obr then
        match jws t with
        | c' :: t' =>
          if c' = cbr then some (Json.obj [], t')
          else (pObjMembers fuel (c' :: t')).map (fun p => (Json.obj p.1, p.2))
        | [] => none
      else if c = osq then
        match jws t with
        | c' :: t' =>
          if c' = csq then some (Json.arr [], t')
          else (pArrItems fuel (c' :: t')).map (fun p => (Json.arr p.1, p.2))
        | [] => none
      else if hasStart (c :: t) "true".data then some (Json.bool true, (c :: t).drop 4)
      else if hasStart (c :: t) "false".data then some (Json.bool false, (c :: t).drop 5)
      else if hasStart (c :: t) "null".data then some (Json.null, (c :: t).drop 4)
      else (pJNum (c :: t)).map (fun p => (Json.num p.1, p.2))

/-- Parse the items of a JSON array up to and including the closing bracket. -/
def pArrItems : Nat → Str → Option (List Json × Str)
  | 0, _ => none
  | Nat.succ fuel, s =>
    match pJson fuel s with
    | none => none
    | some (v, rest) =>
      match jws rest with
      | c :: t =>
        if c = ',' then (pArrItems fuel t).map (fun p => (v :: p.1, p.2))
        else if c = csq then some ([v], t)
        else none
      | [] => none

/-- Parse the members of a JSON object up to and including the closing brace. -/
def pObjMembers : Nat → Str → Option (List (Str × Json) × Str)
  | 0, _ => none
  | Nat.succ fuel, s =>
    match jws s with
    | c :: t =>
      if c = qc then
        match pJStr t with
        | none => none
        | some (k, rest) =>
          match jws rest with
          | c' :: t' =>
            if c' = ':' then
              match pJson fuel t' with
              | none => none
              | some (v, rest') =>
                match jws rest' with
                | c'' :: t'' =>
                  if c'' = ',' then (pObjMembers fuel t'').map (fun p => ((k, v) :: p.1, p.2))
                  else if c'' = cbr then some ([(k, v)], t'')
                  else none
                | [] => none
            else none
          | [] => none
      else none
    | [] => none

end

/-- Python `json.loads`: a whole JSON document (`NaN`/`Infinity` extensions unused by
this code base). -/
def pyJsonLoads (s : Str) : Option Json :=
  match pJson (2 * s.length + 8) s with
  | some (v, rest) => if (jws rest).isEmpty then some v else none
  | none => none

/-- Computations that may let a Python exception escape to the caller. -/
abbrev Py (α : Type) := Except Unit α

deriving instance DecidableEq for Except

/-! ## URL helpers (`urllib.parse` as used by this code base) -/

/-- Is this a character allowed in a URL scheme? -/
def isSchemeChar (c : Char) : Bool :=
  ('a' ≤ c && c ≤ 'z') || ('A' ≤ c && c ≤ 'Z') || ('0' ≤ c && c ≤ '9') ||
  c = '+' || c = '-' || c = '.'

/-- Is this an ASCII letter? -/
def isAsciiAlpha (c : Char) : Bool := ('a' ≤ c && c ≤ 'z') || ('A' ≤ c && c ≤ 'Z')

/-- The scheme of a URL (without the colon), when present. -/
def urlScheme (u : Str) : Option Str :=
  let pre := u.takeWhile (fun c => c ≠ ':')
  if pre.length < u.length && !pre.isEmpty &&
      (match pre with | c :: _ => isAsciiAlpha c | [] => false) &&
      pre.all isSchemeChar then
    some pre
  else none

/-- Strip a leading scheme and colon from a URL when present. -/
def dropScheme (u : Str) : Str :=
  match urlScheme u with
  | some s => u.drop (s.length + 1)
  | none => u

/-- `urlparse(u).netloc` for the URLs this code base sees: the authority after `//`,
up to the first slash, question mark or number sign (empty when no `//`). -/
def urlNetloc (u : Str) : Str :=
  let r := dropScheme u
  if hasStart r "//".data then
    (r.drop 2).takeWhile (fun c => c ≠ '/' && c ≠ '?' && c ≠ '#')
  else []

/-- The path part following the netloc (up to query or fragment). -/
def urlPath (u : Str) : Str :=
  let r := dropScheme u
  let r := if hasStart r "//".data then
    (r.drop 2).dropWhile (fun c => c ≠ '/' && c ≠ '?' && c ≠ '#')
  else r
  r.takeWhile (fun c => c ≠ '?' && c ≠ '#')

/-- `urllib.parse.urljoin(base, u)`, modelled for the absolute http(s) base URLs this
code base passes (dot-segment normalisation and query/fragment merging do not arise):
an input carrying its own scheme wins, `//`-inputs keep the base scheme, `/`-inputs keep
scheme and netloc, other inputs resolve against the base path's directory. -/
def urljoin (base u : Str) : Str :=
  if (urlScheme u).isSome then u
  else if u.isEmpty then base
  else
    let scheme := (urlScheme base).getD []
    if hasStart u "//".data then scheme ++ ':' :: u
    else
      let origin := scheme ++ "://".data ++ urlNetloc base
      if hasStart u "/".data then origin ++ u
      else
        let path := urlPath base
        let dir := (path.reverse.dropWhile (fun c => c ≠ '/')).reverse
        let dir := if dir.isEmpty then ['/'] else dir
        origin ++ dir ++ u

/-- Python `str.title()` (ASCII model): a letter after a non-letter is upper-cased,
other letters are lower-cased. -/
def pyTitle (s : Str) : Str :=
  (s.foldl (fun acc c =>
    let r :=
      if isAsciiAlpha c then
        if acc.2 then lowerC c else upperC c
      else c
    (r :: acc.1, isAsciiAlpha c)) (([] : Str), false)).1.reverse

/-- Python `s.split(sep)` for a one-character separator (keeps empty parts). -/
def splitOnC (sep : Char) : Str → List Str
  | [] => [[]]
  | c :: t =>
    if c = sep then [] :: splitOnC sep t
    else
      match splitOnC sep t with
      | [] => [[c]]
      | a :: rest => (c :: a) :: rest

/-- `ProductExtractor._extract_retailer_from_url` (product_extractor.py lines 702-741):
its domain-to-retailer table, in source order. -/
def extractorRetailerTable : List (Str × Str) :=
  [("advice.co.th", "Advice"), ("banana-it", "Banana IT"), ("dohome.co.th", "DoHome"),
   ("globalhouse.co.th", "Global House"), ("homepro.co.th", "HomePro"),
   ("jaymart.co.th", "Jaymart"), ("lazada.co.th", "Lazada"),
   ("megahome.co.th", "Mega Home"), ("powerbuy.co.th", "Power Buy"),
   ("shopee.co.th", "Shopee"), ("thaiwatsadu.com", "Thai Watsadu")].map
    (fun p => (p.1.data, p.2.data))

/-- Retailer name from a domain and a mapping table, with the shared title-casing
fallback (the tail of both `_extract_retailer_from_url` implementations). -/
def retailerFromDomain (table : List (Str × Str)) (url : Str) : Str :=
  let domain := lowerS (urlNetloc url)
  let domain := pyReplace "www.".data [] domain
  match table.find? (fun p => isSub p.1 domain) with
  | some p => p.2
  | none =>
    let parts := splitOnC '.' domain
    if 2 ≤ parts.length then pyTitle (lastD parts.dropLast)
    else pyTitle domain

/-- `ProductExtractor._extract_retailer_from_url`. -/
def extractRetailerFromUrl (url : Option Str) : Str :=
  match url with
  | none => "Unknown Retailer".data
  | some u => if u.isEmpty then "Unknown Retailer".data
              else retailerFromDomain extractorRetailerTable u

/-- `ProductData._extract_retailer_from_url` (product_schemas.py lines 70-104): the
dataclass has its own, smaller table. -/
def schemaRetailerTable : List (Str × Str) :=
  [("thaiwatsadu.com", "Thai Watsadu"), ("homepro.co.th", "HomePro"),
   ("lazada.co.th", "Lazada"), ("shopee.co.th", "Shopee"), ("central.co.th", "Central"),
   ("powerbuy.co.th", "Power Buy"), ("jaymart.co.th", "Jaymart"),
   ("banana-it", "Banana IT"), ("advice.co.th", "Advice")].map
    (fun p => (p.1.data, p.2.data))

/-! ## JSON-LD extraction (product_extractor.py lines 112-173) -/

/-- str() of a decoded JSON value as this code base meets it (strings and numbers; the
renderings of containers, booleans and integral floats are simplified and not
claim-relevant). -/
def pyStrOfJson : Json → Str
  | .null => "None".data
  | .bool true => "True".data
  | .bool false => "False".data
  | .num q =>
    if q.den = 1 then
      (if q.num < 0 then ['-'] else []) ++ (Nat.toDigits 10 q.num.natAbs)
    else
      (if q.num < 0 then ['-'] else []) ++ (Nat.toDigits 10 q.num.natAbs) ++
        '/' :: Nat.toDigits 10 q.den
  | .str s => s
  | .arr _ => [osq, csq]
  | .obj _ => [obr, cbr]

/-- Truthiness of an optional JSON value (`dict.get` result). -/
def optJTruthy : Option Json → Bool
  | none => false
  | some j => jTruthy j

/-- Regex for the generic JSON-LD script pattern
(`<script[^>]*type=["']application/ld\+json["'][^>]*>(.*?)</script>`,
`re.DOTALL | re.IGNORECASE`). -/
def reJsonLdScript : RE :=
  rseq [lit "<script", rstar (rncl [gtc]), lit "type=", rquote,
        lit "application/ld+json", rquote, rstar (rncl [gtc]), RE.chr gtc,
        rg 1 (rstarL rdotAll), lit "</script>"]

/-- Does `data.get('@type')` equal `Product` or `ProductModel`? -/
def isProductType (v : Option Json) : Bool :=
  match v with
  | some (.str s) => s = "Product".data || s = "ProductModel".data
  | _ => false

/-- The dictionary produced by `_parse_json_ld_product`: six keys always present,
pricing keys present only when an offers branch ran, `images` only when `image` was a
list or string.  A `none` value is Python `None`. -/
structure LdParsed where
  nameP : Option Json
  descP : Option Json
  brandP : Option Json
  modelP : Option Json
  skuP : Option Json
  catP : Option Json
  curP : Option (Option Json)
  origP : Option (Option Json)
  imagesP : Option (List Json)

/-- The accumulated `json_ld_data` dictionary (`none` on a field means the key has
never been set). -/
structure LdData where
  nameJ : Option (Option Json) := none
  descJ : Option (Option Json) := none
  brandJ : Option (Option Json) := none
  modelJ : Option (Option Json) := none
  skuJ : Option (Option Json) := none
  catJ : Option (Option Json) := none
  curJ : Option (Option Json) := none
  origJ : Option (Option Json) := none
  imagesJ : Option (List Json) := none

/-- `dict.get` on the accumulated data: an absent key and a key set to `None`
coincide. -/
def ldGet (f : Option (Option Json)) : Option Json := f.join

/-- `ProductExtractor._parse_json_ld_product`.  The error cases are the uncaught
`IndexError` on an empty `category` list and the uncaught `AttributeError` when
`priceSpecification` is present but not a dict, or when the first member of an `offers`
list is not a dict. -/
def parseJsonLdProduct (data : List (Str × Json)) : Py LdParsed := do
  let brandP : Option Json :=
    match jGet data "brand".data with
    | some (.obj kvs) => jGet kvs "name".data
    | v => v
  let catP : Option Json ←
    match jGet data "category".data with
    | some (.arr []) => Except.error ()
    | some (.arr (x :: _)) => pure (some x)
    | v => pure v
  let prices : Option (Option Json) × Option (Option Json) ←
    match jGet data "offers".data with
    | some (.obj offers) => do
      let price := jGet offers "price".data
      let cond : Bool ←
        match jGet offers "priceSpecification".data with
        | some (.obj ps) => pure (optJTruthy (jGet ps "highPrice".data))
        | none => pure false
        | some _ => Except.error ()
      let orig : Option Json :=
        if cond then
          let hp := jGet offers "highPrice".data
          if optJTruthy hp then hp else price
        else none
      pure (some price, some orig)
    | some (.arr (o :: _)) =>
      match o with
      | .obj offer => pure (some (jGet offer "price".data), some (jGet offer "highPrice".data))
      | _ => Except.error ()
    | _ => pure (none, none)
  let imagesP : Option (List Json) :=
    match jGet data "image".data with
    | some (.arr xs) => some xs
    | some (.str s) => some [Json.str s]
    | _ => none
  pure { nameP := jGet data "name".data, descP := jGet data "description".data,
         brandP := brandP, modelP := jGet data "model".data,
         skuP := jGet data "sku".data, catP := catP,
         curP := prices.1, origP := prices.2, imagesP := imagesP }

/-- `dict.update` of the accumulated JSON-LD data with one parsed product. -/
def ldUpdate (acc : LdData) (p : LdParsed) : LdData :=
  { nameJ := some p.nameP, descJ := some p.descP, brandJ := some p.brandP,
    modelJ := some p.modelP, skuJ := some p.skuP, catJ := some p.catP,
    curJ := match p.curP with | some v => some v | none => acc.curJ,
    origJ := match p.origP with | some v => some v | none => acc.origJ,
    imagesJ := match p.imagesP with | some l => some l | none => acc.imagesJ }

/-- Process one decoded JSON-LD block (`extract_from_json_ld` loop body; only JSON
decode errors are caught, an `@graph` member that is not a dict raises). -/
def ldBlock (acc : LdData) (block : Str) : Py LdData :=
  match pyJsonLoads (trim block) with
  | none => pure acc
  | some (.obj data) =>
    if isProductType (jGet data "@type".data) then do
      let p ← parseJsonLdProduct data
      pure (ldUpdate acc p)
    else
      match jGet data "@graph".data with
      | some (.arr items) =>
        items.foldlM (fun acc2 item =>
          match item with
          | .obj d2 =>
            if isProductType (jGet d2 "@type".data) then do
              let p ← parseJsonLdProduct d2
              pure (ldUpdate acc2 p)
            else pure acc2
          | _ => (Except.error () : Py LdData)) acc
      | _ => pure acc
  | some _ => pure acc

/-- `ProductExtractor.extract_from_json_ld`. -/
def extractFromJsonLd (html : Str) : Py LdData := do
  let blocks := (reFindAll true reJsonLdScript html).filterMap (fun mc => groupOf mc 1)
  blocks.foldlM ldBlock {}

/-! ## Field extractors (product_extractor.py lines 175-500) -/

/-- Newline character. -/
def nlc : Char := Char.ofNat 10

/-- Regex `class="[^"]*WORD[^"]*"`. -/
def reClassWord (word : String) : RE :=
  rseq [lit "class=", RE.chr qc, rstar (rncl [qc]), lit word, rstar (rncl [qc]), RE.chr qc]

/-- Regex `class="[^"]*W1[^"]*W2[^"]*"`. -/
def reClassWords (w1 w2 : String) : RE :=
  rseq [lit "class=", RE.chr qc, rstar (rncl [qc]), lit w1, rstar (rncl [qc]), lit w2,
        rstar (rncl [qc]), RE.chr qc]

/-- Regex `<TAG[^>]*>(.*?)</TAG>`; `dotAll` tells whether `re.DOTALL` was set. -/
def reTagBody (tag : String) (dotAll : Bool) : RE :=
  rseq [RE.chr ltc, lit tag, rstar (rncl [gtc]), RE.chr gtc,
        rg 1 (rstarL (if dotAll then rdotAll else rdot)), lit ("</" ++ tag ++ ">")]

/-- Regex `<TAG[^>]*class="[^"]*WORD[^"]*"[^>]*>(.*?)</TAG>`. -/
def reTagClassBody (tag word : String) (dotAll : Bool) : RE :=
  rseq [RE.chr ltc, lit tag, rstar (rncl [gtc]), reClassWord word, rstar (rncl [gtc]),
        RE.chr gtc, rg 1 (rstarL (if dotAll then rdotAll else rdot)),
        lit ("</" ++ tag ++ ">")]

/-- Regex `<meta[^>]*property=["']PROP["'][^>]*content=["']([^"']+)["']`. -/
def reMetaProp (prop : String) : RE :=
  rseq [lit "<meta", rstar (rncl [gtc]), lit "property=", rquote, lit prop, rquote,
        rstar (rncl [gtc]), lit "content=", rquote, rg 1 (rplus (rncl [qc, ac])), rquote]

/-- Regex `<meta[^>]*name=["']NAME["'][^>]*content=["']([^"']+)["']`. -/
def reMetaName (nm : String) : RE :=
  rseq [lit "<meta", rstar (rncl [gtc]), lit "name=", rquote, lit nm, rquote,
        rstar (rncl [gtc]), lit "content=", rquote, rg 1 (rplus (rncl [qc, ac])), rquote]

/-- Regex `LBL[:\s]*([^\n<]+)`. -/
def reLabelCap (lbl : String) : RE :=
  rseq [lit lbl, reColonWS, rg 1 (rplus (rncl [nlc, ltc]))]

/-- Lazy plus. -/
def rplusL (r : RE) : RE := RE.seq r (RE.star true r)

/-- The `patterns` list of `_extract_product_name`, in order
(`re.DOTALL | re.IGNORECASE`). -/
def namePatterns : List RE :=
  [rseq [RE.chr ltc, lit "h1", rstar (rncl [gtc]), reClassWord "product",
         rstar (rncl [gtc]), RE.chr gtc, rg 1 (rstarL rdotAll), lit "</h1>"],
   reTagBody "h1" true, reTagBody "title" true, reMetaProp "og:title",
   reTagClassBody "div" "product-title" true, reTagClassBody "span" "product-name" true]

/-- The `retailer_names` deny list of `_extract_product_name`, in source order (the
capitalised `Vivin` entry never equals a lower-cased name and is kept as in the
source). -/
def retailerNames : List Str :=
  ["megahome", "mega home", "homepro", "home pro", "boonthavorn", "dohome", "do home",
   "global house", "thai watsadu", "watsadu", "power buy", "powerbuy", "lazada",
   "shopee", "central", "jaymart", "Vivin", "banner"].map String.data

/-- The inner retailer-prefix-stripping loop of `_extract_product_name`: `name_lower`
was computed once and is not updated when `name` is re-sliced (as in the source). -/
def stripRetailerLoop (nameLower : Str) (name : Str) : List Str → Str
  | [] => name
  | r :: rs =>
    if hasStart nameLower (r ++ [' ']) then
      let name' := trim (name.drop r.length)
      if name'.isEmpty || name'.length < 3 then stripRetailerLoop nameLower name' rs
      else name'
    else stripRetailerLoop nameLower name rs

/-- The pattern loop of `_extract_product_name`. -/
def nameLoop : List RE → Str → Option Str
  | [], _ => none
  | p :: ps, html =>
    match reSearch true p html with
    | none => nameLoop ps html
    | some mc =>
      let name := cleanText ((groupOf mc 1).getD [])
      let name' : Option Str :=
        if !name.isEmpty then
          let nameLower := trim (lowerS name)
          if retailerNames.contains nameLower then none
          else some (stripRetailerLoop nameLower name retailerNames)
        else some name
      match name' with
      | none => nameLoop ps html
      | some name => if !name.isEmpty && 3 < name.length then some name else nameLoop ps html

/-- `ProductExtractor._extract_product_name`. -/
def extractName (html : Str) : Option Str := nameLoop namePatterns html

/-- The `patterns` list of `_extract_description` (`re.DOTALL | re.IGNORECASE`). -/
def descPatterns : List RE :=
  [reMetaName "description", reMetaProp "og:description",
   reTagClassBody "div" "description" true, reTagClassBody "div" "product-description" true,
   reTagClassBody "p" "description" true]

/-- The pattern loop of `_extract_description`. -/
def descLoop : List RE → Str → Option Str
  | [], _ => none
  | p :: ps, html =>
    match reSearch true p html with
    | none => descLoop ps html
    | some mc =>
      let desc := cleanText ((groupOf mc 1).getD [])
      if !desc.isEmpty && 10 < desc.length then some desc else descLoop ps html

/-- `ProductExtractor._extract_description`. -/
def extractDescription (html : Str) : Option Str := descLoop descPatterns html

/-- Is this an ASCII upper-case letter (Python `str.isupper` on the characters this
code base meets)? -/
def isUpperC (c : Char) : Bool := 'A' ≤ c && c ≤ 'Z'

/-- The HTML `patterns` list of `_extract_brand` (`re.IGNORECASE`). -/
def brandPatterns : List RE :=
  [reMetaProp "og:brand", reMetaName "brand",
   reTagClassBody "span" "brand" false, reTagClassBody "div" "brand" false,
   reTagClassBody "a" "brand" false,
   reLabelCap "ยี่ห้อ", reLabelCap "แบรนด์", reLabelCap "Brand", reLabelCap "Manufacturer",
   reLabelCap "ผู้ผลิต", reLabelCap "เครื่องหมาย"]

/-- The HTML pattern loop of `_extract_brand`. -/
def brandHtmlLoop : List RE → Str → Option Str
  | [], _ => none
  | p :: ps, html =>
    match reSearch true p html with
    | none => brandHtmlLoop ps html
    | some mc =>
      let brand := cleanText ((groupOf mc 1).getD [])
      if 1 < brand.length then
        match sanitizeBrandField brand with
        | some cb => some cb
        | none => brandHtmlLoop ps html
      else brandHtmlLoop ps html

/-- The `title_patterns` list of `_extract_brand` (`re.IGNORECASE`, no DOTALL). -/
def brandTitlePatterns : List RE :=
  [reTagBody "title" false, reTagClassBody "h1" "product-title" false, reTagBody "h1" false]

/-- The title-derived brand loop of `_extract_brand` (first two words of the title,
accepted only if sanitization succeeds, length at least 3 and the first character is
upper case). -/
def brandTitleLoop : List RE → Str → Option Str
  | [], _ => none
  | p :: ps, html =>
    match reSearch true p html with
    | none => brandTitleLoop ps html
    | some mc =>
      let titleText := cleanText ((groupOf mc 1).getD [])
      if !titleText.isEmpty then
        let words := splitWS titleText
        if 2 ≤ words.length then
          match sanitizeBrandField (joinSp (words.take 2)) with
          | some cb =>
            if 3 ≤ cb.length && (match cb with | c :: _ => isUpperC c | [] => false) then
              some cb
            else brandTitleLoop ps html
          | none => brandTitleLoop ps html
        else brandTitleLoop ps html
      else brandTitleLoop ps html

/-- `ProductExtractor._extract_brand`. -/
def extractBrand (html : Str) : Py (Option Str) := do
  let ld ← extractFromJsonLd html
  let fromLd : Option Str :=
    if optJTruthy (ldGet ld.brandJ) then
      let bv : Option Json :=
        match ldGet ld.brandJ with
        | some (.obj kvs) => jGet kvs "name".data
        | v => v
      if optJTruthy bv then sanitizeBrandField (pyStrOfJson (bv.getD .null))
      else none
    else none
  match fromLd with
  | some b => pure (some b)
  | none =>
    match brandHtmlLoop brandPatterns html with
    | some b => pure (some b)
    | none => pure (brandTitleLoop brandTitlePatterns html)

/-- The HTML `patterns` list of `_extract_model` (`re.IGNORECASE`). -/
def modelPatterns : List RE :=
  [reTagClassBody "span" "model" false, reTagClassBody "div" "model" false,
   reMetaProp "product:model", reMetaName "model",
   reLabelCap "รุ่น", reLabelCap "โมเดล", reLabelCap "Model", reLabelCap "Model No",
   reLabelCap "Model Number", reLabelCap "Type", reLabelCap "แบบ", reLabelCap "รหัสแบบ"]

/-- The HTML pattern loop of `_extract_model`. -/
def modelHtmlLoop : List RE → Str → Option Str
  | [], _ => none
  | p :: ps, html =>
    match reSearch true p html with
    | none => modelHtmlLoop ps html
    | some mc =>
      let model := cleanText ((groupOf mc 1).getD [])
      if 1 < model.length then
        match sanitizeTextField model 200 with
        | some cm => some cm
        | none => modelHtmlLoop ps html
      else modelHtmlLoop ps html

/-- The free-text `model_patterns` list of `_extract_model` (`re.IGNORECASE`). -/
def modelTextPatterns : List RE :=
  [rseq [lit "รุ่น", rplus rws, rg 1 (rplus (RE.cls false ['-', '_'] [('A', 'Z'), ('a', 'z'), ('0', '9')]))],
   rseq [lit "โมเดล", rplus rws, rg 1 (rplus (RE.cls false ['-', '_'] [('A', 'Z'), ('a', 'z'), ('0', '9')]))],
   rseq [lit "Model", rplus (RE.cls false (':' :: [' ', Char.ofNat 9, nlc, crc, Char.ofNat 11, Char.ofNat 12]) []),
         rg 1 (rplus (RE.cls false ['-', '_'] [('A', 'Z'), ('a', 'z'), ('0', '9')]))],
   rseq [lit "Type", rplus (RE.cls false (':' :: [' ', Char.ofNat 9, nlc, crc, Char.ofNat 11, Char.ofNat 12]) []),
         rg 1 (rplus (RE.cls false ['-', '_'] [('A', 'Z'), ('a', 'z'), ('0', '9')]))],
   rg 1 (rseq [rBetween 2 4 (RE.cls false [] [('A', 'Z')]), ropt (RE.chr '-'), rBetween 3 6 rdigit]),
   rg 1 (rseq [RE.cls false [] [('A', 'Z')], rstar (RE.cls false [] [('a', 'z')]), RE.chr '-',
               rplus rdigit, rstar (RE.cls false [] [('A', 'Z'), ('a', 'z')])])]

/-- The inner free-text pattern loop of `_extract_model`. -/
def modelPatLoop : List RE → Str → Option Str
  | [], _ => none
  | p :: ps, src =>
    match reSearch true p src with
    | some mc =>
      match sanitizeTextField (trim ((groupOf mc 1).getD [])) 200 with
      | some cm => if 2 ≤ cm.length then some cm else modelPatLoop ps src
      | none => modelPatLoop ps src
    | none => modelPatLoop ps src

/-- The `text_sources` of `_extract_model`: cleaned title, h1 and meta description. -/
def modelTextSources (html : Str) : List Str :=
  (match reSearch true (reTagBody "title" false) html with
   | some mc => [cleanText ((groupOf mc 1).getD [])]
   | none => []) ++
  (match reSearch true (reTagBody "h1" false) html with
   | some mc => [cleanText ((groupOf mc 1).getD [])]
   | none => []) ++
  (match reSearch true (reMetaName "description") html with
   | some mc => [cleanText ((groupOf mc 1).getD [])]
   | none => [])

/-- The outer free-text source loop of `_extract_model`. -/
def modelFromSources : List Str → Option Str
  | [] => none
  | src :: rest =>
    if !src.isEmpty then
      match modelPatLoop modelTextPatterns src with
      | some m => some m
      | none => modelFromSources rest
    else modelFromSources rest

/-- `ProductExtractor._extract_model`. -/
def extractModel (html : Str) : Py (Option Str) := do
  let ld ← extractFromJsonLd html
  let fromLd : Option Str :=
    if optJTruthy (ldGet ld.modelJ) then
      sanitizeTextField (pyStrOfJson ((ldGet ld.modelJ).getD .null)) 200
    else none
  match fromLd with
  | some m => pure (some m)
  | none =>
    match modelHtmlLoop modelPatterns html with
    | some m => pure (some m)
    | none => pure (modelFromSources (modelTextSources html))

/-- The HTML `patterns` list of `_extract_sku` (`re.IGNORECASE`). -/
def skuPatterns : List RE :=
  [reTagClassBody "span" "sku" false, reMetaProp "product:retailer_item_id",
   reLabelCap "รหัสสินค้า", reLabelCap "SKU", reLabelCap "Article No"]

/-- The HTML pattern loop of `_extract_sku`. -/
def skuHtmlLoop : List RE → Str → Option Str
  | [], _ => none
  | p :: ps, html =>
    match reSearch true p html with
    | none => skuHtmlLoop ps html
    | some mc =>
      let sku := cleanText ((groupOf mc 1).getD [])
      if 1 < sku.length then
        match sanitizeSkuField sku with
        | some cs => some cs
        | none => skuHtmlLoop ps html
      else skuHtmlLoop ps html

/-- The `url_patterns` list of `_extract_sku` (`re.IGNORECASE`). -/
def skuUrlPatterns : List RE :=
  [rseq [lit "/product/", rg 1 (rplusL (rncl ['/'])), RE.alt (RE.chr '/') RE.eol],
   rseq [lit "/item/", rg 1 (rplusL (rncl ['/'])), RE.alt (RE.chr '/') RE.eol],
   rseq [lit "/p/", rg 1 (rplusL (rncl ['/'])), RE.alt (RE.chr '/') RE.eol],
   rseq [lit "sku", rcl ['=', '/'], rg 1 (rplus (rncl ['/', '&']))],
   rseq [RE.chr '/', rg 1 (rAtLeast 6 rdigit)],
   rseq [RE.chr '-', rg 1 (rAtLeast 4 (RE.cls false [] [('A', 'Z'), ('0', '9')]))]]

/-- The URL-mining loop of `_extract_sku`. -/
def skuUrlLoop : List RE → Str → Option Str
  | [], _ => none
  | p :: ps, u =>
    match reSearch true p u with
    | some mc =>
      let potential := trim ((groupOf mc 1).getD [])
      if isValidSku potential then some potential else skuUrlLoop ps u
    | none => skuUrlLoop ps u

/-- `ProductExtractor._extract_sku` (`base` is `self.base_url`). -/
def extractSku (html : Str) (base : Option Str) : Option Str :=
  match skuHtmlLoop skuPatterns html with
  | some s => some s
  | none => if truthy base then skuUrlLoop skuUrlPatterns (base.getD []) else none

/-- The `patterns` list of `_extract_category` (`re.DOTALL | re.IGNORECASE`); the two
breadcrumb patterns have no capture group, so the whole match is used. -/
def catPatterns : List (RE × Bool) :=
  [(rseq [lit "<nav", rstar (rncl [gtc]), reClassWord "breadcrumb", rstar (rncl [gtc]),
          RE.chr gtc, rstarL rdotAll, lit "</nav>"], false),
   (rseq [lit "<div", rstar (rncl [gtc]), reClassWord "breadcrumb", rstar (rncl [gtc]),
          RE.chr gtc, rstarL rdotAll, lit "</div>"], false),
   (reLabelCap "หมวดหมู่", true), (reLabelCap "Category", true)]

/-- The pattern loop of `_extract_category` (with the last-breadcrumb-segment rule). -/
def catLoop : List (RE × Bool) → Str → Option Str
  | [], _ => none
  | (p, hasG) :: ps, html =>
    match reSearch true p html with
    | none => catLoop ps html
    | some mc =>
      let val := if hasG then (groupOf mc 1).getD [] else mc.1
      let category := cleanText val
      if 1 < category.length then
        if category.contains gtc then some (lastD ((splitOnC gtc category).map trim))
        else some category
      else catLoop ps html

/-- `ProductExtractor._extract_category`. -/
def extractCategory (html : Str) : Option Str := catLoop catPatterns html

/-- The `price_patterns` list of `_extract_prices` (extractor version,
`re.IGNORECASE`, `re.findall`). -/
def pricePatternsHtml : List RE :=
  [reTagClassBody "span" "price" false, reTagClassBody "div" "price" false,
   reMetaProp "product:price:amount", reMetaProp "og:price:amount"]

/-- The `price_text_patterns` list of `_extract_prices`. -/
def priceTextPatterns : List RE :=
  [rseq [lit "ราคา", reColonWS, rePriceTok], rseq [lit "Price", reColonWS, rePriceTok],
   rseq [rePriceTok, rstar rws, lit "บาท"]]

/-- The `original_price_patterns` list of `_extract_prices` (extractor version). -/
def origPricePatternsHtml : List RE :=
  [rseq [RE.chr ltc, lit "span", rstar (rncl [gtc]), reClassWords "original" "price",
         rstar (rncl [gtc]), RE.chr gtc, rg 1 (rstarL rdot), lit "</span>"],
   reTagClassBody "span" "was" false, reTagClassBody "div" "original-price" false,
   rseq [lit "ราคาปกติ", reColonWS, rePriceTok], rseq [lit "ปกติ", reColonWS, rePriceTok]]

/-- `re.findall` collecting group 1 of every match. -/
def findAllG1 (p : RE) (s : Str) : List Str :=
  (reFindAll true p s).filterMap (fun mc => groupOf mc 1)

/-- `ProductExtractor._extract_prices` (the extractor's own price scan). -/
def extractPricesHtml (html : Str) : Option ℚ × Option ℚ :=
  let allPriceText := ((pricePatternsHtml ++ priceTextPatterns).map (fun p => findAllG1 p html)).flatten
  let originalPrices := (origPricePatternsHtml.map (fun p => findAllG1 p html)).flatten
  let allPrices := allPriceText.filterMap parsePrice
  let origPrices := originalPrices.filterMap parsePrice
  match listMax origPrices with
  | some m =>
    let others := allPrices.filter (fun p => decide (p ≠ m))
    (listMin others, some m)
  | none =>
    if 2 ≤ allPrices.length then (listMin allPrices, listMax allPrices)
    else if allPrices.length = 1 then (allPrices.head?, none)
    else (none, none)

/-- The `patterns` list of `_extract_volume` (`re.IGNORECASE`). -/
def volumePatterns : List RE :=
  [rseq [rg 1 reNumTok, rstar rws, ralt [lit "ลิตร", lit "L", lit "l"],
         ropt (rseq [rstar rws, lit "ตัน"])],
   rseq [rg 1 reNumTok, rstar rws, ralt [lit "มล", lit "ml", lit "ML"]],
   rseq [rg 1 reNumTok, rstar rws, ralt [lit "แกลลอน", lit "gallon"]],
   reLabelCap "ความจุ", reLabelCap "Volume", reLabelCap "Capacity"]

/-- The pattern loop of `_extract_volume`. -/
def volumeLoop : List RE → Str → Option Str
  | [], _ => none
  | p :: ps, html =>
    match reSearch true p html with
    | none => volumeLoop ps html
    | some mc =>
      let volume := cleanText ((groupOf mc 1).getD [])
      if !volume.isEmpty then some volume else volumeLoop ps html

/-- `ProductExtractor._extract_volume`. -/
def extractVolume (html : Str) : Option Str := volumeLoop volumePatterns html

/-- The `patterns` list of `_extract_dimensions` (`re.IGNORECASE`). -/
def dimensionPatterns : List RE :=
  [rseq [rg 1 (rseq [reNumTok, reXSep, reNumTok, reXSep, reNumTok]), rstar rws,
         ralt [lit "ซม", lit "cm", lit "mm", lit "m"]],
   reLabelCap "ขนาด", reLabelCap "Dimension", reLabelCap "Size",
   rseq [rg 1 reNumTok, rstar rws, lit "ซม"]]

/-- The pattern loop of `_extract_dimensions`. -/
def dimensionLoop : List RE → Str → Option Str
  | [], _ => none
  | p :: ps, html =>
    match reSearch true p html with
    | none => dimensionLoop ps html
    | some mc =>
      let dims := cleanText ((groupOf mc 1).getD [])
      if !dims.isEmpty then
        match sanitizeDimensionsField dims with
        | some cd => some cd
        | none => dimensionLoop ps html
      else dimensionLoop ps html

/-- `ProductExtractor._extract_dimensions`. -/
def extractDimensions (html : Str) : Option Str := dimensionLoop dimensionPatterns html

/-- The `patterns` list of `_extract_material` (`re.IGNORECASE`). -/
def materialPatterns : List RE :=
  [reLabelCap "วัสดุ", reLabelCap "Material", reLabelCap "ผลิตจาก", reLabelCap "เนื้อวัสดุ"]

/-- The pattern loop of `_extract_material`. -/
def materialLoop : List RE → Str → Option Str
  | [], _ => none
  | p :: ps, html =>
    match reSearch true p html with
    | none => materialLoop ps html
    | some mc =>
      let material := cleanText ((groupOf mc 1).getD [])
      if 1 < material.length then
        match sanitizeMaterialField material with
        | some cm => some cm
        | none => materialLoop ps html
      else materialLoop ps html

/-- `ProductExtractor._extract_material`. -/
def extractMaterial (html : Str) : Option Str := materialLoop materialPatterns html

/-- The `patterns` list of `_extract_color` (`re.IGNORECASE`). -/
def colorPatterns : List RE :=
  [reLabelCap "สี", reLabelCap "Color", reLabelCap "สีแบบ"]

/-- The pattern loop of `_extract_color`. -/
def colorLoop : List RE → Str → Option Str
  | [], _ => none
  | p :: ps, html =>
    match reSearch true p html with
    | none => colorLoop ps html
    | some mc =>
      let color := cleanText ((groupOf mc 1).getD [])
      if 1 < color.length then
        match sanitizeColorField color with
        | some cc => some cc
        | none => colorLoop ps html
      else colorLoop ps html

/-- `ProductExtractor._extract_color`. -/
def extractColor (html : Str) : Option Str := colorLoop colorPatterns html

/-! ## Images (product_extractor.py lines 650-700) -/

/-- The `patterns` list of `_extract_images` (`re.IGNORECASE`, `re.findall`). -/
def imagePatterns : List RE :=
  [rseq [lit "<img", rstar (rncl [gtc]), reClassWords "product" "image",
         rstar (rncl [gtc]), lit "src=", rquote, rg 1 (rplus (rncl [qc, ac])), rquote],
   rseq [lit "<img", rstar (rncl [gtc]), reClassWord "product-image",
         rstar (rncl [gtc]), lit "src=", rquote, rg 1 (rplus (rncl [qc, ac])), rquote],
   reMetaProp "og:image", reMetaProp "product:image",
   rseq [lit "<img", rstar (rncl [gtc]), lit "src=", rquote,
         rg 1 (rseq [rstar (rncl [qc, ac]), lit "product", rstar (rncl [qc, ac])]), rquote]]

/-- `ProductExtractor._resolve_url` (`base` is `self.base_url`; a `urljoin` failure
cannot arise in the model, matching the silent `except: pass`). -/
def resolveUrl (base : Option Str) (url : Str) : Option Str :=
  if url.isEmpty then none
  else if hasStartAny url (["data:", "mailto:", "tel:", "javascript:"].map String.data) then none
  else if hasStartAny url (["http://", "https://"].map String.data) then some url
  else if truthy base then some (urljoin (base.getD []) url)
  else some url

/-- `_resolve_url` applied to a decoded JSON value, as `_extract_images` does with
JSON-LD image entries: falsy values resolve to nothing, a truthy non-string raises
`AttributeError`. -/
def resolveJsonUrl (base : Option Str) : Json → Py (Option Str)
  | .str s => pure (resolveUrl base s)
  | j => if jTruthy j then Except.error () else pure none

/-- Append an image candidate if it is truthy and not already collected. -/
def addImage (acc : List Str) : Option Str → List Str
  | some v => if !v.isEmpty && !acc.contains v then acc ++ [v] else acc
  | none => acc

/-- One step of the JSON-LD image fold inside `_extract_images`. -/
def imageFold (base : Option Str) (acc : List Str) (j : Json) : Py (List Str) := do
  let r ← resolveJsonUrl base j
  pure (addImage acc r)

/-- `ProductExtractor._extract_images`. -/
def extractImages (html : Str) (base : Option Str) : Py (List Str) := do
  let cands := (imagePatterns.map (fun p => findAllG1 p html)).flatten
  let images := cands.foldl (fun acc m => addImage acc (resolveUrl base (trim m))) []
  let ld ← extractFromJsonLd html
  let images ←
    match ld.imagesJ with
    | some ldImages => ldImages.foldlM (imageFold base) images
    | none => pure images
  pure (images.take 10)

/-! ## Pipeline assembly: `extract_from_html`, `normalize_product_data`, `ProductData` -/

/-- The `raw_data` dictionary built by `ProductExtractor.extract_from_html` (all keys
are always set; `none` is Python `None`). -/
structure RawData where
  retailer : Str
  name : Option Str
  description : Option Str
  brand : Option Str
  model : Option Str
  sku : Option Str
  category : Option Str
  currentPrice : Option ℚ
  originalPrice : Option ℚ
  volume : Option Str
  dimensions : Option Str
  material : Option Str
  color : Option Str
  images : List Str
  url : Option Str

/-- The HTML element names rejected as model values. -/
def htmlElements : List Str :=
  ["html", "body", "div", "span", "section", "article", "header", "footer"].map String.data

/-- The systematic field sanitization step of `extract_from_html` (lines 64-94): each
truthy raw field is re-sanitized; falsy fields are left alone. -/
def sanitizeRaw (r : RawData) : RawData :=
  { r with
    brand := if truthy r.brand then sanitizeBrandField (r.brand.getD []) else r.brand,
    model :=
      if truthy r.model then
        match sanitizeTextField (r.model.getD []) 50 with
        | some cm =>
          if !cm.isEmpty && !htmlElements.contains (lowerS cm) then some cm else none
        | none => none
      else r.model,
    sku := if truthy r.sku then sanitizeSkuField (r.sku.getD []) else r.sku,
    color := if truthy r.color then sanitizeColorField (r.color.getD []) else r.color,
    dimensions :=
      if truthy r.dimensions then sanitizeDimensionsField (r.dimensions.getD [])
      else r.dimensions,
    material :=
      if truthy r.material then sanitizeMaterialField (r.material.getD []) else r.material,
    volume := if truthy r.volume then sanitizeTextField (r.volume.getD []) 50 else r.volume,
    category :=
      if truthy r.category then sanitizeTextField (r.category.getD []) 100 else r.category }

/-- The dictionary produced by `normalize_product_data` (product_schemas.py lines
418-479) from the extractor's raw data.  An outer `none` means the key is absent from
the normalized dictionary; `scraped_at` (a wall-clock timestamp) is omitted from the
model. -/
structure NormData where
  name : Option (Option Str)
  retailer : Option (Option Str)
  url : Option (Option Str)
  description : Option (Option Str)
  brand : Option (Option Str)
  model : Option (Option Str)
  sku : Option (Option Str)
  category : Option (Option Str)
  volume : Option (Option Str)
  dimensions : Option (Option Str)
  material : Option (Option Str)
  color : Option (Option Str)
  currentPrice : Option (Option ℚ)
  originalPrice : Option (Option ℚ)
  discountAmount : ℚ
  discountPercent : ℚ
  hasDiscount : Bool
  images : List Str

/-- One string field of `normalize_product_data`: key kept only when the raw value is
not `None`; a falsy (empty) string becomes `None`, anything else is stripped. -/
def normStr : Option Str → Option (Option Str)
  | none => none
  | some s => some (if !s.isEmpty then some (trim s) else none)

/-- `normalize_product_data`, specialised to the extractor's raw dictionary (every key
present; price values are floats already, so their `float(...)` conversion cannot
fail; the discount keys are absent and default to `0.0`/`False`). -/
def normalizeProductData (r : RawData) : NormData :=
  { name := normStr r.name, retailer := normStr (some r.retailer), url := normStr r.url,
    description := normStr r.description, brand := normStr r.brand,
    model := normStr r.model, sku := normStr r.sku, category := normStr r.category,
    volume := normStr r.volume, dimensions := normStr r.dimensions,
    material := normStr r.material, color := normStr r.color,
    currentPrice := r.currentPrice.map some, originalPrice := r.originalPrice.map some,
    discountAmount := 0, discountPercent := 0, hasDiscount := false,
    images := r.images.filter (fun i => !i.isEmpty) }

/-- The `ProductData` dataclass (product_schemas.py lines 17-166).  `product_key` (an
md5 digest) and `scraped_at` (a wall-clock timestamp) are omitted: no claim concerns
them.  String fields are `Option Str` because Python lets `None` into the `str`-typed
slots (`some []` is the empty-string default). -/
structure Product where
  name : Option Str := some []
  retailer : Option Str := some []
  url : Option Str := some []
  description : Option Str := none
  currentPrice : Option ℚ := none
  originalPrice : Option ℚ := none
  hasDiscount : Bool := false
  discountPercent : Option ℚ := none
  discountAmount : Option ℚ := none
  brand : Option Str := none
  model : Option Str := none
  sku : Option Str := none
  category : Option Str := none
  volume : Option Str := none
  dimensions : Option Str := none
  material : Option Str := none
  color : Option Str := none
  images : List Str := []
  deriving DecidableEq

/-- `ProductData(**normalized_data)`: constructor argument for each present key,
dataclass default otherwise (before `__post_init__` runs). -/
def mkProduct (n : NormData) : Product :=
  { name := n.name.getD (some []), retailer := n.retailer.getD (some []),
    url := n.url.getD (some []), description := n.description.getD none,
    currentPrice := n.currentPrice.join, originalPrice := n.originalPrice.join,
    hasDiscount := n.hasDiscount, discountPercent := some n.discountPercent,
    discountAmount := some n.discountAmount, brand := n.brand.getD none,
    model := n.model.getD none, sku := n.sku.getD none, category := n.category.getD none,
    volume := n.volume.getD none, dimensions := n.dimensions.getD none,
    material := n.material.getD none, color := n.color.getD none, images := n.images }

/-- The initial defaults of `ProductData._calculate_discounts`. -/
def discountDefaults (p : Product) : Product :=
  { p with hasDiscount := false, discountAmount := some 0, discountPercent := some 0 }

/-- The conditional discount computation of `_calculate_discounts`: the percentage is
computed from the already-rounded amount, and `has_discount` is the sign test on it. -/
def calcDiscountsCore (p : Product) : Product :=
  match p.currentPrice, p.originalPrice with
  | some cur, some orig =>
    if 0 < orig then
      { p with
        discountAmount := some (pyRound (qSub orig cur) 2),
        discountPercent := some (pyRound (qMul (qDiv (pyRound (qSub orig cur) 2) orig) 100) 2),
        hasDiscount := decide (0 < pyRound (qSub orig cur) 2) }
    else p
  | _, _ => p

/-- The trailing never-`None` guards of `_calculate_discounts`. -/
def discountNoneGuards (p : Product) : Product :=
  let p := if p.discountAmount.isNone then { p with discountAmount := some 0 } else p
  if p.discountPercent.isNone then { p with discountPercent := some 0 } else p

/-- `ProductData._calculate_discounts` (lines 106-126). -/
def calcDiscounts (p : Product) : Product :=
  discountNoneGuards (calcDiscountsCore (discountDefaults p))

/-- The price-rounding step of `_clean_data`. -/
def cleanPriceFields (p : Product) : Product :=
  let p := match p.currentPrice with
    | some c => { p with currentPrice := some (pyRound c 2) }
    | none => p
  match p.originalPrice with
  | some c => { p with originalPrice := some (pyRound c 2) }
  | none => p

/-- The discount-field normalisation step of `_clean_data`. -/
def cleanDiscountFields (p : Product) : Product :=
  let p := match p.discountPercent with
    | none => { p with discountPercent := some 0 }
    | some q => { p with discountPercent := some (pyRound q 4) }
  match p.discountAmount with
  | none => { p with discountAmount := some 0 }
  | some q => { p with discountAmount := some (pyRound q 2) }

/-- The name cleanup line of `_clean_data`. -/
def cleanName (p : Product) : Product :=
  if truthy p.name then { p with name := p.name.map wsJoin } else p

/-- The description cleanup line of `_clean_data`. -/
def cleanDescription (p : Product) : Product :=
  if truthy p.description then { p with description := p.description.map wsJoin } else p

/-- The brand strip line of `_clean_data`. -/
def cleanBrand (p : Product) : Product :=
  if truthy p.brand then { p with brand := p.brand.map trim } else p

/-- The model strip line of `_clean_data`. -/
def cleanModel (p : Product) : Product :=
  if truthy p.model then { p with model := p.model.map trim } else p

/-- The sku strip line of `_clean_data`. -/
def cleanSku (p : Product) : Product :=
  if truthy p.sku then { p with sku := p.sku.map trim } else p

/-- The image filter line of `_clean_data`. -/
def cleanImages (p : Product) : Product :=
  { p with images := p.images.filter (fun i =>
      !i.isEmpty && (hasStart i "http://".data || hasStart i "https://".data)) }

/-- `ProductData._clean_data` (lines 128-166), as the composition of its steps in
source order; the `has_discount is None` guard cannot fire in the model, where the
field is a Bool. -/
def cleanData (p : Product) : Product :=
  cleanImages (cleanSku (cleanModel (cleanBrand (cleanDescription (cleanName
    (cleanDiscountFields (cleanPriceFields p)))))))

/-- The retailer-from-URL fallback of `__post_init__`. -/
def retailerFallback (p : Product) : Product :=
  if !truthy p.retailer && truthy p.url then
    { p with retailer := some (retailerFromDomain schemaRetailerTable (p.url.getD [])) }
  else p

/-- `ProductData.__post_init__` (minus key generation and timestamping): retailer
fallback from the URL, discount computation, data cleaning. -/
def postInit (p : Product) : Product :=
  cleanData (calcDiscounts (retailerFallback p))

/-- The raw-field extraction of `ProductExtractor.extract_from_html` (everything before
the sanitization step; `base` is `self.base_url` after the `if url:` update). -/
def genericRaw (html : Str) (base url : Option Str) : Py RawData := do
  let brand ← extractBrand html
  let model ← extractModel html
  let prices := extractPricesHtml html
  let images ← extractImages html base
  pure { retailer := extractRetailerFromUrl url, name := extractName html,
         description := extractDescription html, brand := brand, model := model,
         sku := extractSku html base, category := extractCategory html,
         currentPrice := prices.1, originalPrice := prices.2,
         volume := extractVolume html, dimensions := extractDimensions html,
         material := extractMaterial html, color := extractColor html,
         images := images, url := if truthy url then url else base }

/-- The record built from one raw extraction: sanitization step, normalization, then
`ProductData` construction with its `__post_init__`. -/
def builtProduct (raw : RawData) : Product :=
  postInit (mkProduct (normalizeProductData (sanitizeRaw raw)))

/-- `ProductExtractor.extract_from_html` (lines 23-110).  `base0` is the `base_url`
the extractor was constructed with; a provided truthy `url` replaces it, as in the
source.  `ProductData` construction is total in the model, so its `try/except` guard
never fires. -/
def genericExtract (html : Str) (url base0 : Option Str) : Py (Option Product) :=
  if html.isEmpty then pure none
  else do
    let raw ← genericRaw html (if truthy url then url else base0) url
    pure (some (builtProduct raw))

/-! ## `BoonthavornExtractor` (product_extractor.py lines 972-1133) -/

/-- Does `data.get('@type')` equal `Product` (Boonthavorn's stricter check)? -/
def isExactProduct (v : Option Json) : Bool :=
  match v with
  | some (.str s) => s = "Product".data
  | _ => false

/-- Regex of `BoonthavornExtractor._extract_json_ld`
(`<script type="application/ld\+json">(.*?)</script>`, `re.DOTALL`, case sensitive). -/
def reBoonJsonLd : RE :=
  rseq [lit "<script type=", RE.chr qc, lit "application/ld+json", RE.chr qc, RE.chr gtc,
        rg 1 (rstarL rdotAll), lit "</script>"]

/-- First dict with `@type == 'Product'` inside a decoded block list (the inner loop of
`_extract_json_ld` over a JSON array). -/
def boonFirstProduct : List Json → Option (List (Str × Json))
  | [] => none
  | .obj d :: rest => if isExactProduct (jGet d "@type".data) then some d else boonFirstProduct rest
  | _ :: rest => boonFirstProduct rest

/-- `BoonthavornExtractor._extract_json_ld`: the first `@type: Product` object found in
any script block; decode failures skip the block; all exceptions are swallowed. -/
def boonExtractJsonLd (html : Str) : Option (List (Str × Json)) :=
  boonScan ((reFindAll false reBoonJsonLd html).filterMap (fun mc => groupOf mc 1))
where
  /-- Scan the blocks in order. -/
  boonScan : List Str → Option (List (Str × Json))
    | [] => none
    | b :: rest =>
      match pyJsonLoads b with
      | some (.obj data) =>
        if isExactProduct (jGet data "@type".data) then some data else boonScan rest
      | some (.arr items) =>
        match boonFirstProduct items with
        | some d => some d
        | none => boonScan rest
      | _ => boonScan rest

/-- A JSON-LD value assigned into a `str`-typed slot (`product.name`,
`product.description`).  A truthy non-string would raise a `TypeError` later in the
method (at the `'รุ่น' in ...` membership test) and is outside the model, so the model
raises at the assignment; falsy values behave as `None` throughout. -/
def jsonStrField : Option Json → Py (Option Str)
  | some (.str s) => pure (some s)
  | some j => if jTruthy j then Except.error () else pure none
  | none => pure none

/-- Python `float(x)` on a decoded JSON value (`ValueError` on a non-numeric string,
`TypeError` on containers and `None`). -/
def pyFloatOfJson : Json → Py ℚ
  | .num q => pure q
  | .str s =>
    match pyFloatOfStr s with
    | some q => pure q
    | none => Except.error ()
  | .bool true => pure 1
  | .bool false => pure 0
  | _ => Except.error ()

/-- A JSON-LD `image` list assigned into the `images` slot.  Non-string members would
flow into the record unconverted (junk-typed data, outside the model), so the model
raises on them; every claim-relevant input has string members. -/
def jsonImageList : List Json → Py (List Str)
  | [] => pure []
  | .str s :: rest => (jsonImageList rest).map (fun l => s :: l)
  | _ :: _ => Except.error ()

/-- Regex of the Boonthavorn quick-info pattern (two capture groups, case
sensitive). -/
def reQuickInfo : RE :=
  rseq [lit "class=", RE.chr qc, lit "quickInfo-infoLabel-", rplus (rncl [qc]), RE.chr qc,
        RE.chr gtc, rg 1 (rplus (rncl [ltc])), lit "</label><label class=", RE.chr qc,
        lit "quickInfo-infoValue-", rplus (rncl [qc]), RE.chr qc, RE.chr gtc,
        rg 2 (rplus (rncl [ltc])), lit "</label>"]

/-- The quick-info label-to-value dictionary (`dict(re.findall(...))`: later pairs win). -/
def quickInfoAttrs (html : Str) : List (Str × Str) :=
  (reFindAll false reQuickInfo html).filterMap (fun mc =>
    match groupOf mc 1, groupOf mc 2 with
    | some k, some v => some (k, v)
    | _, _ => none)

/-- Lookup in the quick-info dictionary (last occurrence of a duplicated label wins). -/
def qiGet (attrs : List (Str × Str)) (k : Str) : Option Str :=
  match (attrs.filter (fun p => p.1 = k)).reverse with
  | [] => none
  | p :: _ => some p.2

/-- Regex of the Boonthavorn old-price block (case sensitive, no DOTALL). -/
def reBoonOldPrice : RE :=
  rseq [lit "productPrice-oldPrice", rstarL rdot, lit "price-currency-",
        rplus (rncl [gtc]), RE.chr gtc, lit "บาท</span>",
        rg 1 (rplus (rseq [lit "<span>", rplus (rncl [ltc]), lit "</span>"]))]

/-- Regex `รุ่น\s+([A-Za-z0-9\-_\s]+)` of the model-from-name heuristic. -/
def reBoonModel : RE :=
  rseq [lit "รุ่น", rplus rws,
        rg 1 (rplus (RE.cls false
          ['-', '_', ' ', Char.ofNat 9, nlc, crc, Char.ofNat 11, Char.ofNat 12]
          [('A', 'Z'), ('a', 'z'), ('0', '9')]))]

/-- The `url_patterns` of Boonthavorn's URL-based SKU fallback (case sensitive). -/
def boonSkuUrlPatterns : List RE :=
  [rseq [RE.chr '-', rg 1 (rplus rdigit), RE.eol],
   rseq [lit "/product/", rg 1 (rplus (rncl ['/']))],
   rseq [lit "/item/", rg 1 (rplus (rncl ['/']))]]

/-- The URL-pattern loop of Boonthavorn's SKU fallback. -/
def boonSkuLoop : List RE → Str → Option Str
  | [], _ => none
  | p :: ps, u =>
    match reSearch false p u with
    | some mc =>
      let potential := trim ((groupOf mc 1).getD [])
      if isValidSku potential then some potential else boonSkuLoop ps u
    | none => boonSkuLoop ps u

/-- Is the sku slot unset for Boonthavorn's purposes
(`not product.sku or product.sku == 'None'`)? -/
def skuUnset (s : Option Str) : Bool := !truthy s || s = some "None".data

/-- `BoonthavornExtractor.extract_from_html`.  The bespoke logic runs with no
try/except around it: JSON-LD prices that `float` rejects, and the malformed-structure
cases called out on the helper definitions, propagate to the caller.  The dynamic
`product.currency` attribute is not a dataclass field and is omitted. -/
def boonthavornExtract (html : Str) (url base0 : Option Str) : Py Product := do
  let product : Product := postInit { url := url }
  -- 1. JSON-LD
  let product ←
    match boonExtractJsonLd html with
    | none => pure product
    | some data => do
      let nm ← jsonStrField (jGet data "name".data)
      let ds ← jsonStrField (jGet data "description".data)
      let product := { product with name := nm, description := ds }
      let product :=
        match jGet data "brand".data with
        | some bv =>
          if jTruthy bv then
            let bv' : Option Json :=
              match bv with
              | .obj kvs => jGet kvs "name".data
              | v => some v
            if optJTruthy bv' then
              { product with brand := sanitizeBrandField (pyStrOfJson (bv'.getD .null)) }
            else product
          else product
        | none => product
      let product :=
        match jGet data "sku".data with
        | some sv =>
          if jTruthy sv then
            { product with sku := sanitizeSkuField (pyStrOfJson sv) }
          else product
        | none => product
      let product ←
        match jGet data "offers".data with
        | some (.obj offers) =>
          (match jGet offers "price".data with
           | some price =>
             if jTruthy price then do
               let q ← pyFloatOfJson price
               pure { product with currentPrice := some q }
             else pure product
           | none => pure product)
        | some _ => pure product
        | none =>
          -- `json_ld_data.get('offers', {})` defaults to a dict with no `price`
          pure product
      match jGet data "image".data with
      | some (.arr xs) => do
        let imgs ← jsonImageList xs
        pure { product with images := imgs }
      | some (.str s) => pure { product with images := [s] }
      | _ => pure product
  -- 2. Quick info
  let attrs := quickInfoAttrs html
  let product :=
    if attrs.isEmpty then product
    else
      let product :=
        match qiGet attrs "สี".data with
        | some cv =>
          if !truthy product.color then
            { product with color := sanitizeColorField (trim cv) }
          else product
        | none => product
      let product :=
        match qiGet attrs "ขนาดสินค้า".data with
        | some dv => { product with dimensions := sanitizeDimensionsField (trim dv) }
        | none => product
      let product :=
        match qiGet attrs "หน่วยนับ".data with
        | some vv => { product with volume := sanitizeTextField (trim vv) 50 }
        | none => product
      let product :=
        match qiGet attrs "ยี่ห้อ".data with
        | some bv =>
          if !truthy product.brand then
            match sanitizeBrandField (trim bv) with
            | some cb => { product with brand := some cb }
            | none => product
          else product
        | none => product
      match qiGet attrs "รหัสสินค้า".data with
      | some sv =>
        if skuUnset product.sku then
          match sanitizeSkuField (trim sv) with
          | some cs => { product with sku := some cs }
          | none => product
        else product
      | none => product
  -- 3. Original price
  let product :=
    if !truthyQ product.originalPrice then
      match reSearch false reBoonOldPrice html with
      | some mc =>
        let rawPrice := (groupOf mc 1).getD []
        let cleanPrice := reSubAll false (RE.alt reTag (RE.chr ',')) [] rawPrice
        let cleanPrice := trim (wsJoin cleanPrice)
        (match pyFloatOfStr cleanPrice with
         | some q => { product with originalPrice := some q }
         | none => product)
      | none => product
    else product
  -- 4. Fallback to the generic engine
  let htmlProduct ← genericExtract html url base0
  let product :=
    match htmlProduct with
    | some hp =>
      let product := if !truthy product.name then { product with name := hp.name } else product
      let product :=
        if !truthy product.description then { product with description := hp.description }
        else product
      let product :=
        if product.images.isEmpty then { product with images := hp.images } else product
      if truthy hp.material && !truthy product.material then
        { product with material := hp.material }
      else product
    | none => product
  -- 5. Model from name or description
  let product :=
    if truthy product.name && isSub "รุ่น".data (product.name.getD []) then
      match reSearch false reBoonModel (product.name.getD []) with
      | some mc =>
        (match sanitizeTextField (trim ((groupOf mc 1).getD [])) 200 with
         | some cm => { product with model := some cm }
         | none => product)
      | none => product
    else if truthy product.description && isSub "รุ่น".data (product.description.getD []) then
      match reSearch false reBoonModel (product.description.getD []) with
      | some mc =>
        (match sanitizeTextField (trim ((groupOf mc 1).getD [])) 200 with
         | some cm => { product with model := some cm }
         | none => product)
      | none => product
    else product
  -- 6. URL-based SKU fallback
  let product :=
    if truthy url && skuUnset product.sku then
      match boonSkuLoop boonSkuUrlPatterns (url.getD []) with
      | some s => { product with sku := some s }
      | none => product
    else product
  pure { product with retailer := some "Boonthavorn".data }

/-! ## Claim-level checkers, character predicates and concrete inputs -/

/-- The non-whitespace characters a dimension-pattern match can consist of: ASCII and
Thai digits, the dot and the two size separators. -/
def dimHead (c : Char) : Bool :=
  ('0' ≤ c && c ≤ '9') || (Char.ofNat 3664 ≤ c && c ≤ Char.ofNat 3673) ||
  c = '.' || c = 'x' || c = Char.ofNat 215

/-- The characters a dimension-pattern match can consist of. -/
def dimChar (c : Char) : Bool := dimHead c || isWS c

/-- Every character the regex can consume satisfies `P`: a syntactic
over-approximation of the alphabet of `r`. -/
def reOk (ic : Bool) (P : Char → Bool) : RE → Prop
  | .eps => True
  | .eol => True
  | .chr c => ∀ x, chrEq ic x c = true → P x = true
  | .cls neg cs rgs => ∀ x, clsHit ic neg cs rgs x = true → P x = true
  | .seq a b => reOk ic P a ∧ reOk ic P b
  | .alt a b => reOk ic P a ∧ reOk ic P b
  | .opt _ a => reOk ic P a
  | .star _ a => reOk ic P a
  | .grp _ a => reOk ic P a

/-- Captures in `caps` are either inherited from `caps0` or consist of consumed
characters, all satisfying `P`. -/
def capsLe (P : Char → Bool) (caps0 caps : Caps) : Prop :=
  ∀ nv ∈ caps, nv ∈ caps0 ∨ ∀ c ∈ nv.2, P c = true

/-- Contract of a sanitizer result for length bound `n`: any returned value is
strip-fixed, fits the bound, has no rejected start and none of the nine structural
characters. -/
def goodOut (n : Nat) (o : Option Str) : Prop :=
  ∀ r, o = some r → trim r = r ∧ r.length ≤ n ∧
    hasStartAny (lowerS r) badStarts = false ∧
    ∀ c ∈ badChars, r.contains c = false

/-- A sanitized model value is additionally never a bare HTML element name (the
model-field filter of `extract_from_html`). -/
def modelOut (o : Option Str) : Prop :=
  ∀ r, o = some r → htmlElements.contains (lowerS r) = false

/-- One populated free-text field obeys the sanitizer contract for `maxLen`. -/
def fieldClean (f : Option Str) (maxLen : Nat) : Bool :=
  match f with
  | none => true
  | some v =>
    v.isEmpty ||
    (decide (v.length ≤ maxLen) && !hasStartAny (lowerS v) badStarts &&
     !badChars.any (fun c => v.contains c))

/-- All specialized free-text fields of a record obey the sanitizer contract, each at
its field-specific bound. -/
def sanitizedChk (p : Product) : Bool :=
  fieldClean p.brand 100 && fieldClean p.model 50 && fieldClean p.sku 50 &&
  fieldClean p.category 100 && fieldClean p.volume 50 && fieldClean p.dimensions 200 &&
  fieldClean p.material 100 && fieldClean p.color 50

/-- The name field contains none of the nine structural characters. -/
def nameCharsChk (p : Product) : Bool :=
  match p.name with
  | none => true
  | some v => !badChars.any (fun c => v.contains c)

/-- The model field is not a bare HTML element name (case-insensitively). -/
def modelChk (p : Product) : Bool :=
  match p.model with
  | none => true
  | some m => !htmlElements.contains (lowerS m)

/-- The images field is duplicate-free, at most ten long and all-http(s). -/
def imagesChk (p : Product) : Bool :=
  decide p.images.Nodup && decide (p.images.length ≤ 10) &&
  p.images.all (fun i => hasStart i "http://".data || hasStart i "https://".data)

/-- Run a record check across an `extract_from_html` result: vacuous on an exception
or a `None` result. -/
def onOkProduct (chk : Product → Bool) : Py (Option Product) → Bool
  | .ok (some p) => chk p
  | .ok none => true
  | .error _ => true

/-- Run a record check across a specialized-extractor result: vacuous on an
exception. -/
def onOkProd (chk : Product → Bool) : Py Product → Bool
  | .ok p => chk p
  | .error _ => true

/-- A JSON-quoted string. -/
def jq (s : String) : Str := qc :: s.data ++ [qc]

/-- Page whose `<h1>` product name contains an apostrophe. -/
def c2Html : Str :=
  [ltc, 'h', '1', gtc, 'a', ac, 'b', 'c', 'd', ltc, '/', 'h', '1', gtc]

/-- Boonthavorn page whose JSON-LD `image` list holds a `data:` URL. -/
def bh7 : Str :=
  "<script type=".data ++ jq "application/ld+json" ++ [gtc, obr] ++
  jq "@type" ++ ": ".data ++ jq "Product" ++ ", ".data ++
  jq "image" ++ ": ".data ++ [osq] ++ jq "data:x" ++ [csq, cbr] ++
  "</script>".data

/-- Boonthavorn page whose JSON-LD offer price is a non-numeric string. -/
def bh8 : Str :=
  "<script type=".data ++ jq "application/ld+json" ++ [gtc, obr] ++
  jq "@type" ++ ": ".data ++ jq "Product" ++ ", ".data ++
  jq "offers" ++ ": ".data ++ [obr] ++ jq "price" ++ ": ".data ++ jq "abc" ++
  [cbr, cbr] ++ "</script>".data

/-- A record whose current price exceeds its original price. -/
def c1Product : Product :=
  { name := some "Test".data, url := some "http://test.com".data,
    currentPrice := some (mkRat 100 1), originalPrice := some (mkRat 50 1) }

/-! ## Executable-arithmetic bridges -/

/-- `qAdd` is addition. -/
theorem qAdd_eq (a b : ℚ) : qAdd a b = a + b := (Rat.add_def' a b).symm

/-- `qSub` is subtraction. -/
theorem qSub_eq (a b : ℚ) : qSub a b = a - b := (Rat.sub_def' a b).symm

/-- `qMul` is multiplication. -/
theorem qMul_eq (a b : ℚ) : qMul a b = a * b := by
  rw [qMul, Rat.mul_def, Rat.normalize_eq_mkRat]

/-! ## String lemmas: whitespace collapsing and trimming -/

/-- Dropping while `p` holds is the identity when the head fails `p`. -/
theorem dropWhile_eq_self_of_head {p : Char → Bool} {l : Str}
    (h : ∀ c, l.head? = some c → p c = false) : l.dropWhile p = l := by
  cases l with
  | nil => rfl
  | cons c t => simp [List.dropWhile, h c rfl]

/-- `trim` is the identity on a string whose first and last characters are not
whitespace. -/
theorem trim_eq_self {l : Str}
    (h1 : ∀ c, l.head? = some c → isWS c = false)
    (h2 : ∀ c, l.reverse.head? = some c → isWS c = false) : trim l = l := by
  unfold trim
  rw [dropWhile_eq_self_of_head h1, dropWhile_eq_self_of_head h2, List.reverse_reverse]

/-- Tokens produced by `splitWSAux` are nonempty and free of whitespace. -/
theorem splitWSAux_tokens (s : Str) : ∀ acc, (∀ c ∈ acc, isWS c = false) →
    ∀ t ∈ splitWSAux s acc, t ≠ [] ∧ ∀ c ∈ t, isWS c = false := by
  induction s with
  | nil =>
    intro acc hacc t ht
    simp only [splitWSAux] at ht
    by_cases hacc0 : acc.isEmpty
    · simp [hacc0] at ht
    · simp [hacc0] at ht
      subst ht
      constructor
      · simpa [List.isEmpty_iff] using hacc0
      · intro c hc
        exact hacc c (List.mem_reverse.mp hc)
  | cons c0 s ih =>
    intro acc hacc t ht
    simp only [splitWSAux] at ht
    by_cases hws : isWS c0
    · simp only [hws, if_true] at ht
      by_cases hacc0 : acc.isEmpty
      · simp only [hacc0, if_true] at ht
        exact ih [] (by simp) t ht
      · simp only [hacc0, if_false] at ht
        rcases List.mem_cons.mp ht with h | h
        · subst h
          refine ⟨by simpa [List.isEmpty_iff] using hacc0, ?_⟩
          intro c hc
          exact hacc c (List.mem_reverse.mp hc)
        · exact ih [] (by simp) t h
    · simp only [hws, if_false] at ht
      refine ih (c0 :: acc) ?_ t ht
      intro c hc
      rcases List.mem_cons.mp hc with h | h
      · subst h; simpa using hws
      · exact hacc c h

/-- Tokens of `splitWS` are nonempty and free of whitespace. -/
theorem splitWS_tokens (s : Str) : ∀ t ∈ splitWS s, t ≠ [] ∧ ∀ c ∈ t, isWS c = false :=
  splitWSAux_tokens s [] (by simp)

/-- The head of an append is the head of a nonempty left part. -/
theorem head?_append_left {l l' : Str} (h : l ≠ []) : (l ++ l').head? = l.head? := by
  cases l with
  | nil => exact absurd rfl h
  | cons c t => rfl

/-- `joinSp` of good tokens is nonempty when the token list is nonempty. -/
theorem joinSp_ne_nil {ts : List Str} (hne : ts ≠ [])
    (h : ∀ t ∈ ts, t ≠ [] ∧ ∀ c ∈ t, isWS c = false) : joinSp ts ≠ [] := by
  cases ts with
  | nil => exact absurd rfl hne
  | cons x rest =>
    have hx := (h x (by simp)).1
    cases rest with
    | nil => simpa [joinSp] using hx
    | cons y t =>
      show x ++ ' ' :: joinSp (y :: t) ≠ []
      intro hcontra
      exact hx (List.append_eq_nil.mp hcontra).1

/-- The first character of `joinSp` over good tokens is not whitespace. -/
theorem joinSp_head (ts : List Str) (h : ∀ t ∈ ts, t ≠ [] ∧ ∀ c ∈ t, isWS c = false) :
    ∀ c, (joinSp ts).head? = some c → isWS c = false := by
  cases ts with
  | nil => intro c hc; simp [joinSp] at hc
  | cons x rest =>
    have hx := h x (by simp)
    intro c hc
    have hhead : (joinSp (x :: rest)).head? = x.head? := by
      cases rest with
      | nil => simp [joinSp]
      | cons y t =>
        show (x ++ ' ' :: joinSp (y :: t)).head? = x.head?
        exact head?_append_left hx.1
    rw [hhead] at hc
    exact hx.2 c (by cases x with
      | nil => simp at hc
      | cons a b => simp at hc; simp [hc])

/-- The last character of `joinSp` over good tokens is not whitespace. -/
theorem joinSp_last (ts : List Str) (h : ∀ t ∈ ts, t ≠ [] ∧ ∀ c ∈ t, isWS c = false) :
    ∀ c, (joinSp ts).reverse.head? = some c → isWS c = false := by
  induction ts with
  | nil => intro c hc; simp [joinSp] at hc
  | cons x rest ih =>
    intro c hc
    cases rest with
    | nil =>
      simp only [joinSp] at hc
      have hco : c ∈ x.reverse := by
        cases hx : x.reverse with
        | nil => rw [hx] at hc; simp at hc
        | cons a b => rw [hx] at hc; simp at hc; simp [hx, hc]
      exact (h x (by simp)).2 c (List.mem_reverse.mp hco)
    | cons y t =>
      simp only [joinSp, List.reverse_append, List.reverse_cons] at hc
      have hne : joinSp (y :: t) ≠ [] :=
        joinSp_ne_nil (by simp) (fun u hu => h u (by simp [hu]))
      have hrne : (joinSp (y :: t)).reverse ≠ [] := by simpa using hne
      rw [head?_append_left (l := (joinSp (y :: t)).reverse ++ [' '])
            (by simp [List.append_eq_nil])] at hc
      rw [head?_append_left hrne] at hc
      exact ih (fun u hu => h u (by simp [hu])) c hc

/-- `trim` is the identity on whitespace-collapsed strings. -/
theorem trim_wsJoin (s : Str) : trim (wsJoin s) = wsJoin s :=
  trim_eq_self (joinSp_head _ (splitWS_tokens s)) (joinSp_last _ (splitWS_tokens s))

/-- A character of `trim l` is a character of `l`. -/
theorem mem_trim {c : Char} {l : Str} (h : c ∈ trim l) : c ∈ l := by
  unfold trim at h
  rw [List.mem_reverse] at h
  have h1 := (List.dropWhile_sublist (l := (l.dropWhile isWS).reverse) (p := isWS)).mem h
  rw [List.mem_reverse] at h1
  exact (List.dropWhile_sublist (l := l) (p := isWS)).mem h1

/-- `trim` never lengthens a string. -/
theorem trim_length_le (l : Str) : (trim l).length ≤ l.length := by
  unfold trim
  calc ((l.dropWhile isWS).reverse.dropWhile isWS).reverse.length
      = ((l.dropWhile isWS).reverse.dropWhile isWS).length := by rw [List.length_reverse]
    _ ≤ (l.dropWhile isWS).reverse.length := (List.dropWhile_sublist _).length_le
    _ = (l.dropWhile isWS).length := by rw [List.length_reverse]
    _ ≤ l.length := (List.dropWhile_sublist _).length_le

/-! ## The sanitizer contract (claim C3 and supporting lemmas) -/

/-- `sanitizeClean` ends with a whitespace collapse, so `trim` fixes it. -/
theorem trim_sanitizeClean (t : Str) : trim (sanitizeClean t) = sanitizeClean t := by
  unfold sanitizeClean
  exact trim_wsJoin _

/-- Inversion of a successful sanitization: the result is the cleaned text itself and
passed the validation. -/
theorem sanitizeTextField_inv {t : Str} {n : Nat} {r : Str}
    (h : sanitizeTextField t n = some r) :
    r = sanitizeClean t ∧ sanValid (sanitizeClean t) n = true := by
  unfold sanitizeTextField at h
  split at h
  next => exact absurd h (by simp)
  next =>
    split at h
    next hv2 =>
      refine ⟨?_, hv2⟩
      rw [← Option.some_inj.mp h]
      exact trim_sanitizeClean t
    next => exact absurd h (by simp)

/-- The validation, unpacked. -/
theorem sanValid_props {r : Str} {n : Nat} (h : sanValid r n = true) :
    r ≠ [] ∧ 1 < r.length ∧ r.length ≤ n ∧
    hasStartAny (lowerS r) badStarts = false ∧
    ∀ c ∈ hardChars, r.contains c = false := by
  unfold sanValid at h
  simp only [Bool.and_eq_true, Bool.not_eq_true', decide_eq_true_eq] at h
  obtain ⟨⟨⟨⟨h1, h2⟩, h3⟩, h4⟩, h5⟩ := h
  refine ⟨by simpa [List.isEmpty_iff] using h1, h2, h3, h4, ?_⟩
  intro c hc
  by_contra hcon
  have : hardChars.any (fun c => r.contains c) = true :=
    List.any_eq_true.mpr ⟨c, hc, by simpa using hcon⟩
  rw [h5] at this
  exact Bool.false_ne_true this

/-- A successful sanitization result is fixed by `trim` (needed because the record
builder strips fields again). -/
theorem sanitizeTextField_trim {t : Str} {n : Nat} {r : Str}
    (h : sanitizeTextField t n = some r) : trim r = r := by
  rw [(sanitizeTextField_inv h).1]
  exact trim_sanitizeClean t

/-- Each of the nine specification characters is checked by the validation. -/
theorem badChars_sub_hardChars : ∀ c ∈ badChars, c ∈ hardChars := by decide

/-- C3: whenever `_sanitize_text_field` returns a non-null result, that result is
nonempty with length greater than 1 and at most `max_length`, does not start
(case-insensitively) with `http`, `www`, `data:`, `class=` or `style=`, and contains
none of the nine structural characters; and whenever the cleaned text violates any of
these conditions the sanitizer returns null. -/
theorem sanitize_text_field_contract (text : Str) (maxLen : Nat) :
    (∀ r, sanitizeTextField text maxLen = some r →
      r ≠ [] ∧ 1 < r.length ∧ r.length ≤ maxLen ∧
      hasStartAny (lowerS r) badStarts = false ∧
      ∀ c ∈ badChars, r.contains c = false) ∧
    (∀ r, r = sanitizeClean text →
      (r = [] ∨ ¬1 < r.length ∨ ¬r.length ≤ maxLen ∨
        hasStartAny (lowerS r) badStarts = true ∨
        ∃ c ∈ badChars, r.contains c = true) →
      sanitizeTextField text maxLen = none) := by
  constructor
  · intro r h
    obtain ⟨hr, hv⟩ := sanitizeTextField_inv h
    obtain ⟨h1, h2, h3, h4, h5⟩ := sanValid_props hv
    rw [← hr] at h1 h2 h3 h4 h5
    refine ⟨h1, h2, h3, h4, ?_⟩
    intro c hc
    exact h5 c (badChars_sub_hardChars c hc)
  · intro r hr hviol
    have hfalse : sanValid (sanitizeClean text) maxLen = false := by
      cases hx : sanValid (sanitizeClean text) maxLen with
      | false => rfl
      | true =>
        exfalso
        obtain ⟨h1, h2, h3, h4, h5⟩ := sanValid_props hx
        rw [← hr] at h1 h2 h3 h4 h5
        rcases hviol with h | h | h | h | ⟨c, hc, hcont⟩
        · exact h1 h
        · exact h h2
        · exact h h3
        · rw [h4] at h; exact Bool.false_ne_true h
        · rw [h5 c (badChars_sub_hardChars c hc)] at hcont
          exact Bool.false_ne_true hcont
    unfold sanitizeTextField
    rw [hfalse]
    split
    next => rfl
    next => simp

/-- Witness for C3 at a concrete input. -/
theorem sanitize_text_field_contract_witness :
    sanitizeTextField "abc".data 100 = some "abc".data ∧
    ("abc".data ≠ [] ∧ 1 < "abc".data.length ∧ "abc".data.length ≤ 100 ∧
      hasStartAny (lowerS "abc".data) badStarts = false ∧
      ∀ c ∈ badChars, "abc".data.contains c = false) :=
  ⟨by decide, (sanitize_text_field_contract "abc".data 100).1 "abc".data (by decide)⟩

/-! ## Price parser lemmas (claims C4 and C5) -/

/-- A dotless string splits into itself. -/
theorem splitOnDot_no_dot {v : Str} (hv : '.' ∉ v) : splitOnDot v = [v] := by
  induction v with
  | nil => rfl
  | cons c t ih =>
    have hc : c ≠ '.' := fun h => hv (by simp [h])
    have ht : '.' ∉ t := fun h => hv (by simp [h])
    simp only [splitOnDot, hc, if_false, ih ht]

/-- `splitOnDot` never returns an empty list. -/
theorem splitOnDot_ne_nil (s : Str) : splitOnDot s ≠ [] := by
  cases s with
  | nil => simp [splitOnDot]
  | cons c t =>
    simp only [splitOnDot]
    split
    · simp
    · cases h : splitOnDot t <;> simp

/-- Unfolding `splitOnDot` at a dot. -/
theorem splitOnDot_cons_dot (t : Str) : splitOnDot ('.' :: t) = [] :: splitOnDot t := by
  simp [splitOnDot]

/-- Unfolding `splitOnDot` at a non-dot character. -/
theorem splitOnDot_cons_ne {c : Char} (t : Str) (hc : c ≠ '.') :
    splitOnDot (c :: t) =
      match splitOnDot t with
      | [] => [[c]]
      | a :: rest => (c :: a) :: rest := by
  simp [splitOnDot, hc]

/-- Splitting at the final dot: everything after the last dot becomes the final part. -/
theorem splitOnDot_append {v : Str} (u : Str) (hv : '.' ∉ v) :
    splitOnDot (u ++ '.' :: v) = splitOnDot u ++ [v] := by
  induction u with
  | nil => simp [splitOnDot_cons_dot, splitOnDot_no_dot hv, splitOnDot]
  | cons c t ih =>
    by_cases hc : c = '.'
    · subst hc
      rw [List.cons_append, splitOnDot_cons_dot, splitOnDot_cons_dot, ih]
      rfl
    · rw [List.cons_append, splitOnDot_cons_ne _ hc, splitOnDot_cons_ne _ hc, ih]
      cases h : splitOnDot t with
      | nil => exact absurd h (splitOnDot_ne_nil t)
      | cons a rest => simp

/-- The concatenation of the split parts is the string without its dots. -/
theorem splitOnDot_flatten (u : Str) :
    (splitOnDot u).flatten = u.filter (fun c => c != '.') := by
  induction u with
  | nil => rfl
  | cons c t ih =>
    by_cases hc : c = '.'
    · subst hc
      simp [splitOnDot, ih]
    · simp only [splitOnDot, hc, if_false, List.filter_cons]
      cases h : splitOnDot t with
      | nil => exact absurd h (splitOnDot_ne_nil t)
      | cons a rest =>
        rw [h] at ih
        simp only [List.flatten_cons] at ih ⊢
        simp [hc, ← ih]

/-- The number of split parts is one more than the number of dots. -/
theorem splitOnDot_length (u : Str) : (splitOnDot u).length = u.count '.' + 1 := by
  induction u with
  | nil => rfl
  | cons c t ih =>
    by_cases hc : c = '.'
    · subst hc; simp [splitOnDot, ih, List.count_cons]
    · simp only [splitOnDot, hc, if_false]
      cases h : splitOnDot t with
      | nil => exact absurd h (splitOnDot_ne_nil t)
      | cons a rest =>
        rw [h] at ih
        simp only [List.length_cons] at ih ⊢
        simp [List.count_cons, hc, ih]

/-- The final part of a split list. -/
theorem lastD_append_singleton (l : List Str) (v : Str) : lastD (l ++ [v]) = v := by
  induction l with
  | nil => rfl
  | cons a t ih =>
    cases t with
    | nil => simp [lastD]
    | cons b t' => simpa [lastD] using ih

/-- C4: `parse_price` is a total function returning an optional number; it returns null
exactly on empty input or when the cleaned text fails to parse as a float, and (being
total) never raises. -/
theorem parse_price_null_iff (s : Str) :
    parsePrice s = none ↔ s = [] ∨ pyFloatOfStr (priceClean s) = none := by
  unfold parsePrice
  cases hs : s.isEmpty with
  | true =>
    have : s = [] := by simpa using hs
    simp [this]
  | false =>
    have : s ≠ [] := by
      intro h
      rw [h] at hs
      simp at hs
    simp [hs, this]

/-- C5: after stripping, only the final dot is treated as the decimal separator — all
earlier dots are collapsed into the integer part — and the representative examples
parse as specified. -/
theorem parse_price_last_dot_spec :
    (∀ s u v, strippedPrice s = u ++ '.' :: v → '.' ∉ v →
      2 ≤ (strippedPrice s).count '.' →
      parsePrice s = pyFloatOfStr (u.filter (fun c => c != '.') ++ '.' :: v)) ∧
    parsePrice "1,299.00".data = some 1299 ∧
    parsePrice "฿80".data = some 80 ∧
    parsePrice [] = none := by
  refine ⟨?_, by decide, by decide, by decide⟩
  intro s u v hsplit hv hcount
  have hs : s ≠ [] := by
    intro h
    subst h
    have : strippedPrice ([] : Str) = [] := by decide
    rw [this] at hsplit
    exact absurd hsplit.symm (by simp)
  have hse : s.isEmpty = false := by
    cases s with
    | nil => exact absurd rfl hs
    | cons c t => rfl
  unfold parsePrice priceClean
  rw [hse]
  simp only [Bool.false_eq_true, if_false]
  rw [hsplit, splitOnDot_append u hv]
  have hlen : (splitOnDot u ++ [v]).length = u.count '.' + 2 := by
    simp [splitOnDot_length]
  have hcount' : 1 ≤ u.count '.' := by
    rw [hsplit] at hcount
    have hv0 : v.count '.' = 0 := List.count_eq_zero.mpr hv
    simpa [List.count_append, List.count_cons, hv0] using hcount
  rw [if_pos (by rw [hlen]; omega)]
  rw [List.dropLast_concat, splitOnDot_flatten, lastD_append_singleton]

/-- Witness for C5: the general clause applied at a two-dot input recovers the
thousands-dot collapse. -/
theorem parse_price_last_dot_spec_witness :
    parsePrice "1.299.00".data = some 1299 :=
  (parse_price_last_dot_spec.1 "1.299.00".data "1.299".data "00".data
    (by decide) (by decide) (by decide)).trans (by decide)

/-- C6: when no current-price and no original-price label pattern matches, the fallback
scan drives the result — at least two distinct parseable prices give (minimum, maximum)
as (current, original); exactly one parseable price is returned as current with a null
original. -/
theorem extract_prices_fallback (text : Str)
    (h1 : labelPrice curPricePatterns text = none)
    (h2 : labelPrice origPricePatterns text = none) :
    (2 ≤ (fallbackPrices text).dedup.length →
      extractPrices text = (listMin (fallbackPrices text), listMax (fallbackPrices text))) ∧
    ∀ p, fallbackPrices text = [p] → extractPrices text = (some p, none) := by
  cases htext : text.isEmpty with
  | true =>
    have : text = [] := by simpa using htext
    subst this
    refine ⟨by decide, ?_⟩
    intro p hp
    have hnil : fallbackPrices ([] : Str) = [] := by decide
    rw [hnil] at hp
    exact absurd hp (by simp)
  | false =>
    unfold extractPrices
    rw [htext, h1, h2]
    rw [if_neg (by simp)]
    rw [if_pos (by decide)]
    constructor
    · intro hd
      have hlen : 2 ≤ (fallbackPrices text).length :=
        le_trans hd (List.Sublist.length_le (List.dedup_sublist _))
      rw [if_pos hlen]
    · intro p hp
      have hlen1 : (fallbackPrices text).length = 1 := by rw [hp]; rfl
      have hnot2 : ¬ 2 ≤ (fallbackPrices text).length := by omega
      rw [if_neg hnot2, if_pos hlen1, hp]
      rfl

/-- Witness for C6: a label-free text with two distinct numeric tokens. -/
theorem extract_prices_fallback_witness :
    extractPrices "foo 100 bar 50".data = (some 50, some 100) :=
  ((extract_prices_fallback "foo 100 bar 50".data (by decide) (by decide)).1
    (by decide)).trans (by decide)

/-! ## Field projections through the record builder -/

/-- `retailerFallback` leaves `brand` unchanged. -/
theorem retailerFallback_brand (p : Product) : (retailerFallback p).brand = p.brand := by
  unfold retailerFallback
  first
  | rfl
  | (dsimp only
     repeat' split
     all_goals rfl)
  | (repeat' split
     all_goals rfl)

/-- `retailerFallback` leaves `model` unchanged. -/
theorem retailerFallback_model (p : Product) : (retailerFallback p).model = p.model := by
  unfold retailerFallback
  first
  | rfl
  | (dsimp only
     repeat' split
     all_goals rfl)
  | (repeat' split
     all_goals rfl)

/-- `retailerFallback` leaves `sku` unchanged. -/
theorem retailerFallback_sku (p : Product) : (retailerFallback p).sku = p.sku := by
  unfold retailerFallback
  first
  | rfl
  | (dsimp only
     repeat' split
     all_goals rfl)
  | (repeat' split
     all_goals rfl)

/-- `retailerFallback` leaves `category` unchanged. -/
theorem retailerFallback_category (p : Product) : (retailerFallback p).category = p.category := by
  unfold retailerFallback
  first
  | rfl
  | (dsimp only
     repeat' split
     all_goals rfl)
  | (repeat' split
     all_goals rfl)

/-- `retailerFallback` leaves `volume` unchanged. -/
theorem retailerFallback_volume (p : Product) : (retailerFallback p).volume = p.volume := by
  unfold retailerFallback
  first
  | rfl
  | (dsimp only
     repeat' split
     all_goals rfl)
  | (repeat' split
     all_goals rfl)

/-- `retailerFallback` leaves `dimensions` unchanged. -/
theorem retailerFallback_dimensions (p : Product) : (retailerFallback p).dimensions = p.dimensions := by
  unfold retailerFallback
  first
  | rfl
  | (dsimp only
     repeat' split
     all_goals rfl)
  | (repeat' split
     all_goals rfl)

/-- `retailerFallback` leaves `material` unchanged. -/
theorem retailerFallback_material (p : Product) : (retailerFallback p).material = p.material := by
  unfold retailerFallback
  first
  | rfl
  | (dsimp only
     repeat' split
     all_goals rfl)
  | (repeat' split
     all_goals rfl)

/-- `retailerFallback` leaves `color` unchanged. -/
theorem retailerFallback_color (p : Product) : (retailerFallback p).color = p.color := by
  unfold retailerFallback
  first
  | rfl
  | (dsimp only
     repeat' split
     all_goals rfl)
  | (repeat' split
     all_goals rfl)

/-- `retailerFallback` leaves `images` unchanged. -/
theorem retailerFallback_images (p : Product) : (retailerFallback p).images = p.images := by
  unfold retailerFallback
  first
  | rfl
  | (dsimp only
     repeat' split
     all_goals rfl)
  | (repeat' split
     all_goals rfl)

/-- `discountDefaults` leaves `brand` unchanged. -/
theorem discountDefaults_brand (p : Product) : (discountDefaults p).brand = p.brand := by
  unfold discountDefaults
  first
  | rfl
  | (dsimp only
     repeat' split
     all_goals rfl)
  | (repeat' split
     all_goals rfl)

/-- `discountDefaults` leaves `model` unchanged. -/
theorem discountDefaults_model (p : Product) : (discountDefaults p).model = p.model := by
  unfold discountDefaults
  first
  | rfl
  | (dsimp only
     repeat' split
     all_goals rfl)
  | (repeat' split
     all_goals rfl)

/-- `discountDefaults` leaves `sku` unchanged. -/
theorem discountDefaults_sku (p : Product) : (discountDefaults p).sku = p.sku := by
  unfold discountDefaults
  first
  | rfl
  | (dsimp only
     repeat' split
     all_goals rfl)
  | (repeat' split
     all_goals rfl)

/-- `discountDefaults` leaves `category` unchanged. -/
theorem discountDefaults_category (p : Product) : (discountDefaults p).category = p.category := by
  unfold discountDefaults
  first
  | rfl
  | (dsimp only
     repeat' split
     all_goals rfl)
  | (repeat' split
     all_goals rfl)

/-- `discountDefaults` leaves `volume` unchanged. -/
theorem discountDefaults_volume (p : Product) : (discountDefaults p).volume = p.volume := by
  unfold discountDefaults
  first
  | rfl
  | (dsimp only
     repeat' split
     all_goals rfl)
  | (repeat' split
     all_goals rfl)

/-- `discountDefaults` leaves `dimensions` unchanged. -/
theorem discountDefaults_dimensions (p : Product) : (discountDefaults p).dimensions = p.dimensions := by
  unfold discountDefaults
  first
  | rfl
  | (dsimp only
     repeat' split
     all_goals rfl)
  | (repeat' split
     all_goals rfl)

/-- `discountDefaults` leaves `material` unchanged. -/
theorem discountDefaults_material (p : Product) : (discountDefaults p).material = p.material := by
  unfold discountDefaults
  first
  | rfl
  | (dsimp only
     repeat' split
     all_goals rfl)
  | (repeat' split
     all_goals rfl)

/-- `discountDefaults` leaves `color` unchanged. -/
theorem discountDefaults_color (p : Product) : (discountDefaults p).color = p.color := by
  unfold discountDefaults
  first
  | rfl
  | (dsimp only
     repeat' split
     all_goals rfl)
  | (repeat' split
     all_goals rfl)

/-- `discountDefaults` leaves `images` unchanged. -/
theorem discountDefaults_images (p : Product) : (discountDefaults p).images = p.images := by
  unfold discountDefaults
  first
  | rfl
  | (dsimp only
     repeat' split
     all_goals rfl)
  | (repeat' split
     all_goals rfl)

/-- `calcDiscountsCore` leaves `brand` unchanged. -/
theorem calcDiscountsCore_brand (p : Product) : (calcDiscountsCore p).brand = p.brand := by
  unfold calcDiscountsCore
  first
  | rfl
  | (dsimp only
     repeat' split
     all_goals rfl)
  | (repeat' split
     all_goals rfl)

/-- `calcDiscountsCore` leaves `model` unchanged. -/
theorem calcDiscountsCore_model (p : Product) : (calcDiscountsCore p).model = p.model := by
  unfold calcDiscountsCore
  first
  | rfl
  | (dsimp only
     repeat' split
     all_goals rfl)
  | (repeat' split
     all_goals rfl)

/-- `calcDiscountsCore` leaves `sku` unchanged. -/
theorem calcDiscountsCore_sku (p : Product) : (calcDiscountsCore p).sku = p.sku := by
  unfold calcDiscountsCore
  first
  | rfl
  | (dsimp only
     repeat' split
     all_goals rfl)
  | (repeat' split
     all_goals rfl)

/-- `calcDiscountsCore` leaves `category` unchanged. -/
theorem calcDiscountsCore_category (p : Product) : (calcDiscountsCore p).category = p.category := by
  unfold calcDiscountsCore
  first
  | rfl
  | (dsimp only
     repeat' split
     all_goals rfl)
  | (repeat' split
     all_goals rfl)

/-- `calcDiscountsCore` leaves `volume` unchanged. -/
theorem calcDiscountsCore_volume (p : Product) : (calcDiscountsCore p).volume = p.volume := by
  unfold calcDiscountsCore
  first
  | rfl
  | (dsimp only
     repeat' split
     all_goals rfl)
  | (repeat' split
     all_goals rfl)

/-- `calcDiscountsCore` leaves `dimensions` unchanged. -/
theorem calcDiscountsCore_dimensions (p : Product) : (calcDiscountsCore p).dimensions = p.dimensions := by
  unfold calcDiscountsCore
  first
  | rfl
  | (dsimp only
     repeat' split
     all_goals rfl)
  | (repeat' split
     all_goals rfl)

/-- `calcDiscountsCore` leaves `material` unchanged. -/
theorem calcDiscountsCore_material (p : Product) : (calcDiscountsCore p).material = p.material := by
  unfold calcDiscountsCore
  first
  | rfl
  | (dsimp only
     repeat' split
     all_goals rfl)
  | (repeat' split
     all_goals rfl)

/-- `calcDiscountsCore` leaves `color` unchanged. -/
theorem calcDiscountsCore_color (p : Product) : (calcDiscountsCore p).color = p.color := by
  unfold calcDiscountsCore
  first
  | rfl
  | (dsimp only
     repeat' split
     all_goals rfl)
  | (repeat' split
     all_goals rfl)

/-- `calcDiscountsCore` leaves `images` unchanged. -/
theorem calcDiscountsCore_images (p : Product) : (calcDiscountsCore p).images = p.images := by
  unfold calcDiscountsCore
  first
  | rfl
  | (dsimp only
     repeat' split
     all_goals rfl)
  | (repeat' split
     all_goals rfl)

/-- `discountNoneGuards` leaves `brand` unchanged. -/
theorem discountNoneGuards_brand (p : Product) : (discountNoneGuards p).brand = p.brand := by
  unfold discountNoneGuards
  first
  | rfl
  | (dsimp only
     repeat' split
     all_goals rfl)
  | (repeat' split
     all_goals rfl)

/-- `discountNoneGuards` leaves `model` unchanged. -/
theorem discountNoneGuards_model (p : Product) : (discountNoneGuards p).model = p.model := by
  unfold discountNoneGuards
  first
  | rfl
  | (dsimp only
     repeat' split
     all_goals rfl)
  | (repeat' split
     all_goals rfl)

/-- `discountNoneGuards` leaves `sku` unchanged. -/
theorem discountNoneGuards_sku (p : Product) : (discountNoneGuards p).sku = p.sku := by
  unfold discountNoneGuards
  first
  | rfl
  | (dsimp only
     repeat' split
     all_goals rfl)
  | (repeat' split
     all_goals rfl)

/-- `discountNoneGuards` leaves `category` unchanged. -/
theorem discountNoneGuards_category (p : Product) : (discountNoneGuards p).category = p.category := by
  unfold discountNoneGuards
  first
  | rfl
  | (dsimp only
     repeat' split
     all_goals rfl)
  | (repeat' split
     all_goals rfl)

/-- `discountNoneGuards` leaves `volume` unchanged. -/
theorem discountNoneGuards_volume (p : Product) : (discountNoneGuards p).volume = p.volume := by
  unfold discountNoneGuards
  first
  | rfl
  | (dsimp only
     repeat' split
     all_goals rfl)
  | (repeat' split
     all_goals rfl)

/-- `discountNoneGuards` leaves `dimensions` unchanged. -/
theorem discountNoneGuards_dimensions (p : Product) : (discountNoneGuards p).dimensions = p.dimensions := by
  unfold discountNoneGuards
  first
  | rfl
  | (dsimp only
     repeat' split
     all_goals rfl)
  | (repeat' split
     all_goals rfl)

/-- `discountNoneGuards` leaves `material` unchanged. -/
theorem discountNoneGuards_material (p : Product) : (discountNoneGuards p).material = p.material := by
  unfold discountNoneGuards
  first
  | rfl
  | (dsimp only
     repeat' split
     all_goals rfl)
  | (repeat' split
     all_goals rfl)

/-- `discountNoneGuards` leaves `color` unchanged. -/
theorem discountNoneGuards_color (p : Product) : (discountNoneGuards p).color = p.color := by
  unfold discountNoneGuards
  first
  | rfl
  | (dsimp only
     repeat' split
     all_goals rfl)
  | (repeat' split
     all_goals rfl)

/-- `discountNoneGuards` leaves `images` unchanged. -/
theorem discountNoneGuards_images (p : Product) : (discountNoneGuards p).images = p.images := by
  unfold discountNoneGuards
  first
  | rfl
  | (dsimp only
     repeat' split
     all_goals rfl)
  | (repeat' split
     all_goals rfl)

/-- `cleanPriceFields` leaves `brand` unchanged. -/
theorem cleanPriceFields_brand (p : Product) : (cleanPriceFields p).brand = p.brand := by
  unfold cleanPriceFields
  first
  | rfl
  | (dsimp only
     repeat' split
     all_goals rfl)
  | (repeat' split
     all_goals rfl)

/-- `cleanPriceFields` leaves `model` unchanged. -/
theorem cleanPriceFields_model (p : Product) : (cleanPriceFields p).model = p.model := by
  unfold cleanPriceFields
  first
  | rfl
  | (dsimp only
     repeat' split
     all_goals rfl)
  | (repeat' split
     all_goals rfl)

/-- `cleanPriceFields` leaves `sku` unchanged. -/
theorem cleanPriceFields_sku (p : Product) : (cleanPriceFields p).sku = p.sku := by
  unfold cleanPriceFields
  first
  | rfl
  | (dsimp only
     repeat' split
     all_goals rfl)
  | (repeat' split
     all_goals rfl)

/-- `cleanPriceFields` leaves `category` unchanged. -/
theorem cleanPriceFields_category (p : Product) : (cleanPriceFields p).category = p.category := by
  unfold cleanPriceFields
  first
  | rfl
  | (dsimp only
     repeat' split
     all_goals rfl)
  | (repeat' split
     all_goals rfl)

/-- `cleanPriceFields` leaves `volume` unchanged. -/
theorem cleanPriceFields_volume (p : Product) : (cleanPriceFields p).volume = p.volume := by
  unfold cleanPriceFields
  first
  | rfl
  | (dsimp only
     repeat' split
     all_goals rfl)
  | (repeat' split
     all_goals rfl)

/-- `cleanPriceFields` leaves `dimensions` unchanged. -/
theorem cleanPriceFields_dimensions (p : Product) : (cleanPriceFields p).dimensions = p.dimensions := by
  unfold cleanPriceFields
  first
  | rfl
  | (dsimp only
     repeat' split
     all_goals rfl)
  | (repeat' split
     all_goals rfl)

/-- `cleanPriceFields` leaves `material` unchanged. -/
theorem cleanPriceFields_material (p : Product) : (cleanPriceFields p).material = p.material := by
  unfold cleanPriceFields
  first
  | rfl
  | (dsimp only
     repeat' split
     all_goals rfl)
  | (repeat' split
     all_goals rfl)

/-- `cleanPriceFields` leaves `color` unchanged. -/
theorem cleanPriceFields_color (p : Product) : (cleanPriceFields p).color = p.color := by
  unfold cleanPriceFields
  first
  | rfl
  | (dsimp only
     repeat' split
     all_goals rfl)
  | (repeat' split
     all_goals rfl)

/-- `cleanPriceFields` leaves `images` unchanged. -/
theorem cleanPriceFields_images (p : Product) : (cleanPriceFields p).images = p.images := by
  unfold cleanPriceFields
  first
  | rfl
  | (dsimp only
     repeat' split
     all_goals rfl)
  | (repeat' split
     all_goals rfl)

/-- `cleanDiscountFields` leaves `brand` unchanged. -/
theorem cleanDiscountFields_brand (p : Product) : (cleanDiscountFields p).brand = p.brand := by
  unfold cleanDiscountFields
  first
  | rfl
  | (dsimp only
     repeat' split
     all_goals rfl)
  | (repeat' split
     all_goals rfl)

/-- `cleanDiscountFields` leaves `model` unchanged. -/
theorem cleanDiscountFields_model (p : Product) : (cleanDiscountFields p).model = p.model := by
  unfold cleanDiscountFields
  first
  | rfl
  | (dsimp only
     repeat' split
     all_goals rfl)
  | (repeat' split
     all_goals rfl)

/-- `cleanDiscountFields` leaves `sku` unchanged. -/
theorem cleanDiscountFields_sku (p : Product) : (cleanDiscountFields p).sku = p.sku := by
  unfold cleanDiscountFields
  first
  | rfl
  | (dsimp only
     repeat' split
     all_goals rfl)
  | (repeat' split
     all_goals rfl)

/-- `cleanDiscountFields` leaves `category` unchanged. -/
theorem cleanDiscountFields_category (p : Product) : (cleanDiscountFields p).category = p.category := by
  unfold cleanDiscountFields
  first
  | rfl
  | (dsimp only
     repeat' split
     all_goals rfl)
  | (repeat' split
     all_goals rfl)

/-- `cleanDiscountFields` leaves `volume` unchanged. -/
theorem cleanDiscountFields_volume (p : Product) : (cleanDiscountFields p).volume = p.volume := by
  unfold cleanDiscountFields
  first
  | rfl
  | (dsimp only
     repeat' split
     all_goals rfl)
  | (repeat' split
     all_goals rfl)

/-- `cleanDiscountFields` leaves `dimensions` unchanged. -/
theorem cleanDiscountFields_dimensions (p : Product) : (cleanDiscountFields p).dimensions = p.dimensions := by
  unfold cleanDiscountFields
  first
  | rfl
  | (dsimp only
     repeat' split
     all_goals rfl)
  | (repeat' split
     all_goals rfl)

/-- `cleanDiscountFields` leaves `material` unchanged. -/
theorem cleanDiscountFields_material (p : Product) : (cleanDiscountFields p).material = p.material := by
  unfold cleanDiscountFields
  first
  | rfl
  | (dsimp only
     repeat' split
     all_goals rfl)
  | (repeat' split
     all_goals rfl)

/-- `cleanDiscountFields` leaves `color` unchanged. -/
theorem cleanDiscountFields_color (p : Product) : (cleanDiscountFields p).color = p.color := by
  unfold cleanDiscountFields
  first
  | rfl
  | (dsimp only
     repeat' split
     all_goals rfl)
  | (repeat' split
     all_goals rfl)

/-- `cleanDiscountFields` leaves `images` unchanged. -/
theorem cleanDiscountFields_images (p : Product) : (cleanDiscountFields p).images = p.images := by
  unfold cleanDiscountFields
  first
  | rfl
  | (dsimp only
     repeat' split
     all_goals rfl)
  | (repeat' split
     all_goals rfl)

/-- `cleanName` leaves `brand` unchanged. -/
theorem cleanName_brand (p : Product) : (cleanName p).brand = p.brand := by
  unfold cleanName
  first
  | rfl
  | (dsimp only
     repeat' split
     all_goals rfl)
  | (repeat' split
     all_goals rfl)

/-- `cleanName` leaves `model` unchanged. -/
theorem cleanName_model (p : Product) : (cleanName p).model = p.model := by
  unfold cleanName
  first
  | rfl
  | (dsimp only
     repeat' split
     all_goals rfl)
  | (repeat' split
     all_goals rfl)

/-- `cleanName` leaves `sku` unchanged. -/
theorem cleanName_sku (p : Product) : (cleanName p).sku = p.sku := by
  unfold cleanName
  first
  | rfl
  | (dsimp only
     repeat' split
     all_goals rfl)
  | (repeat' split
     all_goals rfl)

/-- `cleanName` leaves `category` unchanged. -/
theorem cleanName_category (p : Product) : (cleanName p).category = p.category := by
  unfold cleanName
  first
  | rfl
  | (dsimp only
     repeat' split
     all_goals rfl)
  | (repeat' split
     all_goals rfl)

/-- `cleanName` leaves `volume` unchanged. -/
theorem cleanName_volume (p : Product) : (cleanName p).volume = p.volume := by
  unfold cleanName
  first
  | rfl
  | (dsimp only
     repeat' split
     all_goals rfl)
  | (repeat' split
     all_goals rfl)

/-- `cleanName` leaves `dimensions` unchanged. -/
theorem cleanName_dimensions (p : Product) : (cleanName p).dimensions = p.dimensions := by
  unfold cleanName
  first
  | rfl
  | (dsimp only
     repeat' split
     all_goals rfl)
  | (repeat' split
     all_goals rfl)

/-- `cleanName` leaves `material` unchanged. -/
theorem cleanName_material (p : Product) : (cleanName p).material = p.material := by
  unfold cleanName
  first
  | rfl
  | (dsimp only
     repeat' split
     all_goals rfl)
  | (repeat' split
     all_goals rfl)

/-- `cleanName` leaves `color` unchanged. -/
theorem cleanName_color (p : Product) : (cleanName p).color = p.color := by
  unfold cleanName
  first
  | rfl
  | (dsimp only
     repeat' split
     all_goals rfl)
  | (repeat' split
     all_goals rfl)

/-- `cleanName` leaves `images` unchanged. -/
theorem cleanName_images (p : Product) : (cleanName p).images = p.images := by
  unfold cleanName
  first
  | rfl
  | (dsimp only
     repeat' split
     all_goals rfl)
  | (repeat' split
     all_goals rfl)

/-- `cleanDescription` leaves `brand` unchanged. -/
theorem cleanDescription_brand (p : Product) : (cleanDescription p).brand = p.brand := by
  unfold cleanDescription
  first
  | rfl
  | (dsimp only
     repeat' split
     all_goals rfl)
  | (repeat' split
     all_goals rfl)

/-- `cleanDescription` leaves `model` unchanged. -/
theorem cleanDescription_model (p : Product) : (cleanDescription p).model = p.model := by
  unfold cleanDescription
  first
  | rfl
  | (dsimp only
     repeat' split
     all_goals rfl)
  | (repeat' split
     all_goals rfl)

/-- `cleanDescription` leaves `sku` unchanged. -/
theorem cleanDescription_sku (p : Product) : (cleanDescription p).sku = p.sku := by
  unfold cleanDescription
  first
  | rfl
  | (dsimp only
     repeat' split
     all_goals rfl)
  | (repeat' split
     all_goals rfl)

/-- `cleanDescription` leaves `category` unchanged. -/
theorem cleanDescription_category (p : Product) : (cleanDescription p).category = p.category := by
  unfold cleanDescription
  first
  | rfl
  | (dsimp only
     repeat' split
     all_goals rfl)
  | (repeat' split
     all_goals rfl)

/-- `cleanDescription` leaves `volume` unchanged. -/
theorem cleanDescription_volume (p : Product) : (cleanDescription p).volume = p.volume := by
  unfold cleanDescription
  first
  | rfl
  | (dsimp only
     repeat' split
     all_goals rfl)
  | (repeat' split
     all_goals rfl)

/-- `cleanDescription` leaves `dimensions` unchanged. -/
theorem cleanDescription_dimensions (p : Product) : (cleanDescription p).dimensions = p.dimensions := by
  unfold cleanDescription
  first
  | rfl
  | (dsimp only
     repeat' split
     all_goals rfl)
  | (repeat' split
     all_goals rfl)

/-- `cleanDescription` leaves `material` unchanged. -/
theorem cleanDescription_material (p : Product) : (cleanDescription p).material = p.material := by
  unfold cleanDescription
  first
  | rfl
  | (dsimp only
     repeat' split
     all_goals rfl)
  | (repeat' split
     all_goals rfl)

/-- `cleanDescription` leaves `color` unchanged. -/
theorem cleanDescription_color (p : Product) : (cleanDescription p).color = p.color := by
  unfold cleanDescription
  first
  | rfl
  | (dsimp only
     repeat' split
     all_goals rfl)
  | (repeat' split
     all_goals rfl)

/-- `cleanDescription` leaves `images` unchanged. -/
theorem cleanDescription_images (p : Product) : (cleanDescription p).images = p.images := by
  unfold cleanDescription
  first
  | rfl
  | (dsimp only
     repeat' split
     all_goals rfl)
  | (repeat' split
     all_goals rfl)

/-- `cleanBrand` leaves `model` unchanged. -/
theorem cleanBrand_model (p : Product) : (cleanBrand p).model = p.model := by
  unfold cleanBrand
  first
  | rfl
  | (dsimp only
     repeat' split
     all_goals rfl)
  | (repeat' split
     all_goals rfl)

/-- `cleanBrand` leaves `sku` unchanged. -/
theorem cleanBrand_sku (p : Product) : (cleanBrand p).sku = p.sku := by
  unfold cleanBrand
  first
  | rfl
  | (dsimp only
     repeat' split
     all_goals rfl)
  | (repeat' split
     all_goals rfl)

/-- `cleanBrand` leaves `category` unchanged. -/
theorem cleanBrand_category (p : Product) : (cleanBrand p).category = p.category := by
  unfold cleanBrand
  first
  | rfl
  | (dsimp only
     repeat' split
     all_goals rfl)
  | (repeat' split
     all_goals rfl)

/-- `cleanBrand` leaves `volume` unchanged. -/
theorem cleanBrand_volume (p : Product) : (cleanBrand p).volume = p.volume := by
  unfold cleanBrand
  first
  | rfl
  | (dsimp only
     repeat' split
     all_goals rfl)
  | (repeat' split
     all_goals rfl)

/-- `cleanBrand` leaves `dimensions` unchanged. -/
theorem cleanBrand_dimensions (p : Product) : (cleanBrand p).dimensions = p.dimensions := by
  unfold cleanBrand
  first
  | rfl
  | (dsimp only
     repeat' split
     all_goals rfl)
  | (repeat' split
     all_goals rfl)

/-- `cleanBrand` leaves `material` unchanged. -/
theorem cleanBrand_material (p : Product) : (cleanBrand p).material = p.material := by
  unfold cleanBrand
  first
  | rfl
  | (dsimp only
     repeat' split
     all_goals rfl)
  | (repeat' split
     all_goals rfl)

/-- `cleanBrand` leaves `color` unchanged. -/
theorem cleanBrand_color (p : Product) : (cleanBrand p).color = p.color := by
  unfold cleanBrand
  first
  | rfl
  | (dsimp only
     repeat' split
     all_goals rfl)
  | (repeat' split
     all_goals rfl)

/-- `cleanBrand` leaves `images` unchanged. -/
theorem cleanBrand_images (p : Product) : (cleanBrand p).images = p.images := by
  unfold cleanBrand
  first
  | rfl
  | (dsimp only
     repeat' split
     all_goals rfl)
  | (repeat' split
     all_goals rfl)

/-- `cleanModel` leaves `brand` unchanged. -/
theorem cleanModel_brand (p : Product) : (cleanModel p).brand = p.brand := by
  unfold cleanModel
  first
  | rfl
  | (dsimp only
     repeat' split
     all_goals rfl)
  | (repeat' split
     all_goals rfl)

/-- `cleanModel` leaves `sku` unchanged. -/
theorem cleanModel_sku (p : Product) : (cleanModel p).sku = p.sku := by
  unfold cleanModel
  first
  | rfl
  | (dsimp only
     repeat' split
     all_goals rfl)
  | (repeat' split
     all_goals rfl)

/-- `cleanModel` leaves `category` unchanged. -/
theorem cleanModel_category (p : Product) : (cleanModel p).category = p.category := by
  unfold cleanModel
  first
  | rfl
  | (dsimp only
     repeat' split
     all_goals rfl)
  | (repeat' split
     all_goals rfl)

/-- `cleanModel` leaves `volume` unchanged. -/
theorem cleanModel_volume (p : Product) : (cleanModel p).volume = p.volume := by
  unfold cleanModel
  first
  | rfl
  | (dsimp only
     repeat' split
     all_goals rfl)
  | (repeat' split
     all_goals rfl)

/-- `cleanModel` leaves `dimensions` unchanged. -/
theorem cleanModel_dimensions (p : Product) : (cleanModel p).dimensions = p.dimensions := by
  unfold cleanModel
  first
  | rfl
  | (dsimp only
     repeat' split
     all_goals rfl)
  | (repeat' split
     all_goals rfl)

/-- `cleanModel` leaves `material` unchanged. -/
theorem cleanModel_material (p : Product) : (cleanModel p).material = p.material := by
  unfold cleanModel
  first
  | rfl
  | (dsimp only
     repeat' split
     all_goals rfl)
  | (repeat' split
     all_goals rfl)

/-- `cleanModel` leaves `color` unchanged. -/
theorem cleanModel_color (p : Product) : (cleanModel p).color = p.color := by
  unfold cleanModel
  first
  | rfl
  | (dsimp only
     repeat' split
     all_goals rfl)
  | (repeat' split
     all_goals rfl)

/-- `cleanModel` leaves `images` unchanged. -/
theorem cleanModel_images (p : Product) : (cleanModel p).images = p.images := by
  unfold cleanModel
  first
  | rfl
  | (dsimp only
     repeat' split
     all_goals rfl)
  | (repeat' split
     all_goals rfl)

/-- `cleanSku` leaves `brand` unchanged. -/
theorem cleanSku_brand (p : Product) : (cleanSku p).brand = p.brand := by
  unfold cleanSku
  first
  | rfl
  | (dsimp only
     repeat' split
     all_goals rfl)
  | (repeat' split
     all_goals rfl)

/-- `cleanSku` leaves `model` unchanged. -/
theorem cleanSku_model (p : Product) : (cleanSku p).model = p.model := by
  unfold cleanSku
  first
  | rfl
  | (dsimp only
     repeat' split
     all_goals rfl)
  | (repeat' split
     all_goals rfl)

/-- `cleanSku` leaves `category` unchanged. -/
theorem cleanSku_category (p : Product) : (cleanSku p).category = p.category := by
  unfold cleanSku
  first
  | rfl
  | (dsimp only
     repeat' split
     all_goals rfl)
  | (repeat' split
     all_goals rfl)

/-- `cleanSku` leaves `volume` unchanged. -/
theorem cleanSku_volume (p : Product) : (cleanSku p).volume = p.volume := by
  unfold cleanSku
  first
  | rfl
  | (dsimp only
     repeat' split
     all_goals rfl)
  | (repeat' split
     all_goals rfl)

/-- `cleanSku` leaves `dimensions` unchanged. -/
theorem cleanSku_dimensions (p : Product) : (cleanSku p).dimensions = p.dimensions := by
  unfold cleanSku
  first
  | rfl
  | (dsimp only
     repeat' split
     all_goals rfl)
  | (repeat' split
     all_goals rfl)

/-- `cleanSku` leaves `material` unchanged. -/
theorem cleanSku_material (p : Product) : (cleanSku p).material = p.material := by
  unfold cleanSku
  first
  | rfl
  | (dsimp only
     repeat' split
     all_goals rfl)
  | (repeat' split
     all_goals rfl)

/-- `cleanSku` leaves `color` unchanged. -/
theorem cleanSku_color (p : Product) : (cleanSku p).color = p.color := by
  unfold cleanSku
  first
  | rfl
  | (dsimp only
     repeat' split
     all_goals rfl)
  | (repeat' split
     all_goals rfl)

/-- `cleanSku` leaves `images` unchanged. -/
theorem cleanSku_images (p : Product) : (cleanSku p).images = p.images := by
  unfold cleanSku
  first
  | rfl
  | (dsimp only
     repeat' split
     all_goals rfl)
  | (repeat' split
     all_goals rfl)

/-- `cleanImages` leaves `brand` unchanged. -/
theorem cleanImages_brand (p : Product) : (cleanImages p).brand = p.brand := by
  unfold cleanImages
  first
  | rfl
  | (dsimp only
     repeat' split
     all_goals rfl)
  | (repeat' split
     all_goals rfl)

/-- `cleanImages` leaves `model` unchanged. -/
theorem cleanImages_model (p : Product) : (cleanImages p).model = p.model := by
  unfold cleanImages
  first
  | rfl
  | (dsimp only
     repeat' split
     all_goals rfl)
  | (repeat' split
     all_goals rfl)

/-- `cleanImages` leaves `sku` unchanged. -/
theorem cleanImages_sku (p : Product) : (cleanImages p).sku = p.sku := by
  unfold cleanImages
  first
  | rfl
  | (dsimp only
     repeat' split
     all_goals rfl)
  | (repeat' split
     all_goals rfl)

/-- `cleanImages` leaves `category` unchanged. -/
theorem cleanImages_category (p : Product) : (cleanImages p).category = p.category := by
  unfold cleanImages
  first
  | rfl
  | (dsimp only
     repeat' split
     all_goals rfl)
  | (repeat' split
     all_goals rfl)

/-- `cleanImages` leaves `volume` unchanged. -/
theorem cleanImages_volume (p : Product) : (cleanImages p).volume = p.volume := by
  unfold cleanImages
  first
  | rfl
  | (dsimp only
     repeat' split
     all_goals rfl)
  | (repeat' split
     all_goals rfl)

/-- `cleanImages` leaves `dimensions` unchanged. -/
theorem cleanImages_dimensions (p : Product) : (cleanImages p).dimensions = p.dimensions := by
  unfold cleanImages
  first
  | rfl
  | (dsimp only
     repeat' split
     all_goals rfl)
  | (repeat' split
     all_goals rfl)

/-- `cleanImages` leaves `material` unchanged. -/
theorem cleanImages_material (p : Product) : (cleanImages p).material = p.material := by
  unfold cleanImages
  first
  | rfl
  | (dsimp only
     repeat' split
     all_goals rfl)
  | (repeat' split
     all_goals rfl)

/-- `cleanImages` leaves `color` unchanged. -/
theorem cleanImages_color (p : Product) : (cleanImages p).color = p.color := by
  unfold cleanImages
  first
  | rfl
  | (dsimp only
     repeat' split
     all_goals rfl)
  | (repeat' split
     all_goals rfl)

/-- The model strip line, on the model field. -/
theorem cleanModel_model (p : Product) :
    (cleanModel p).model = if truthy p.model then p.model.map trim else p.model := by
  unfold cleanModel
  split <;> rfl

/-- The brand strip line, on the brand field. -/
theorem cleanBrand_brand (p : Product) :
    (cleanBrand p).brand = if truthy p.brand then p.brand.map trim else p.brand := by
  unfold cleanBrand
  split <;> rfl

/-- The sku strip line, on the sku field. -/
theorem cleanSku_sku (p : Product) :
    (cleanSku p).sku = if truthy p.sku then p.sku.map trim else p.sku := by
  unfold cleanSku
  split <;> rfl

/-- The image filter line, on the images field. -/
theorem cleanImages_images (p : Product) :
    (cleanImages p).images = p.images.filter (fun i =>
      !i.isEmpty && (hasStart i "http://".data || hasStart i "https://".data)) := rfl

/-- `__post_init__` leaves `category` unchanged. -/
theorem postInit_category (p : Product) : (postInit p).category = p.category := by
  unfold postInit cleanData calcDiscounts
  rw [cleanImages_category, cleanSku_category, cleanModel_category, cleanBrand_category, cleanDescription_category, cleanName_category, cleanDiscountFields_category, cleanPriceFields_category, discountNoneGuards_category, calcDiscountsCore_category, discountDefaults_category, retailerFallback_category]

/-- `__post_init__` leaves `volume` unchanged. -/
theorem postInit_volume (p : Product) : (postInit p).volume = p.volume := by
  unfold postInit cleanData calcDiscounts
  rw [cleanImages_volume, cleanSku_volume, cleanModel_volume, cleanBrand_volume, cleanDescription_volume, cleanName_volume, cleanDiscountFields_volume, cleanPriceFields_volume, discountNoneGuards_volume, calcDiscountsCore_volume, discountDefaults_volume, retailerFallback_volume]

/-- `__post_init__` leaves `dimensions` unchanged. -/
theorem postInit_dimensions (p : Product) : (postInit p).dimensions = p.dimensions := by
  unfold postInit cleanData calcDiscounts
  rw [cleanImages_dimensions, cleanSku_dimensions, cleanModel_dimensions, cleanBrand_dimensions, cleanDescription_dimensions, cleanName_dimensions, cleanDiscountFields_dimensions, cleanPriceFields_dimensions, discountNoneGuards_dimensions, calcDiscountsCore_dimensions, discountDefaults_dimensions, retailerFallback_dimensions]

/-- `__post_init__` leaves `material` unchanged. -/
theorem postInit_material (p : Product) : (postInit p).material = p.material := by
  unfold postInit cleanData calcDiscounts
  rw [cleanImages_material, cleanSku_material, cleanModel_material, cleanBrand_material, cleanDescription_material, cleanName_material, cleanDiscountFields_material, cleanPriceFields_material, discountNoneGuards_material, calcDiscountsCore_material, discountDefaults_material, retailerFallback_material]

/-- `__post_init__` leaves `color` unchanged. -/
theorem postInit_color (p : Product) : (postInit p).color = p.color := by
  unfold postInit cleanData calcDiscounts
  rw [cleanImages_color, cleanSku_color, cleanModel_color, cleanBrand_color, cleanDescription_color, cleanName_color, cleanDiscountFields_color, cleanPriceFields_color, discountNoneGuards_color, calcDiscountsCore_color, discountDefaults_color, retailerFallback_color]

/-- `__post_init__` on `brand`: a final strip of a truthy value. -/
theorem postInit_brand (p : Product) :
    (postInit p).brand = if truthy p.brand then p.brand.map trim else p.brand := by
  unfold postInit cleanData calcDiscounts
  rw [cleanImages_brand, cleanSku_brand, cleanModel_brand]
  rw [cleanBrand_brand]
  rw [cleanDescription_brand, cleanName_brand, cleanDiscountFields_brand, cleanPriceFields_brand, discountNoneGuards_brand, calcDiscountsCore_brand, discountDefaults_brand, retailerFallback_brand]

/-- `__post_init__` on `model`: a final strip of a truthy value. -/
theorem postInit_model (p : Product) :
    (postInit p).model = if truthy p.model then p.model.map trim else p.model := by
  unfold postInit cleanData calcDiscounts
  rw [cleanImages_model, cleanSku_model]
  rw [cleanModel_model]
  rw [cleanBrand_model, cleanDescription_model, cleanName_model, cleanDiscountFields_model, cleanPriceFields_model, discountNoneGuards_model, calcDiscountsCore_model, discountDefaults_model, retailerFallback_model]

/-- `__post_init__` on `sku`: a final strip of a truthy value. -/
theorem postInit_sku (p : Product) :
    (postInit p).sku = if truthy p.sku then p.sku.map trim else p.sku := by
  unfold postInit cleanData calcDiscounts
  rw [cleanImages_sku]
  rw [cleanSku_sku]
  rw [cleanModel_sku, cleanBrand_sku, cleanDescription_sku, cleanName_sku, cleanDiscountFields_sku, cleanPriceFields_sku, discountNoneGuards_sku, calcDiscountsCore_sku, discountDefaults_sku, retailerFallback_sku]

/-- `__post_init__` on `images`: the http(s) filter over the incoming list. -/
theorem postInit_images (p : Product) :
    (postInit p).images = p.images.filter (fun i =>
      !i.isEmpty && (hasStart i "http://".data || hasStart i "https://".data)) := by
  unfold postInit cleanData calcDiscounts
  rw [cleanImages_images]
  rw [cleanSku_images, cleanModel_images, cleanBrand_images, cleanDescription_images, cleanName_images, cleanDiscountFields_images, cleanPriceFields_images, discountNoneGuards_images, calcDiscountsCore_images, discountDefaults_images, retailerFallback_images]

/-! ## Regex-engine alphabet lemmas -/

/-- `capsLe` is reflexive. -/
theorem capsLe_refl (P : Char → Bool) (caps : Caps) : capsLe P caps caps :=
  fun _ h => Or.inl h

/-- `capsLe` is transitive. -/
theorem capsLe_trans {P : Char → Bool} {a b c : Caps}
    (h1 : capsLe P a b) (h2 : capsLe P b c) : capsLe P a c := by
  intro nv hnv
  rcases h2 nv hnv with h | h
  · exact h1 nv h
  · exact Or.inr h

/-- Core alphabet lemma: a successful run of the matcher consumed only characters
satisfying `P` (given `reOk`), stored only `P`-clean captures beyond the inherited
ones, and handed the continuation the corresponding suffix. -/
theorem mat_alpha {P : Char → Bool} :
    ∀ fuel ic r, reOk ic P r → ∀ s caps k res,
      mat fuel ic r s caps k = some res →
      ∃ pre s1 caps1, s = pre ++ s1 ∧ (∀ c ∈ pre, P c = true) ∧
        capsLe P caps caps1 ∧ k s1 caps1 = some res := by
  intro fuel
  induction fuel with
  | zero => intro ic r _ s caps k res h; simp [mat] at h
  | succ fuel ih =>
    intro ic r hr s caps k res h
    cases r with
    | eps =>
      simp only [mat] at h
      exact ⟨[], s, caps, rfl, by simp, capsLe_refl P caps, h⟩
    | eol =>
      simp only [mat] at h
      split at h
      · exact ⟨[], s, caps, rfl, by simp, capsLe_refl P caps, h⟩
      · exact absurd h (by simp)
    | chr c =>
      cases s with
      | nil => simp [mat] at h
      | cons x rest =>
        simp only [mat] at h
        split at h
        next hx =>
          refine ⟨[x], rest, caps, rfl, ?_, capsLe_refl P caps, h⟩
          intro d hd
          rw [List.mem_singleton.mp hd]
          exact hr x hx
        next => exact absurd h (by simp)
    | cls neg cs rgs =>
      cases s with
      | nil => simp [mat] at h
      | cons x rest =>
        simp only [mat] at h
        split at h
        next hx =>
          refine ⟨[x], rest, caps, rfl, ?_, capsLe_refl P caps, h⟩
          intro d hd
          rw [List.mem_singleton.mp hd]
          exact hr x hx
        next => exact absurd h (by simp)
    | seq a b =>
      simp only [mat] at h
      obtain ⟨p1, s1, c1, hs1, hp1, hc1, hk1⟩ := ih ic a hr.1 s caps _ res h
      obtain ⟨p2, s2, c2, hs2, hp2, hc2, hk2⟩ := ih ic b hr.2 s1 c1 k res hk1
      refine ⟨p1 ++ p2, s2, c2, ?_, ?_, capsLe_trans hc1 hc2, hk2⟩
      · rw [hs1, hs2, List.append_assoc]
      · intro d hd
        rcases List.mem_append.mp hd with hd | hd
        · exact hp1 d hd
        · exact hp2 d hd
    | alt a b =>
      simp only [mat] at h
      cases hm : mat fuel ic a s caps k with
      | some v =>
        rw [hm] at h
        obtain rfl : v = res := by simpa using h
        exact ih ic a hr.1 s caps k _ hm
      | none =>
        rw [hm] at h
        exact ih ic b hr.2 s caps k res h
    | opt lazy a =>
      simp only [mat] at h
      split at h
      · cases hm : k s caps with
        | some v =>
          rw [hm] at h
          obtain rfl : v = res := by simpa using h
          exact ⟨[], s, caps, rfl, by simp, capsLe_refl P caps, hm⟩
        | none =>
          rw [hm] at h
          exact ih ic a hr s caps k res h
      · cases hm : mat fuel ic a s caps k with
        | some v =>
          rw [hm] at h
          obtain rfl : v = res := by simpa using h
          exact ih ic a hr s caps k _ hm
        | none =>
          rw [hm] at h
          exact ⟨[], s, caps, rfl, by simp, capsLe_refl P caps, h⟩
    | star lazy a =>
      simp only [mat] at h
      split at h
      · -- lazy: try the continuation first
        cases hm : k s caps with
        | some v =>
          rw [hm] at h
          obtain rfl : v = res := by simpa using h
          exact ⟨[], s, caps, rfl, by simp, capsLe_refl P caps, hm⟩
        | none =>
          rw [hm] at h
          obtain ⟨p1, s1, c1, hs1, hp1, hc1, hk1⟩ := ih ic a hr s caps _ res h
          split at hk1
          next =>
            obtain ⟨p2, s2, c2, hs2, hp2, hc2, hk2⟩ :=
              ih ic (RE.star lazy a) hr s1 c1 k _ hk1
            refine ⟨p1 ++ p2, s2, c2, ?_, ?_, capsLe_trans hc1 hc2, hk2⟩
            · rw [hs1, hs2, List.append_assoc]
            · intro d hd
              rcases List.mem_append.mp hd with hd | hd
              · exact hp1 d hd
              · exact hp2 d hd
          next => exact absurd hk1 (by simp)
      · -- greedy: try the body first
        cases hm : mat fuel ic a s caps
            (fun s' caps' =>
              if s'.length < s.length then mat fuel ic (RE.star lazy a) s' caps' k
              else none) with
        | some v =>
          rw [hm] at h
          obtain rfl : v = res := by simpa using h
          obtain ⟨p1, s1, c1, hs1, hp1, hc1, hk1⟩ := ih ic a hr s caps _ _ hm
          split at hk1
          next =>
            obtain ⟨p2, s2, c2, hs2, hp2, hc2, hk2⟩ :=
              ih ic (RE.star lazy a) hr s1 c1 k _ hk1
            refine ⟨p1 ++ p2, s2, c2, ?_, ?_, capsLe_trans hc1 hc2, hk2⟩
            · rw [hs1, hs2, List.append_assoc]
            · intro d hd
              rcases List.mem_append.mp hd with hd | hd
              · exact hp1 d hd
              · exact hp2 d hd
          next => exact absurd hk1 (by simp)
        | none =>
          rw [hm] at h
          exact ⟨[], s, caps, rfl, by simp, capsLe_refl P caps, h⟩
    | grp n a =>
      simp only [mat] at h
      obtain ⟨pre, s1, c1, hs1, hp1, hc1, hk1⟩ := ih ic a hr s caps _ res h
      have hlen : s.length - s1.length = pre.length := by
        rw [hs1, List.length_append]; omega
      have htake : s.take (s.length - s1.length) = pre := by
        rw [hlen, hs1, List.take_left]
      have hk2 : k s1 (capPut c1 n pre) = some res := by
        rw [← htake]; exact hk1
      refine ⟨pre, s1, capPut c1 n pre, hs1, hp1, ?_, hk2⟩
      intro nv hnv
      rcases List.mem_cons.mp hnv with hnv | hnv
      · subst hnv; exact Or.inr hp1
      · exact hc1 nv hnv

/-- A successful anchored match consists of `P`-characters only, and so do all its
captures. -/
theorem matchHere_alpha {P : Char → Bool} {ic : Bool} {r : RE} {s m rest : Str}
    {caps : Caps} (hr : reOk ic P r) (h : matchHere ic r s = some (m, rest, caps)) :
    (∀ c ∈ m, P c = true) ∧ ∀ nv ∈ caps, ∀ c ∈ nv.2, P c = true := by
  unfold matchHere at h
  cases hm : mat (fuelFor r s) ic r s [] (fun s' caps => some (s', caps)) with
  | none => rw [hm] at h; exact absurd h (by simp)
  | some v =>
    rw [hm] at h
    obtain ⟨pre, s1, c1, hs1, hp1, hc1, hk1⟩ := mat_alpha (fuelFor r s) ic r hr s [] _ v hm
    obtain rfl : v = (s1, c1) := by simpa using hk1.symm
    have hlen : s.length - s1.length = pre.length := by
      rw [hs1, List.length_append]; omega
    have htake : s.take (s.length - s1.length) = pre := by
      rw [hlen, hs1, List.take_left]
    dsimp only at h
    rw [htake] at h
    simp only [Option.some_inj, Prod.mk.injEq] at h
    obtain ⟨rfl, rfl, rfl⟩ := h
    refine ⟨hp1, ?_⟩
    intro nv hnv
    rcases hc1 nv hnv with hnv2 | hnv2
    · exact absurd hnv2 (by simp)
    · exact hnv2

/-- A successful search consists of `P`-characters only, and so do its captures. -/
theorem searchAux_alpha {P : Char → Bool} {ic : Bool} {r : RE} (hr : reOk ic P r) :
    ∀ {s pre m rest : Str} {caps : Caps},
      searchAux ic r s = some (pre, m, rest, caps) →
      (∀ c ∈ m, P c = true) ∧ ∀ nv ∈ caps, ∀ c ∈ nv.2, P c = true := by
  intro s
  induction s with
  | nil =>
    intro pre m rest caps h
    rw [searchAux] at h
    cases hm : matchHere ic r [] with
    | none => rw [hm] at h; exact absurd h (by simp)
    | some v =>
      rw [hm] at h
      obtain ⟨m0, rest0, caps0⟩ := v
      simp only [Option.some_inj, Prod.mk.injEq] at h
      obtain ⟨-, rfl, rfl, rfl⟩ := h
      exact matchHere_alpha hr hm
  | cons c t ih =>
    intro pre m rest caps h
    rw [searchAux] at h
    cases hm : matchHere ic r (c :: t) with
    | some v =>
      rw [hm] at h
      obtain ⟨m0, rest0, caps0⟩ := v
      simp only [Option.some_inj, Prod.mk.injEq] at h
      obtain ⟨-, rfl, rfl, rfl⟩ := h
      exact matchHere_alpha hr hm
    | none =>
      rw [hm] at h
      cases hs : searchAux ic r t with
      | none => rw [hs] at h; exact absurd h (by simp)
      | some w =>
        rw [hs] at h
        obtain ⟨pre0, m0, rest0, caps0⟩ := w
        simp only [Option.some_inj, Prod.mk.injEq] at h
        obtain ⟨-, rfl, rfl, rfl⟩ := h
        exact ih hs

/-- A successful `re.search` consists of `P`-characters only, and so do its
captures. -/
theorem reSearch_alpha {P : Char → Bool} {ic : Bool} {r : RE} {s m : Str} {caps : Caps}
    (hr : reOk ic P r) (h : reSearch ic r s = some (m, caps)) :
    (∀ c ∈ m, P c = true) ∧ ∀ nv ∈ caps, ∀ c ∈ nv.2, P c = true := by
  unfold reSearch at h
  cases hs : searchAux ic r s with
  | none => rw [hs] at h; exact absurd h (by simp)
  | some w =>
    rw [hs] at h
    obtain ⟨pre0, m0, rest0, caps0⟩ := w
    simp only [Option.some_inj, Prod.mk.injEq] at h
    obtain ⟨rfl, rfl⟩ := h
    exact searchAux_alpha hr hs

/-- A capture looked up was stored. -/
theorem capGet_mem {caps : Caps} {i : Nat} {v : Str} (h : capGet caps i = some v) :
    (i, v) ∈ caps := by
  unfold capGet at h
  cases hf : caps.find? (fun p => p.1 = i) with
  | none => rw [hf] at h; exact absurd h (by simp)
  | some p =>
    rw [hf] at h
    obtain ⟨p1, p2⟩ := p
    have hmem := List.mem_of_find?_eq_some hf
    have hpred := List.find?_some hf
    simp only [decide_eq_true_eq] at hpred
    obtain rfl : p1 = i := hpred
    obtain rfl : p2 = v := by simpa using h
    exact hmem

/-! ## The dimension patterns and their alphabet -/

/-- The digit class only produces `dimChar` characters. -/
theorem reOk_rdigit : reOk false dimChar rdigit := by
  intro x hx
  have hx2 : ('0' ≤ x ∧ x ≤ '9') ∨ (Char.ofNat 3664 ≤ x ∧ x ≤ Char.ofNat 3673) := by
    simpa [rdigit, clsHit] using hx
  unfold dimChar dimHead
  rcases hx2 with ⟨h1, h2⟩ | ⟨h1, h2⟩ <;> simp [h1, h2]

/-- The whitespace class only produces `dimChar` characters. -/
theorem reOk_rws : reOk false dimChar rws := by
  intro x hx
  have hx2 : x = ' ' ∨ x = Char.ofNat 9 ∨ x = Char.ofNat 10 ∨ x = crc ∨
      x = Char.ofNat 11 ∨ x = Char.ofNat 12 := by
    simpa [rws, rcl, clsHit] using hx
  rcases hx2 with rfl | rfl | rfl | rfl | rfl | rfl <;> decide

/-- The size-separator class only produces `dimChar` characters. -/
theorem reOk_rxsep : reOk false dimChar (rcl ['x', Char.ofNat 215]) := by
  intro x hx
  have hx2 : x = 'x' ∨ x = Char.ofNat 215 := by simpa [rcl, clsHit] using hx
  rcases hx2 with rfl | rfl <;> decide

/-- The decimal dot only produces `dimChar` characters. -/
theorem reOk_dot : reOk false dimChar (RE.chr '.') := by
  intro x hx
  have hx2 : x = '.' := by simpa [chrEq] using hx
  subst hx2
  decide

/-- The number token only produces `dimChar` characters. -/
theorem reOk_reNumTok : reOk false dimChar reNumTok := by
  refine ⟨⟨reOk_rdigit, reOk_rdigit⟩, reOk_dot, reOk_rdigit, reOk_rdigit⟩

/-- The separator token only produces `dimChar` characters. -/
theorem reOk_reXSep : reOk false dimChar reXSep := by
  refine ⟨reOk_rws, reOk_rxsep, reOk_rws, trivial⟩

/-- Every dimension pattern only produces `dimChar` characters. -/
theorem reOk_dimPatterns : ∀ p ∈ dimPatterns, reOk false dimChar p := by
  intro p hp
  simp only [dimPatterns, List.mem_cons, List.not_mem_nil, or_false] at hp
  rcases hp with rfl | rfl | rfl
  · exact ⟨reOk_reNumTok, reOk_reXSep, reOk_reNumTok, reOk_reXSep, reOk_reNumTok, trivial⟩
  · exact ⟨reOk_reNumTok, reOk_reXSep, reOk_reNumTok, trivial⟩
  · exact reOk_reNumTok

/-! ## Strip lemmas -/

/-- The head surviving `dropWhile` fails the predicate. -/
theorem head_dropWhile_false {p : Char → Bool} :
    ∀ {l : Str} {c : Char} {t : Str}, l.dropWhile p = c :: t → p c = false := by
  intro l
  induction l with
  | nil => intro c t h; simp at h
  | cons a l ih =>
    intro c t h
    rw [List.dropWhile_cons] at h
    split at h
    · exact ih h
    · next hp =>
      injection h with h1 h2
      subst h1
      simpa using hp

/-- `dropWhile` only removes a front part. -/
theorem dropWhile_is_tail (p : Char → Bool) :
    ∀ l : Str, ∃ w, w ++ l.dropWhile p = l := by
  intro l
  induction l with
  | nil => exact ⟨[], rfl⟩
  | cons a t ih =>
    rw [List.dropWhile_cons]
    split
    · obtain ⟨w, hw⟩ := ih
      exact ⟨a :: w, by rw [List.cons_append, hw]⟩
    · exact ⟨[], rfl⟩

/-- The first character of a stripped string is not whitespace. -/
theorem trim_head_false {l : Str} {c : Char} {t : Str} (h : trim l = c :: t) :
    isWS c = false := by
  unfold trim at h
  obtain ⟨w, hw⟩ := dropWhile_is_tail isWS ((l.dropWhile isWS).reverse)
  have h2 : (l.dropWhile isWS).reverse.dropWhile isWS = (c :: t).reverse := by
    rw [← h, List.reverse_reverse]
  rw [h2] at hw
  have h3 := congrArg List.reverse hw
  rw [List.reverse_append, List.reverse_reverse, List.reverse_reverse] at h3
  rw [List.cons_append] at h3
  exact head_dropWhile_false h3.symm

/-- The last character of a stripped string is not whitespace. -/
theorem trim_rev_head_false {l : Str} {c : Char} {t : Str}
    (h : (trim l).reverse = c :: t) : isWS c = false := by
  unfold trim at h
  rw [List.reverse_reverse] at h
  exact head_dropWhile_false h

/-- Stripping is idempotent. -/
theorem trim_trim (l : Str) : trim (trim l) = trim l := by
  refine trim_eq_self ?_ ?_
  · intro c hc
    cases hl : trim l with
    | nil => rw [hl] at hc; simp at hc
    | cons d t =>
      rw [hl] at hc
      simp only [List.head?_cons, Option.some_inj] at hc
      subst hc
      exact trim_head_false hl
  · intro c hc
    cases hl : (trim l).reverse with
    | nil => rw [hl] at hc; simp at hc
    | cons d t =>
      rw [hl] at hc
      simp only [List.head?_cons, Option.some_inj] at hc
      subst hc
      exact trim_rev_head_false hl

/-! ## Dimension-head facts -/

/-- A `dimHead` character is fixed by lower-casing and is none of the rejected start
letters. -/
theorem dimHead_facts {c : Char} (h : dimHead c = true) :
    lowerC c = c ∧ (c = 'h') = False ∧ (c = 'w') = False ∧ (c = 'd') = False ∧
      (c = 'c') = False ∧ (c = 's') = False := by
  refine ⟨?_, ?_, ?_, ?_, ?_, ?_⟩
  · unfold lowerC
    split
    next hAZ =>
      exfalso
      simp only [dimHead, Bool.or_eq_true, Bool.and_eq_true, decide_eq_true_eq] at h
      rcases h with (((⟨h1, h2⟩ | ⟨h1, h2⟩) | rfl) | rfl) | rfl
      · exact absurd (le_trans hAZ.1 h2) (by decide)
      · exact absurd (le_trans h1 hAZ.2) (by decide)
      · exact absurd hAZ.1 (by decide)
      · exact absurd hAZ.2 (by decide)
      · exact absurd hAZ.2 (by decide)
    next => rfl
  · refine eq_false ?_
    intro hc
    rw [hc] at h
    exact absurd h (by decide)
  · refine eq_false ?_
    intro hc
    rw [hc] at h
    exact absurd h (by decide)
  · refine eq_false ?_
    intro hc
    rw [hc] at h
    exact absurd h (by decide)
  · refine eq_false ?_
    intro hc
    rw [hc] at h
    exact absurd h (by decide)
  · refine eq_false ?_
    intro hc
    rw [hc] at h
    exact absurd h (by decide)

/-- A string headed by a `dimHead` character has none of the rejected starts. -/
theorem hasStartAny_dim {c : Char} (t : Str) (hc : dimHead c = true) :
    hasStartAny (lowerS (c :: t)) badStarts = false := by
  obtain ⟨hl, h1, h2, h3, h4, h5⟩ := dimHead_facts hc
  have hbs : badStarts = [['h', 't', 't', 'p'], ['w', 'w', 'w'],
      ['d', 'a', 't', 'a', ':'], ['c', 'l', 'a', 's', 's', '='],
      ['s', 't', 'y', 'l', 'e', '=']] := by decide
  rw [hbs]
  simp [hasStartAny, hasStart, lowerS, hl, h1, h2, h3, h4, h5]

/-! ## Sanitizer contract lemmas -/

/-- `_sanitize_text_field` obeys the sanitizer contract at any bound at least its
`max_length`. -/
theorem goodOut_sanitizeTextField (t : Str) {m n : Nat} (hmn : m ≤ n) :
    goodOut n (sanitizeTextField t m) := by
  intro r h
  obtain ⟨hr, hv⟩ := sanitizeTextField_inv h
  obtain ⟨hne, hgt, hlen, hstart, hchars⟩ := sanValid_props hv
  refine ⟨?_, ?_, ?_, ?_⟩
  · rw [hr]
    exact trim_sanitizeClean t
  · rw [hr]
    exact le_trans hlen hmn
  · rw [hr]
    exact hstart
  · rw [hr]
    exact fun c hc => hchars c (badChars_sub_hardChars c hc)

/-- `_sanitize_brand_field` obeys the contract at bound 100. -/
theorem goodOut_sanitizeBrandField (b : Str) : goodOut 100 (sanitizeBrandField b) :=
  goodOut_sanitizeTextField b le_rfl

/-- `_sanitize_sku_field` obeys the contract at bound 50. -/
theorem goodOut_sanitizeSkuField (s : Str) : goodOut 50 (sanitizeSkuField s) := by
  intro r h
  unfold sanitizeSkuField at h
  split at h
  next => exact absurd h (by simp)
  next =>
    cases hst : sanitizeTextField s 50 with
    | none => rw [hst] at h; exact absurd h (by simp)
    | some v =>
      rw [hst] at h
      dsimp only at h
      split at h
      next =>
        obtain rfl : v = r := by simpa using h
        exact goodOut_sanitizeTextField s le_rfl _ hst
      next => exact absurd h (by simp)

/-- `_sanitize_color_field` obeys the contract at bound 50. -/
theorem goodOut_sanitizeColorField (s : Str) : goodOut 50 (sanitizeColorField s) := by
  intro r h
  unfold sanitizeColorField at h
  split at h
  next => exact absurd h (by simp)
  next =>
    cases hst : sanitizeTextField (colorScrub s) 50 with
    | none => rw [hst] at h; exact absurd h (by simp)
    | some v =>
      rw [hst] at h
      dsimp only at h
      split at h
      next =>
        obtain rfl : v = r := by simpa using h
        exact goodOut_sanitizeTextField _ le_rfl _ hst
      next => exact absurd h (by simp)

/-- `_sanitize_material_field` obeys the contract at bound 100. -/
theorem goodOut_sanitizeMaterialField (s : Str) : goodOut 100 (sanitizeMaterialField s) := by
  intro r h
  unfold sanitizeMaterialField at h
  split at h
  next => exact absurd h (by simp)
  next =>
    cases hst : sanitizeTextField (materialScrub s) 100 with
    | none => rw [hst] at h; exact absurd h (by simp)
    | some v =>
      rw [hst] at h
      dsimp only at h
      split at h
      next =>
        obtain rfl : v = r := by simpa using h
        exact goodOut_sanitizeTextField _ le_rfl _ hst
      next => exact absurd h (by simp)

/-- The dimension-pattern branch of `_sanitize_dimensions_field` yields a stripped,
bounded, `dimChar`-clean value. -/
theorem dimLoop_good {dims : Str} : ∀ {ps : List RE}, (∀ p ∈ ps, reOk false dimChar p) →
    ∀ {cd : Str}, dimLoop dims ps = some cd →
      trim cd = cd ∧ cd.length ≤ 200 ∧ cd ≠ [] ∧ ∀ c ∈ cd, dimChar c = true := by
  intro ps
  induction ps with
  | nil => intro _ cd h; simp [dimLoop] at h
  | cons p ps ih =>
    intro hok cd h
    unfold dimLoop at h
    cases hs : reSearch false p dims with
    | none =>
      rw [hs] at h
      exact ih (fun q hq => hok q (List.mem_cons_of_mem p hq)) h
    | some mc =>
      rw [hs] at h
      dsimp only at h
      cases hg : groupOf mc 1 with
      | none =>
        rw [hg] at h
        exact ih (fun q hq => hok q (List.mem_cons_of_mem p hq)) h
      | some g =>
        rw [hg] at h
        dsimp only at h
        split at h
        next hcond =>
          obtain rfl : trim g = cd := by simpa using h
          obtain ⟨mg, cg⟩ := mc
          have halpha := reSearch_alpha (hok p (List.mem_cons_self p ps)) hs
          have hcg : capGet cg 1 = some g := by simpa [groupOf] using hg
          have hgchars : ∀ c ∈ g, dimChar c = true := halpha.2 (1, g) (capGet_mem hcg)
          simp only [Bool.and_eq_true, Bool.not_eq_true', decide_eq_true_eq] at hcond
          refine ⟨trim_trim g, hcond.2, ?_, ?_⟩
          · intro hnil
            rw [hnil] at hcond
            simp at hcond
          · intro c hcmem
            exact hgchars c (mem_trim hcmem)
        next => exact ih (fun q hq => hok q (List.mem_cons_of_mem p hq)) h

/-- `_sanitize_dimensions_field` obeys the sanitizer contract at bound 200. -/
theorem goodOut_sanitizeDimensionsField (d : Str) :
    goodOut 200 (sanitizeDimensionsField d) := by
  intro r h
  unfold sanitizeDimensionsField at h
  split at h
  next => exact absurd h (by simp)
  next =>
    cases hd : dimLoop (reSubAll true reCssVar [] d) dimPatterns with
    | some cd =>
      rw [hd] at h
      dsimp only at h
      obtain rfl : cd = r := by simpa using h
      obtain ⟨htr, hlen, hne, hchars⟩ := dimLoop_good reOk_dimPatterns hd
      refine ⟨htr, hlen, ?_, ?_⟩
      · cases hcc : cd with
        | nil => exact absurd hcc hne
        | cons c t =>
          have hdc : dimChar c = true := hchars c (by rw [hcc]; exact List.mem_cons_self c t)
          have hws : isWS c = false := by
            rw [hcc] at htr
            exact trim_head_false htr
          have hdh : dimHead c = true := by
            have := hdc
            unfold dimChar at this
            rcases Bool.or_eq_true .. |>.mp this with hx | hx
            · exact hx
            · rw [hx] at hws; exact absurd hws (by simp)
          exact hasStartAny_dim t hdh
      · intro ch hch
        have hdf : ∀ x ∈ badChars, dimChar x = false := by decide
        cases hcont : cd.contains ch with
        | false => rfl
        | true =>
          have hmem : ch ∈ cd := by simpa using hcont
          have := hchars ch hmem
          rw [hdf ch hch] at this
          exact absurd this (by simp)
    | none =>
      rw [hd] at h
      dsimp only at h
      cases hst : sanitizeTextField (reSubAll true reCssVar [] d) 200 with
      | none => rw [hst] at h; exact absurd h (by simp)
      | some v =>
        rw [hst] at h
        dsimp only at h
        split at h
        next =>
          obtain rfl : v = r := by simpa using h
          exact goodOut_sanitizeTextField _ le_rfl _ hst
        next => exact absurd h (by simp)

/-- The model branch of the sanitization step obeys the contract at bound 50. -/
theorem goodOut_modelBranch (m : Str) :
    goodOut 50 (match sanitizeTextField m 50 with
      | some cm =>
        if !cm.isEmpty && !htmlElements.contains (lowerS cm) then some cm else none
      | none => none) := by
  intro r h
  cases hst : sanitizeTextField m 50 with
  | none => rw [hst] at h; exact absurd h (by simp)
  | some cm =>
    rw [hst] at h
    dsimp only at h
    split at h
    next =>
      obtain rfl : cm = r := by simpa using h
      exact goodOut_sanitizeTextField m le_rfl _ hst
    next => exact absurd h (by simp)

/-- The model branch never yields a bare HTML element name. -/
theorem modelOut_modelBranch (m : Str) :
    modelOut (match sanitizeTextField m 50 with
      | some cm =>
        if !cm.isEmpty && !htmlElements.contains (lowerS cm) then some cm else none
      | none => none) := by
  intro r h
  cases hst : sanitizeTextField m 50 with
  | none => rw [hst] at h; exact absurd h (by simp)
  | some cm =>
    rw [hst] at h
    dsimp only at h
    split at h
    next hcond =>
      obtain rfl : cm = r := by simpa using h
      simp only [Bool.and_eq_true, Bool.not_eq_true'] at hcond
      exact hcond.2
    next => exact absurd h (by simp)

/-! ## Contract plumbing through normalization, construction and post-init -/

/-- The contract survives `normalize_product_data` (strip of a truthy value, `None`
for a falsy one) together with the construction default. -/
theorem goodOut_norm {v san : Option Str} {n : Nat} (h : goodOut n san) :
    goodOut n ((normStr (if truthy v then san else v)).getD none) := by
  intro r hr
  split at hr
  next =>
    cases hsan : san with
    | none => rw [hsan] at hr; simp [normStr] at hr
    | some s =>
      rw [hsan] at hr
      unfold normStr at hr
      dsimp only at hr
      obtain ⟨ht, hlen, hstart, hchars⟩ := h s hsan
      split at hr
      next =>
        obtain rfl : trim s = r := by simpa using hr
        rw [ht]
        exact ⟨ht, hlen, hstart, hchars⟩
      next => exact absurd hr (by simp)
  next hv =>
    cases v with
    | none => simp [normStr] at hr
    | some s =>
      have hse : s.isEmpty = true := by
        cases hb : s.isEmpty with
        | true => rfl
        | false => exact absurd (by simp [truthy, hb]) hv
      unfold normStr at hr
      dsimp only at hr
      rw [hse] at hr
      simp at hr

/-- The contract survives the final strip of `_clean_data`. -/
theorem goodOut_strip {f : Option Str} {n : Nat} (h : goodOut n f) :
    goodOut n (if truthy f then f.map trim else f) := by
  intro r hr
  split at hr
  next =>
    cases f with
    | none => simp at hr
    | some s =>
      obtain ⟨ht, hlen, hstart, hchars⟩ := h s rfl
      obtain rfl : trim s = r := by simpa using hr
      rw [ht]
      exact ⟨ht, hlen, hstart, hchars⟩
  next => exact h r hr

/-- The element-name filter survives normalization. -/
theorem modelOut_norm {v san : Option Str} (hg : goodOut 50 san) (h : modelOut san) :
    modelOut ((normStr (if truthy v then san else v)).getD none) := by
  intro r hr
  split at hr
  next =>
    cases hsan : san with
    | none => rw [hsan] at hr; simp [normStr] at hr
    | some s =>
      rw [hsan] at hr
      unfold normStr at hr
      dsimp only at hr
      split at hr
      next =>
        obtain rfl : trim s = r := by simpa using hr
        rw [(hg s hsan).1]
        exact h s hsan
      next => exact absurd hr (by simp)
  next hv =>
    cases v with
    | none => simp [normStr] at hr
    | some s =>
      have hse : s.isEmpty = true := by
        cases hb : s.isEmpty with
        | true => rfl
        | false => exact absurd (by simp [truthy, hb]) hv
      unfold normStr at hr
      dsimp only at hr
      rw [hse] at hr
      simp at hr

/-- The element-name filter survives the final strip. -/
theorem modelOut_strip {f : Option Str} (hg : goodOut 50 f) (h : modelOut f) :
    modelOut (if truthy f then f.map trim else f) := by
  intro r hr
  split at hr
  next =>
    cases f with
    | none => simp at hr
    | some s =>
      obtain rfl : trim s = r := by simpa using hr
      rw [(hg s rfl).1]
      exact h s rfl
  next => exact h r hr

/-- A field with the contract passes the Boolean field check. -/
theorem fieldClean_of_goodOut {f : Option Str} {n : Nat} (h : goodOut n f) :
    fieldClean f n = true := by
  cases f with
  | none => rfl
  | some v =>
    obtain ⟨-, hlen, hstart, hchars⟩ := h v rfl
    have hany : badChars.any (fun c => v.contains c) = false := by
      cases hany : badChars.any (fun c => v.contains c) with
      | false => rfl
      | true =>
        obtain ⟨c, hc, hcont⟩ := List.any_eq_true.mp hany
        rw [hchars c hc] at hcont
        exact absurd hcont (by simp)
    unfold fieldClean
    simp only [hstart, hany, hlen]
    simp

/-! ## Field views of the sanitization step -/

/-- Brand slot of the sanitization step. -/
theorem sanitizeRaw_brand (r : RawData) :
    (sanitizeRaw r).brand =
      if truthy r.brand then sanitizeBrandField (r.brand.getD []) else r.brand := rfl

/-- Model slot of the sanitization step. -/
theorem sanitizeRaw_model (r : RawData) :
    (sanitizeRaw r).model =
      if truthy r.model then
        match sanitizeTextField (r.model.getD []) 50 with
        | some cm =>
          if !cm.isEmpty && !htmlElements.contains (lowerS cm) then some cm else none
        | none => none
      else r.model := rfl

/-- Sku slot of the sanitization step. -/
theorem sanitizeRaw_sku (r : RawData) :
    (sanitizeRaw r).sku =
      if truthy r.sku then sanitizeSkuField (r.sku.getD []) else r.sku := rfl

/-- Category slot of the sanitization step. -/
theorem sanitizeRaw_category (r : RawData) :
    (sanitizeRaw r).category =
      if truthy r.category then sanitizeTextField (r.category.getD []) 100
      else r.category := rfl

/-- Volume slot of the sanitization step. -/
theorem sanitizeRaw_volume (r : RawData) :
    (sanitizeRaw r).volume =
      if truthy r.volume then sanitizeTextField (r.volume.getD []) 50 else r.volume := rfl

/-- Dimensions slot of the sanitization step. -/
theorem sanitizeRaw_dimensions (r : RawData) :
    (sanitizeRaw r).dimensions =
      if truthy r.dimensions then sanitizeDimensionsField (r.dimensions.getD [])
      else r.dimensions := rfl

/-- Material slot of the sanitization step. -/
theorem sanitizeRaw_material (r : RawData) :
    (sanitizeRaw r).material =
      if truthy r.material then sanitizeMaterialField (r.material.getD [])
      else r.material := rfl

/-- Color slot of the sanitization step. -/
theorem sanitizeRaw_color (r : RawData) :
    (sanitizeRaw r).color =
      if truthy r.color then sanitizeColorField (r.color.getD []) else r.color := rfl

/-! ## Field views of the built record -/

/-- Brand of the built record. -/
theorem builtProduct_brand (raw : RawData) :
    (builtProduct raw).brand =
      if truthy ((normStr (sanitizeRaw raw).brand).getD none) then
        ((normStr (sanitizeRaw raw).brand).getD none).map trim
      else (normStr (sanitizeRaw raw).brand).getD none := by
  unfold builtProduct
  rw [postInit_brand]
  rfl

/-- Model of the built record. -/
theorem builtProduct_model (raw : RawData) :
    (builtProduct raw).model =
      if truthy ((normStr (sanitizeRaw raw).model).getD none) then
        ((normStr (sanitizeRaw raw).model).getD none).map trim
      else (normStr (sanitizeRaw raw).model).getD none := by
  unfold builtProduct
  rw [postInit_model]
  rfl

/-- Sku of the built record. -/
theorem builtProduct_sku (raw : RawData) :
    (builtProduct raw).sku =
      if truthy ((normStr (sanitizeRaw raw).sku).getD none) then
        ((normStr (sanitizeRaw raw).sku).getD none).map trim
      else (normStr (sanitizeRaw raw).sku).getD none := by
  unfold builtProduct
  rw [postInit_sku]
  rfl

/-- Category of the built record. -/
theorem builtProduct_category (raw : RawData) :
    (builtProduct raw).category = (normStr (sanitizeRaw raw).category).getD none := by
  unfold builtProduct
  rw [postInit_category]
  rfl

/-- Volume of the built record. -/
theorem builtProduct_volume (raw : RawData) :
    (builtProduct raw).volume = (normStr (sanitizeRaw raw).volume).getD none := by
  unfold builtProduct
  rw [postInit_volume]
  rfl

/-- Dimensions of the built record. -/
theorem builtProduct_dimensions (raw : RawData) :
    (builtProduct raw).dimensions = (normStr (sanitizeRaw raw).dimensions).getD none := by
  unfold builtProduct
  rw [postInit_dimensions]
  rfl

/-- Material of the built record. -/
theorem builtProduct_material (raw : RawData) :
    (builtProduct raw).material = (normStr (sanitizeRaw raw).material).getD none := by
  unfold builtProduct
  rw [postInit_material]
  rfl

/-- Color of the built record. -/
theorem builtProduct_color (raw : RawData) :
    (builtProduct raw).color = (normStr (sanitizeRaw raw).color).getD none := by
  unfold builtProduct
  rw [postInit_color]
  rfl

/-! ## Sanitizer contract for the built record -/

/-- Brand contract of a built record. -/
theorem goodOut_builtProduct_brand (raw : RawData) : goodOut 100 (builtProduct raw).brand := by
  rw [builtProduct_brand, sanitizeRaw_brand]
  exact goodOut_strip (goodOut_norm (goodOut_sanitizeBrandField _))

/-- Model contract of a built record. -/
theorem goodOut_builtProduct_model (raw : RawData) : goodOut 50 (builtProduct raw).model := by
  rw [builtProduct_model, sanitizeRaw_model]
  exact goodOut_strip (goodOut_norm (goodOut_modelBranch _))

/-- Sku contract of a built record. -/
theorem goodOut_builtProduct_sku (raw : RawData) : goodOut 50 (builtProduct raw).sku := by
  rw [builtProduct_sku, sanitizeRaw_sku]
  exact goodOut_strip (goodOut_norm (goodOut_sanitizeSkuField _))

/-- Category contract of a built record. -/
theorem goodOut_builtProduct_category (raw : RawData) :
    goodOut 100 (builtProduct raw).category := by
  rw [builtProduct_category, sanitizeRaw_category]
  exact goodOut_norm (goodOut_sanitizeTextField _ le_rfl)

/-- Volume contract of a built record. -/
theorem goodOut_builtProduct_volume (raw : RawData) :
    goodOut 50 (builtProduct raw).volume := by
  rw [builtProduct_volume, sanitizeRaw_volume]
  exact goodOut_norm (goodOut_sanitizeTextField _ le_rfl)

/-- Dimensions contract of a built record. -/
theorem goodOut_builtProduct_dimensions (raw : RawData) :
    goodOut 200 (builtProduct raw).dimensions := by
  rw [builtProduct_dimensions, sanitizeRaw_dimensions]
  exact goodOut_norm (goodOut_sanitizeDimensionsField _)

/-- Material contract of a built record. -/
theorem goodOut_builtProduct_material (raw : RawData) :
    goodOut 100 (builtProduct raw).material := by
  rw [builtProduct_material, sanitizeRaw_material]
  exact goodOut_norm (goodOut_sanitizeMaterialField _)

/-- Color contract of a built record. -/
theorem goodOut_builtProduct_color (raw : RawData) :
    goodOut 50 (builtProduct raw).color := by
  rw [builtProduct_color, sanitizeRaw_color]
  exact goodOut_norm (goodOut_sanitizeColorField _)

/-- Every built record passes the whole-record sanitization check. -/
theorem builtProduct_sanitizedChk (raw : RawData) :
    sanitizedChk (builtProduct raw) = true := by
  unfold sanitizedChk
  rw [fieldClean_of_goodOut (goodOut_builtProduct_brand raw),
    fieldClean_of_goodOut (goodOut_builtProduct_model raw),
    fieldClean_of_goodOut (goodOut_builtProduct_sku raw),
    fieldClean_of_goodOut (goodOut_builtProduct_category raw),
    fieldClean_of_goodOut (goodOut_builtProduct_volume raw),
    fieldClean_of_goodOut (goodOut_builtProduct_dimensions raw),
    fieldClean_of_goodOut (goodOut_builtProduct_material raw),
    fieldClean_of_goodOut (goodOut_builtProduct_color raw)]
  rfl

/-- Every built record passes the model-element check. -/
theorem modelOut_builtProduct (raw : RawData) : modelOut (builtProduct raw).model := by
  rw [builtProduct_model, sanitizeRaw_model]
  exact modelOut_strip (goodOut_norm (goodOut_modelBranch _))
    (modelOut_norm (goodOut_modelBranch _) (modelOut_modelBranch _))

/-- A record whose model passed the element filter passes the Boolean check. -/
theorem modelChk_of_modelOut {p : Product} (h : modelOut p.model) : modelChk p = true := by
  unfold modelChk
  cases hm : p.model with
  | none => rfl
  | some m => simpa using h m hm

/-! ## Monad inversion and the extraction pipeline -/

/-- Bind inversion for the embedded Python monad. -/
theorem py_bind_eq_ok {α β : Type} {m : Py α} {f : α → Py β} {b : β}
    (h : (m >>= f) = Except.ok b) : ∃ a, m = Except.ok a ∧ f a = Except.ok b := by
  cases m with
  | error e => exact Except.noConfusion h
  | ok a => exact ⟨a, rfl, h⟩

/-- `Except.ok` is injective over the embedded Python monad. -/
theorem py_ok_inj {α : Type} {a b : α} (h : (Except.ok a : Py α) = Except.ok b) :
    a = b := Except.ok.inj h

/-- Inversion of the raw-extraction step: the images slot holds an
`_extract_images` result. -/
theorem genericRaw_inv {html : Str} {base url : Option Str} {raw : RawData}
    (h : genericRaw html base url = Except.ok raw) :
    extractImages html base = Except.ok raw.images := by
  unfold genericRaw at h
  obtain ⟨brand, hb, h⟩ := py_bind_eq_ok h
  obtain ⟨model, hm, h⟩ := py_bind_eq_ok h
  obtain ⟨images, hi, h⟩ := py_bind_eq_ok h
  obtain rfl := py_ok_inj h
  exact hi

/-- Inversion of `extract_from_html`: a returned record was built from a raw
extraction of nonempty content. -/
theorem genericExtract_inv {html : Str} {url base0 : Option Str} {p : Product}
    (h : genericExtract html url base0 = Except.ok (some p)) :
    ∃ raw, genericRaw html (if truthy url then url else base0) url = Except.ok raw ∧
      p = builtProduct raw := by
  unfold genericExtract at h
  split at h
  next => exact Option.noConfusion (py_ok_inj h)
  next =>
    obtain ⟨raw, hr, h⟩ := py_bind_eq_ok h
    exact ⟨raw, hr, (Option.some.inj (py_ok_inj h)).symm⟩

/-! ## Image-list invariants -/

/-- `addImage` keeps the accumulator duplicate-free. -/
theorem addImage_nodup {acc : List Str} (h : acc.Nodup) (o : Option Str) :
    (addImage acc o).Nodup := by
  cases o with
  | none => exact h
  | some v =>
    unfold addImage
    dsimp only
    split
    next hc =>
      have hc2 : List.contains acc v = false := by
        cases hcv : List.contains acc v with
        | false => rfl
        | true => rw [hcv] at hc; simp at hc
      have hnm : v ∉ acc := by
        intro hmem
        have : List.contains acc v = true := by simpa using hmem
        rw [hc2] at this
        exact absurd this (by simp)
      refine List.Nodup.append h (List.nodup_singleton v) ?_
      intro x hx hx2
      rw [List.mem_singleton.mp hx2] at hx
      exact hnm hx
    next => exact h

/-- The base fold of `_extract_images` is duplicate-free. -/
theorem foldl_addImage_nodup (f : Str → Option Str) :
    ∀ (cands : List Str) (acc : List Str), acc.Nodup →
      (cands.foldl (fun acc m => addImage acc (f m)) acc).Nodup := by
  intro cands
  induction cands with
  | nil => intro acc h; exact h
  | cons c t ih =>
    intro acc h
    exact ih (addImage acc (f c)) (addImage_nodup h (f c))

/-- The JSON-LD fold of `_extract_images` keeps the list duplicate-free. -/
theorem foldlM_imageFold_nodup (base : Option Str) :
    ∀ (xs : List Json) (acc : List Str), acc.Nodup →
      ∀ {l : List Str}, xs.foldlM (imageFold base) acc = Except.ok l → l.Nodup := by
  intro xs
  induction xs with
  | nil =>
    intro acc h l hl
    rw [List.foldlM_nil] at hl
    obtain rfl := py_ok_inj hl
    exact h
  | cons j t ih =>
    intro acc h l hl
    rw [List.foldlM_cons] at hl
    obtain ⟨acc2, ha, hl⟩ := py_bind_eq_ok hl
    have hacc2 : acc2.Nodup := by
      unfold imageFold at ha
      obtain ⟨r, -, ha2⟩ := py_bind_eq_ok ha
      obtain rfl := py_ok_inj ha2
      exact addImage_nodup h r
    exact ih acc2 hacc2 hl

/-- `_extract_images` returns a duplicate-free list of at most ten entries. -/
theorem extractImages_inv {html : Str} {base : Option Str} {l : List Str}
    (h : extractImages html base = Except.ok l) : l.Nodup ∧ l.length ≤ 10 := by
  unfold extractImages at h
  obtain ⟨ld, -, h⟩ := py_bind_eq_ok h
  have hbase : ((imagePatterns.map (fun p => findAllG1 p html)).flatten.foldl
      (fun acc m => addImage acc (resolveUrl base (trim m))) []).Nodup :=
    foldl_addImage_nodup _ _ [] List.nodup_nil
  have main : ∃ imgs : List Str, imgs.Nodup ∧ l = imgs.take 10 := by
    cases hld : ld.imagesJ with
    | some ldImages =>
      rw [hld] at h
      dsimp only at h
      obtain ⟨imgs, hi, h⟩ := py_bind_eq_ok h
      exact ⟨imgs, foldlM_imageFold_nodup base ldImages _ hbase hi, (py_ok_inj h).symm⟩
    | none =>
      rw [hld] at h
      dsimp only at h
      exact ⟨_, hbase, (py_ok_inj h).symm⟩
  obtain ⟨imgs, hnd, rfl⟩ := main
  constructor
  · exact List.Sublist.nodup (List.take_sublist 10 imgs) hnd
  · rw [List.length_take]
    exact min_le_left _ _

/-- The images of a built record are clean, given a deduplicated bounded raw list. -/
theorem imagesChk_builtProduct {raw : RawData} (hn : raw.images.Nodup)
    (hl : raw.images.length ≤ 10) : imagesChk (builtProduct raw) = true := by
  have himg : (builtProduct raw).images =
      ((raw.images.filter (fun i => !i.isEmpty)).filter (fun i =>
        !i.isEmpty && (hasStart i "http://".data || hasStart i "https://".data))) := by
    unfold builtProduct
    rw [postInit_images]
    rfl
  unfold imagesChk
  rw [himg]
  simp only [Bool.and_eq_true]
  refine ⟨⟨?_, ?_⟩, ?_⟩
  · exact decide_eq_true (List.Nodup.filter _ (List.Nodup.filter _ hn))
  · exact decide_eq_true (le_trans (le_trans (List.length_filter_le _ _)
      (List.length_filter_le _ _)) hl)
  · rw [List.all_eq_true]
    intro i hi
    have hmem := (List.mem_filter.mp hi).2
    simp only [Bool.and_eq_true] at hmem
    exact hmem.2

/-! ## Claim theorems: the generic pipeline -/

/-- C2 (amended): in every record `extract_from_html` returns, each populated
specialized free-text field — brand, model, sku, category, volume, dimensions,
material and color — has passed the sanitizer for its bound: at most 100, 50, 50,
100, 50, 200, 100 and 50 characters respectively, no rejected start (`http`, `www`,
`data:`, `class=`, `style=`, case-insensitively) and none of the nine structural
characters.  The name and description fields are exempt: the code stores them
unsanitized, as the counterexample shows. -/
theorem extract_from_html_sanitized_fields (html : Str) (url base0 : Option Str) :
    onOkProduct sanitizedChk (genericExtract html url base0) = true := by
  cases hres : genericExtract html url base0 with
  | error e => rfl
  | ok o =>
    cases o with
    | none => rfl
    | some p =>
      obtain ⟨raw, -, rfl⟩ := genericExtract_inv hres
      exact builtProduct_sanitizedChk raw

/-- C10: whenever the generic `extract_from_html` returns a record with a non-null
model, that model is not case-insensitively equal to any of the bare HTML element
names html, body, div, span, section, article, header, footer. -/
theorem extract_from_html_model_not_element (html : Str) (url base0 : Option Str) :
    onOkProduct modelChk (genericExtract html url base0) = true := by
  cases hres : genericExtract html url base0 with
  | error e => rfl
  | ok o =>
    cases o with
    | none => rfl
    | some p =>
      obtain ⟨raw, -, rfl⟩ := genericExtract_inv hres
      exact modelChk_of_modelOut (modelOut_builtProduct raw)

/-- C7 (amended): every record of the generic `extract_from_html` has an images
field that is an ordered, deduplicated list of at most 10 URLs, each starting with
`http://` or `https://`; non-http schemes are dropped.  The Boonthavorn extractor
violates this invariant by assigning the raw JSON-LD image list after construction,
as the counterexample shows. -/
theorem extract_from_html_images_invariant (html : Str) (url base0 : Option Str) :
    onOkProduct imagesChk (genericExtract html url base0) = true := by
  cases hres : genericExtract html url base0 with
  | error e => rfl
  | ok o =>
    cases o with
    | none => rfl
    | some p =>
      obtain ⟨raw, hraw, rfl⟩ := genericExtract_inv hres
      obtain ⟨hn, hl⟩ := extractImages_inv (genericRaw_inv hraw)
      exact imagesChk_builtProduct hn hl

/-- C9 counterexample: on empty page content `extract_from_html` returns `None` —
it does not build an empty-result record with a failure marker (that record is
created by the output formatter, not the extractor). -/
theorem extract_from_html_empty_none_cex :
    genericExtract [] none none = Except.ok none := rfl

/-- C9 (amended): for every url and base, empty page content short-circuits
`extract_from_html` to `None` without raising; the well-defined empty-result record
with its failure marker is built by the caller (`output_formatter`), not by the
extractor. -/
theorem extract_from_html_empty_returns_none (url base0 : Option Str) :
    genericExtract [] url base0 = Except.ok none := rfl

/-! ## Claim theorems: concrete runs -/

/-- C1: `__post_init__` on a record with current price 100 and original price 50
stores discount_amount -50 and discount_percent -100 — the discount fields go
negative instead of staying at 0 (and the declared schema minimum of 0 is
violated), refuting the claimed non-negativity; `has_discount` is false while the
stored amount is nonzero. -/
theorem discount_fields_negative :
    (postInit c1Product).discountAmount = some (mkRat (-50) 1) ∧
    (postInit c1Product).discountPercent = some (mkRat (-100) 1) ∧
    (postInit c1Product).hasDiscount = false := by decide

/-- C2 counterexample: a page whose `<h1>` title holds an apostrophe yields a
record whose populated name field still contains that apostrophe — the name field
is stored without passing the sanitizer, refuting the original claim for the
name/description fields. -/
theorem extract_from_html_name_unsanitized :
    onOkProduct nameCharsChk (genericExtract c2Html none none) = false := by decide

/-- C7 counterexample: on a Boonthavorn page whose JSON-LD image list holds a
`data:` URL, the Boonthavorn extractor returns a record whose images field keeps
the raw `data:` entry — retailer-specific extraction violates the images
invariant. -/
theorem boonthavorn_images_data_url :
    onOkProd imagesChk (boonthavornExtract bh7 none none) = false := by decide

/-- C8: a JSON-LD offer price that `float()` rejects propagates out of
`BoonthavornExtractor.extract_from_html` as an uncaught exception — the bespoke
logic is not wrapped in any try/except, so the whole page's extraction aborts,
refuting the claimed degrade-to-generic behaviour. -/
theorem boonthavorn_price_exception :
    boonthavornExtract bh8 none none = Except.error () := by decide

end Optus
